import Mathlib

/-! # qlprint: a verification development of the QL raster driver

Shallow embedding of `src/src/ql.c` (and of the option handling and the
polling loop of `src/src/main.c`).  Bytes are natural numbers below 256,
`unsigned` arithmetic is taken modulo `2 ^ 32`, and the operating system is an
environment of system-call outcomes: the `k`-th call of `write`, `read`
and `open` gets the `k`-th outcome of the environment.  The `static` buffers
of the status decoders are an explicit decoder state, and a call with
undefined behaviour has no result.  The status report is the list of its
lines, and the memory accesses of the column packing are given as the lists of
the indices read and of the offsets written.
-/

set_option maxRecDepth 20000

namespace Qlprint

/-! ## Data model (`src/include/ql.h`) -/

/-- The raster image `ql_raster_image_t`: `width`, `height` (both `uint16_t`)
and the row-major pixel bytes `data`. -/
structure ql_raster_image_t where
  width : Nat
  height : Nat
  data : List Nat
deriving DecidableEq, Repr

/-- The print configuration `ql_print_cfg_t`. -/
structure ql_print_cfg_t where
  threshold : Nat
  flags : Nat
  media_type : Nat
  media_width : Nat
  media_length : Nat
  first_page : Bool
deriving DecidableEq, Repr

def QL_PRINT_CFG_MEDIA_TYPE : Nat := 0x02
def QL_PRINT_CFG_MEDIA_WIDTH : Nat := 0x04
def QL_PRINT_CFG_MEDIA_LENGTH : Nat := 0x08
def QL_PRINT_CFG_QUALITY_PRIO : Nat := 0x40

/-- Range of the C type `unsigned` (32 bits). -/
def UNSIGNED_RANGE : Nat := 4294967296

/-- The image is well formed for its C type: both dimensions fit `uint16_t`
and `data` holds `width * height` pixels. -/
def ql_raster_image_t.wf (img : ql_raster_image_t) : Prop :=
  img.width < 65536 ∧ img.height < 65536 ∧ img.data.length = img.width * img.height

instance (img : ql_raster_image_t) : Decidable img.wf := by
  unfold ql_raster_image_t.wf; infer_instance

/-! ## Column packing (`pack_column`, ql.c lines 160-175) -/

/-- One pass of the inner loop body of `pack_column`, for bit position `i` of
byte `n`: `img_row = n * 8 + i`; when the row exists and its pixel in column
`colno` is below the threshold, `*out |= 1 << (7 - i)`. -/
def pack_bit (img : ql_raster_image_t) (colno black_below_v n : Nat) (out i : Nat) : Nat :=
  let img_row := (n * 8 + i) % UNSIGNED_RANGE
  if img_row < img.height then
    if img.data.getD ((img_row * img.width + colno) % UNSIGNED_RANGE) 0 < black_below_v then
      out ||| (1 <<< (7 - i))
    else out
  else out

/-- Byte `n` of a packed column: `*out = 0` followed by the inner loop
`for (i = 0; i < 8; ++i)`. -/
def pack_byte (img : ql_raster_image_t) (colno black_below_v n : Nat) : Nat :=
  (List.range 8).foldl (pack_bit img colno black_below_v n) 0

/-- The function `pack_column`: the outer loop `for (n = 0; n < bytes; ++n, ++out)`
stores one packed byte per `n`; the result is the content of `out[0 .. bytes)`. -/
def pack_column (bytes colno : Nat) (img : ql_raster_image_t) (black_below_v : Nat) : List Nat :=
  (List.range bytes).map (pack_byte img colno black_below_v)

/-- The condition under which `pack_bit` sets its bit, read off the two nested
`if`s of the inner loop body. -/
def pack_cond (img : ql_raster_image_t) (colno black_below_v n i : Nat) : Bool :=
  decide ((n * 8 + i) % UNSIGNED_RANGE < img.height) &&
    decide (img.data.getD
      ((((n * 8 + i) % UNSIGNED_RANGE) * img.width + colno) % UNSIGNED_RANGE) 0 < black_below_v)

/-! ## The operating system

The driver talks to the device through `write`, `read` and `open`.  Their
outcomes are not determined by the program, so they are given by an environment:
the `k`-th call of each system call gets the `k`-th outcome. -/

/-- The `errno` values the driver distinguishes, `EIO` standing for any other
error. -/
inductive Errno where
  | EAGAIN
  | EINTR
  | EBADF
  | EIO
  | ETIME
deriving DecidableEq, Repr

/-- Outcome of one `write(fd, p, count)`: the device takes up to `n` bytes (the
call returns `min n count`), or the call returns -1 with the given `errno`. -/
inductive WriteRet where
  | accept (n : Nat)
  | error (e : Errno)
deriving DecidableEq, Repr

/-- Outcome of one `read(fd, status, 32)`: the bytes delivered (at most 32 of
them are taken; the call returns their number), or -1 with the given `errno`. -/
inductive ReadRet where
  | data (bs : List Nat)
  | error (e : Errno)
deriving DecidableEq, Repr

/-- Outcome of one `open(printer, O_RDWR)`: a valid descriptor, or -1 with the
given `errno`. -/
inductive OpenRet where
  | ok
  | error (e : Errno)
deriving DecidableEq, Repr

/-- The environment: the outcome of the `k`-th call of each system call, and the
value of the flag `timed_out` of `main.c` (set by the `SIGALRM` handler) at its
`k`-th inspection. -/
structure Env where
  write_ret : Nat → WriteRet
  read_ret : Nat → ReadRet
  open_ret : Nat → OpenRet
  timed_out : Nat → Bool

/-- State of the process: the context `struct ql_ctx` (`printer`, and whether
`fd` is a valid descriptor), `errno`, and the trace of the system calls made so
far: how many of each, the bytes the device has accepted (`sent`) and the paths
given to `open` (`opened`). -/
structure ql_ctx where
  printer : String
  fd_valid : Bool
  errno : Option Errno
  nwrites : Nat
  nreads : Nat
  nopens : Nat
  sent : List Nat
  opened : List String
deriving DecidableEq, Repr

/-- The status reply `ql_status_t`, as the 32 bytes the device sends.  All its
members are `uint8_t`, so member number `k` is byte `k`. -/
structure ql_status_t where
  bytes : List Nat
deriving DecidableEq, Repr

def ql_status_t.model_code (s : ql_status_t) : Nat := s.bytes.getD 4 0
def ql_status_t.err_info_1 (s : ql_status_t) : Nat := s.bytes.getD 8 0
def ql_status_t.err_info_2 (s : ql_status_t) : Nat := s.bytes.getD 9 0
def ql_status_t.media_width_mm (s : ql_status_t) : Nat := s.bytes.getD 10 0
def ql_status_t.media_type (s : ql_status_t) : Nat := s.bytes.getD 11 0
def ql_status_t.mode (s : ql_status_t) : Nat := s.bytes.getD 15 0
def ql_status_t.media_length_mm (s : ql_status_t) : Nat := s.bytes.getD 17 0
def ql_status_t.status_type (s : ql_status_t) : Nat := s.bytes.getD 18 0

def ESC : Nat := 0x1b
def NUM_STATUS_READ_RETRIES : Nat := 100
def QL_STATUS_TYPE_PRINTING_DONE : Nat := 0x01

/-! ## Writing (`retry_write`, `full_write`, ql.c lines 25-44) -/

/-- The loop of `retry_write`, entered with `written` bytes already accepted.
Each pass makes one `write` call, so `fuel` bounds the number of calls; `none`
means the loop is still running when the fuel is spent.  The result is the
returned count and the state. -/
def retry_write (env : Env) : Nat → ql_ctx → List Nat → Nat → Option (Nat × ql_ctx)
  | fuel, ctx, buf, written =>
    if written = buf.length then some (written, ctx)
    else
      match fuel with
      | 0 => none
      | fuel + 1 =>
        match env.write_ret ctx.nwrites with
        | WriteRet.error e =>
          let ctx1 := { ctx with nwrites := ctx.nwrites + 1, errno := some e }
          if e = Errno.EAGAIN ∨ e = Errno.EINTR then retry_write env fuel ctx1 buf written
          else some (written, ctx1)
        | WriteRet.accept n =>
          let m := min n (buf.length - written)
          retry_write env fuel
            { ctx with nwrites := ctx.nwrites + 1
                       sent := ctx.sent ++ (buf.drop written).take m }
            buf (written + m)

/-- The macro `full_write(fd, buf)`: `retry_write(fd, buf, sizeof(buf)) == sizeof(buf)`. -/
def full_write (env : Env) (fuel : Nat) (ctx : ql_ctx) (buf : List Nat) : Option (Bool × ql_ctx) :=
  match retry_write env fuel ctx buf 0 with
  | none => none
  | some (n, ctx1) => some (decide (n = buf.length), ctx1)

/-! ## Raster transmission (`ql_print_raster_image`, ql.c lines 178-208) -/

/-- The block size `dn` chosen at the head of `ql_print_raster_image`: 90, or 162
when the model code is `'P'` or `'4'`. -/
def raster_block_size (status : ql_status_t) : Nat :=
  if status.model_code = 0x50 ∨ status.model_code = 0x34 then 162 else 90

/-- The array `print_info` of `ql_print_raster_image`; every entry is converted
to `char`, that is taken modulo 256. -/
def print_info (img : ql_raster_image_t) (cfg : ql_print_cfg_t) : List Nat :=
  [ ESC, 0x69, 0x7a,
    (cfg.flags ||| 0x80) % 256,
    (if cfg.flags &&& QL_PRINT_CFG_MEDIA_TYPE ≠ 0 then cfg.media_type else 0) % 256,
    (if cfg.flags &&& QL_PRINT_CFG_MEDIA_WIDTH ≠ 0 then cfg.media_width else 0) % 256,
    (if cfg.flags &&& QL_PRINT_CFG_MEDIA_LENGTH ≠ 0 then cfg.media_length else 0) % 256,
    (img.width &&& 0xff) % 256, (img.width >>> 8) % 256, 0, 0,
    (if cfg.first_page then 0 else 1), 0 ]

/-- The array `block` for column `w`: the header `'g'`, 0, `dn` and the packed
column at offset 3. -/
def raster_block (dn w : Nat) (img : ql_raster_image_t) (cfg : ql_print_cfg_t) : List Nat :=
  [0x67, 0, dn % 256] ++ pack_column dn w img cfg.threshold

/-- The loop `for (w = 0; w < img->width; ++w)` of `ql_print_raster_image`, with
`k` columns left to send from column `w` on; a block that is not written in full
ends the function with `false`. -/
def raster_loop (env : Env) (fuel dn : Nat) (img : ql_raster_image_t) (cfg : ql_print_cfg_t) :
    Nat → Nat → ql_ctx → Option (Bool × ql_ctx)
  | 0, _, ctx => some (true, ctx)
  | k + 1, w, ctx =>
    match full_write env fuel ctx (raster_block dn w img cfg) with
    | none => none
    | some (false, ctx1) => some (false, ctx1)
    | some (true, ctx1) => raster_loop env fuel dn img cfg k (w + 1) ctx1

/-- The function `ql_print_raster_image`.  `fuel` bounds the `write` calls of
each `full_write`. -/
def ql_print_raster_image (env : Env) (fuel : Nat) (ctx : ql_ctx) (status : ql_status_t)
    (img : ql_raster_image_t) (cfg : ql_print_cfg_t) : Option (Bool × ql_ctx) :=
  let dn := raster_block_size status
  if img.width > dn * 8 then some (false, ctx)
  else
    match full_write env fuel ctx (print_info img cfg) with
    | none => none
    | some (false, ctx1) => some (false, ctx1)
    | some (true, ctx1) =>
      match raster_loop env fuel dn img cfg img.width 0 ctx1 with
      | none => none
      | some (false, ctx2) => some (false, ctx2)
      | some (true, ctx2) => full_write env fuel ctx2 [0x1a]

/-- The frames `ql_print_raster_image` writes for an image that passes the width
check, in order: the print-information frame, one raster-data frame per column,
and the commit byte. -/
def raster_frames (status : ql_status_t) (img : ql_raster_image_t) (cfg : ql_print_cfg_t) :
    List (List Nat) :=
  print_info img cfg ::
    ((List.range img.width).map (fun c => raster_block (raster_block_size status) c img cfg)
      ++ [[0x1a]])

/-- Writing a list of frames in order with `full_write`, stopping with `false` at
the first frame that is not written in full. -/
def write_frames (env : Env) (fuel : Nat) : List (List Nat) → ql_ctx → Option (Bool × ql_ctx)
  | [], ctx => some (true, ctx)
  | f :: fs, ctx =>
    match full_write env fuel ctx f with
    | none => none
    | some (false, ctx1) => some (false, ctx1)
    | some (true, ctx1) => write_frames env fuel fs ctx1

/-! ## Concrete inputs used by the witnesses -/

/-- An environment in which every `write` takes up to 1000 bytes, every `read`
and every `open` fails, and the alarm never fires. -/
def env_accept_all : Env where
  write_ret := fun _ => WriteRet.accept 1000
  read_ret := fun _ => ReadRet.error Errno.EIO
  open_ret := fun _ => OpenRet.error Errno.EIO
  timed_out := fun _ => false

/-- An environment in which only the first `k` `write` calls succeed; every later
one fails with `EIO`. -/
def env_accept_first (k : Nat) : Env where
  write_ret := fun j => if j < k then WriteRet.accept 1000 else WriteRet.error Errno.EIO
  read_ret := fun _ => ReadRet.error Errno.EIO
  open_ret := fun _ => OpenRet.error Errno.EIO
  timed_out := fun _ => false

/-- The context right after `ql_open` of the default port, before any traced call. -/
def ctx0 : ql_ctx where
  printer := "/dev/usb/lp0"
  fd_valid := true
  errno := none
  nwrites := 0
  nreads := 0
  nopens := 0
  sent := []
  opened := []

/-- A status reply of a QL-570 (model code `'2'`) with 62 mm continuous tape. -/
def status_ql570 : ql_status_t :=
  ⟨[0x80, 0x20, 0x42, 0x30, 0x32, 0x30, 0x30, 0, 0, 0, 62, 0x0a, 0, 0, 0x3f, 0,
    0, 0, 0, 0, 0, 0, 0, 0, 0, 0, 0, 0, 0, 0, 0, 0]⟩

/-- The configuration `main` starts from: threshold 128, no flags, first page. -/
def cfg_default : ql_print_cfg_t := ⟨0x80, 0, 0, 0, 0, true⟩

/-- A 1 x 721 image: 720 white rows and a black pixel in the last row, row 720. -/
def img_too_tall : ql_raster_image_t := ⟨1, 721, List.replicate 720 255 ++ [0]⟩

/-! ## Reading the status (`ql_read_status`, ql.c lines 86-106) -/

/-- The value `read` returns: the number of bytes delivered (at most 32), or -1. -/
def ReadRet.ret : ReadRet → Int
  | ReadRet.data bs => ((bs.take 32).length : Nat)
  | ReadRet.error _ => -1

/-- The value of `errno` after a `read`: set by a failing call, else unchanged. -/
def ReadRet.errno_after (r : ReadRet) (old : Option Errno) : Option Errno :=
  match r with
  | ReadRet.data _ => old
  | ReadRet.error e => some e

/-- The status buffer after a `read`: the bytes delivered overwrite its head. -/
def ReadRet.store (r : ReadRet) (status : ql_status_t) : ql_status_t :=
  match r with
  | ReadRet.data bs => ⟨bs.take 32 ++ status.bytes.drop (bs.take 32).length⟩
  | ReadRet.error _ => status

/-- The two statements `close(ctx->fd); ctx->fd = open(ctx->printer, O_RDWR);`. -/
def reopen (env : Env) (ctx : ql_ctx) : ql_ctx :=
  match env.open_ret ctx.nopens with
  | OpenRet.ok =>
    { ctx with nopens := ctx.nopens + 1, opened := ctx.opened ++ [ctx.printer],
               fd_valid := true }
  | OpenRet.error e =>
    { ctx with nopens := ctx.nopens + 1, opened := ctx.opened ++ [ctx.printer],
               fd_valid := false, errno := some e }

/-- The loop `for (i = 0; i < NUM_STATUS_READ_RETRIES; ++i)` of `ql_read_status`
with `k` passes left, followed by `errno = ETIME; return false;`.  The result is
the returned flag, the state and the status buffer. -/
def ql_read_status_loop (env : Env) : Nat → ql_ctx → ql_status_t → Bool × ql_ctx × ql_status_t
  | 0, ctx, status => (false, { ctx with errno := some Errno.ETIME }, status)
  | k + 1, ctx, status =>
    let r := env.read_ret ctx.nreads
    let ret := r.ret
    let ctx1 := { ctx with nreads := ctx.nreads + 1, errno := r.errno_after ctx.errno }
    let status1 := r.store status
    if ret = 32 then (true, ctx1, status1)
    else if ret = 0 ∨ (ret = -1 ∧ ctx1.errno = some Errno.EBADF) then
      let ctx2 := reopen env ctx1
      if ctx2.fd_valid = false then (false, ctx2, status1)
      else ql_read_status_loop env k ctx2 status1
    else if ret = -1 ∧ (ctx1.errno ≠ some Errno.EAGAIN ∨ ctx1.errno ≠ some Errno.EINTR) then
      (false, ctx1, status1)
    else ql_read_status_loop env k ctx1 status1

/-- The function `ql_read_status`. -/
def ql_read_status (env : Env) (ctx : ql_ctx) (status : ql_status_t) :
    Bool × ql_ctx × ql_status_t :=
  ql_read_status_loop env NUM_STATUS_READ_RETRIES ctx status

/-! ## The polling loop of `main` (main.c lines 177-198) -/

/-- How the `do ... while` loop after a page ends: the `"OK"` line is printed, or
`main` returns `EXIT_FAILURE` after one of its two messages. -/
inductive PollResult where
  | page_ok
  | stopped_responding
  | reported_errors
deriving DecidableEq, Repr

/-- The `do ... while (status.status_type != QL_STATUS_TYPE_PRINTING_DONE)` loop.
`fuel` bounds the passes and `nt` counts the inspections of `timed_out` so far.
The statement `continue` of a `do ... while` loop jumps to the loop condition, so
after a failed read with the alarm not yet fired the condition is evaluated on
the status buffer as it is. -/
def poll_loop (env : Env) : Nat → Nat → ql_ctx → ql_status_t →
    Option (PollResult × ql_ctx × ql_status_t)
  | 0, _, _, _ => none
  | fuel + 1, nt, ctx, status =>
    match ql_read_status env ctx status with
    | (false, ctx1, status1) =>
      if env.timed_out nt = false then
        if status1.status_type ≠ QL_STATUS_TYPE_PRINTING_DONE then
          poll_loop env fuel (nt + 1) ctx1 status1
        else some (PollResult.page_ok, ctx1, status1)
      else some (PollResult.stopped_responding, ctx1, status1)
    | (true, ctx1, status1) =>
      if status1.err_info_1 ≠ 0 ∨ status1.err_info_2 ≠ 0 then
        some (PollResult.reported_errors, ctx1, status1)
      else if status1.status_type ≠ QL_STATUS_TYPE_PRINTING_DONE then
        poll_loop env fuel nt ctx1 status1
      else some (PollResult.page_ok, ctx1, status1)

/-- An environment with the given `read` outcomes, in which every `write` takes
up to 1000 bytes, every `open` succeeds and the alarm never fires. -/
def env_reads (reads : Nat → ReadRet) : Env where
  write_ret := fun _ => WriteRet.accept 1000
  read_ret := reads
  open_ret := fun _ => OpenRet.ok
  timed_out := fun _ => false

/-- A status reply as left by the previous page: that of `status_ql570` with
`status_type = QL_STATUS_TYPE_PRINTING_DONE` and no error bit. -/
def status_printing_done : ql_status_t :=
  ⟨[0x80, 0x20, 0x42, 0x30, 0x32, 0x30, 0x30, 0, 0, 0, 62, 0x0a, 0, 0, 0x3f, 0,
    0, 0, 0x01, 0, 0, 0, 0, 0, 0, 0, 0, 0, 0, 0, 0, 0]⟩

/-- A status reply of phase-change type (`status_type = 0x06`), no error bit. -/
def status_phase_change : ql_status_t :=
  ⟨[0x80, 0x20, 0x42, 0x30, 0x32, 0x30, 0x30, 0, 0, 0, 62, 0x0a, 0, 0, 0x3f, 0,
    0, 0, 0x06, 0x01, 0, 0, 0, 0, 0, 0, 0, 0, 0, 0, 0, 0]⟩

/-- A device that stays silent: every `read` returns 0 bytes. -/
def env_silent : Env := env_reads (fun _ => ReadRet.data [])

/-- The first `read` fails with the given `errno`; every later one delivers the
32 bytes of `status_ql570`. -/
def env_error_then_reply (e : Errno) : Env :=
  env_reads (fun k => if k = 0 then ReadRet.error e else ReadRet.data status_ql570.bytes)

/-- The first `read` delivers the given bytes; every later one delivers the 32
bytes of `status_ql570`. -/
def env_bytes_then_reply (bs : List Nat) : Env :=
  env_reads (fun k => if k = 0 then ReadRet.data bs else ReadRet.data status_ql570.bytes)

/-- The first `read` delivers the given bytes; every later one fails with `EIO`. -/
def env_bytes_then_error (bs : List Nat) : Env :=
  env_reads (fun k => if k = 0 then ReadRet.data bs else ReadRet.error Errno.EIO)

/-- The `read` at position `p` is short: it delivers between 1 and 31 bytes. -/
def short_read (env : Env) (p : Nat) : Prop :=
  ∃ bs, env.read_ret p = ReadRet.data bs ∧ 0 < bs.length ∧ bs.length < 32

/-! ## Status decoders (`ql_decode_model`, `ql_decode_media_type`, ql.c lines 211-233, 292-310)

The decoders keep function-local `static` buffers, which persist from call to
call; they are the decoder state. -/

/-- The `static` buffers of the decoders: `buf` of `ql_decode_model`, `buf` of
`ql_decode_media_type` (both as C strings, without the final NUL) and the pointer
`buf` of `ql_decode_errors` (`none` for the null pointer). -/
structure decoder_state where
  model_buf : List Char
  media_buf : List Char
  errors_buf : Option (List Char)
deriving DecidableEq, Repr

/-- The decoder state at program start: the initialisers of the `static` buffers. -/
def decoder_pristine : decoder_state where
  model_buf := "unrecognised (type code 0x$$)".toList
  media_buf := "unknown (code 0x$$)".toList
  errors_buf := none

/-- The C function `strchr(s, c)`: the offset of the first `c` in `s`, or `none`
for the null pointer. -/
def strchr : List Char → Char → Option Nat
  | [], _ => none
  | x :: xs, c => if x = c then some 0 else (strchr xs c).map (fun q => q + 1)

/-- The lowercase hexadecimal digit of a value below 16. -/
def hex_digit (d : Nat) : Char :=
  if d < 10 then Char.ofNat (48 + d) else Char.ofNat (87 + d)

/-- The conversion `%02hhx` of `printf`: the argument is converted to
`unsigned char` and printed with two lowercase hexadecimal digits. -/
def fmt_02hhx (v : Nat) : List Char :=
  [hex_digit ((v % 256) / 16), hex_digit ((v % 256) % 16)]

/-- The statements `char *q = strchr(buf, '$'); sprintf(q, "%02hhx)", code);`
on a `static` buffer: the text from the first `'$'` on is replaced by the two
digits and `')'`.  Without a `'$'` the pointer `q` is null and `sprintf` writes
through a null pointer: the behaviour is undefined, rendered as `none`. -/
def sprintf_at_dollar (buf : List Char) (code : Nat) : Option (List Char) :=
  match strchr buf '$' with
  | none => none
  | some q => some (buf.take q ++ fmt_02hhx code ++ [')'])

/-- The function `ql_decode_model`: the label and the decoder state after the
call, or `none` when the call has undefined behaviour. -/
def ql_decode_model (st : decoder_state) (status : ql_status_t) :
    Option (String × decoder_state) :=
  if status.model_code = 0x31 then some ("QL-560", st)
  else if status.model_code = 0x32 then some ("QL-570", st)
  else if status.model_code = 0x33 then some ("QL-580N", st)
  else if status.model_code = 0x34 then some ("QL-1060N", st)
  else if status.model_code = 0x35 then some ("QL-700", st)
  else if status.model_code = 0x36 then some ("QL-710W", st)
  else if status.model_code = 0x37 then some ("QL-720NW", st)
  else if status.model_code = 0x4f then some ("QL-500/550", st)
  else if status.model_code = 0x50 then some ("QL-1050", st)
  else if status.model_code = 0x51 then some ("QL-650TD", st)
  else
    match sprintf_at_dollar st.model_buf status.model_code with
    | none => none
    | some buf => some (String.mk buf, { st with model_buf := buf })

def QL_MEDIA_TYPE_NO_MEDIA : Nat := 0x00
def QL_MEDIA_TYPE_CONTINUOUS : Nat := 0x0a
def QL_MEDIA_TYPE_DIECUT_LABELS : Nat := 0x0b
def QL_MEDIA_TYPE_CONTINUOUS_ALT : Nat := 0x4a
def QL_MEDIA_TYPE_DIECUT_LABELS_ALT : Nat := 0x4b

/-- The function `ql_decode_media_type`. -/
def ql_decode_media_type (st : decoder_state) (status : ql_status_t) :
    Option (String × decoder_state) :=
  if status.media_type = QL_MEDIA_TYPE_NO_MEDIA then some ("no-media", st)
  else if status.media_type = QL_MEDIA_TYPE_CONTINUOUS
      ∨ status.media_type = QL_MEDIA_TYPE_CONTINUOUS_ALT then
    some ("continuous-length-tape", st)
  else if status.media_type = QL_MEDIA_TYPE_DIECUT_LABELS
      ∨ status.media_type = QL_MEDIA_TYPE_DIECUT_LABELS_ALT then
    some ("die-cut-labels", st)
  else
    match sprintf_at_dollar st.media_buf status.media_type with
    | none => none
    | some buf => some (String.mk buf, { st with media_buf := buf })

/-- A status reply with the given model code and media type, all else 0. -/
def status_with_codes (model media : Nat) : ql_status_t :=
  ⟨[0, 0, 0, 0, model, 0, 0, 0, 0, 0, 0, media, 0, 0, 0, 0,
    0, 0, 0, 0, 0, 0, 0, 0, 0, 0, 0, 0, 0, 0, 0, 0]⟩

/-! ## Error decoding (`ql_decode_errors`, ql.c lines 243-290) -/

def QL_ERR_1_NO_MEDIA : Nat := 0x01
def QL_ERR_1_END_OF_MEDIA : Nat := 0x02
def QL_ERR_1_CUTTER_JAM : Nat := 0x04
def QL_ERR_1_PRINTER_IN_USE : Nat := 0x10
def QL_ERR_1_PRINTER_TURNED_OFF : Nat := 0x20
def QL_ERR_1_HIGH_VOLTAGE_ADAPTER : Nat := 0x40
def QL_ERR_1_FAN_MOTOR_ERROR : Nat := 0x80
def QL_ERR_2_REPLACE_MEDIA : Nat := 0x01
def QL_ERR_2_EXPANSION_BUFFER_FULL : Nat := 0x02
def QL_ERR_2_COMMUNICATION_ERROR : Nat := 0x04
def QL_ERR_2_COMMUNICATION_BUFFER_FULL : Nat := 0x08
def QL_ERR_2_COVER_OPEN : Nat := 0x10
def QL_ERR_2_CANCEL_KEY : Nat := 0x20
def QL_ERR_2_MEDIA_CANNOT_BE_FED : Nat := 0x40
def QL_ERR_2_SYSTEM_ERROR : Nat := 0x80

/-- The table `strmap` of `ql_decode_errors`: the bit (`ERR1(x)` is `x << 0`,
`ERR2(x)` is `x << 8`) and its text. -/
def strmap : List (Nat × String) :=
  [ (QL_ERR_1_NO_MEDIA <<< 0, "no-media "),
    (QL_ERR_1_END_OF_MEDIA <<< 0, "end-of-media "),
    (QL_ERR_1_CUTTER_JAM <<< 0, "cutter-jam "),
    (QL_ERR_1_PRINTER_IN_USE <<< 0, "printer-in-use "),
    (QL_ERR_1_PRINTER_TURNED_OFF <<< 0, "printer-turned-off "),
    (QL_ERR_1_HIGH_VOLTAGE_ADAPTER <<< 0, "high-voltage-adapter "),
    (QL_ERR_1_FAN_MOTOR_ERROR <<< 0, "fan-motor-error "),
    (QL_ERR_2_REPLACE_MEDIA <<< 8, "replace-media "),
    (QL_ERR_2_EXPANSION_BUFFER_FULL <<< 8, "expansion-buffer-full "),
    (QL_ERR_2_COMMUNICATION_ERROR <<< 8, "communication-error "),
    (QL_ERR_2_COMMUNICATION_BUFFER_FULL <<< 8, "communication-buffer-full "),
    (QL_ERR_2_COVER_OPEN <<< 8, "cover-open "),
    (QL_ERR_2_CANCEL_KEY <<< 8, "cancel-key-pressed "),
    (QL_ERR_2_MEDIA_CANNOT_BE_FED <<< 8, "media-cannot-be-fed "),
    (QL_ERR_2_SYSTEM_ERROR <<< 8, "system-error ") ]

/-- The value `uint16_t errs = ERR1(err_info_1) | ERR2(err_info_2)`. -/
def error_bits (status : ql_status_t) : Nat :=
  ((status.err_info_1 <<< 0) ||| (status.err_info_2 <<< 8)) % 65536

/-- The buffer after `buf[0] = 0;` and the loop that appends, with `strcat`, the
text of every table entry whose bit is set in `errs`. -/
def decode_errors_buf (errs : Nat) : List Char :=
  strmap.foldl (fun buf e => if errs &&& e.1 ≠ 0 then buf ++ e.2.toList else buf) []

/-- The function `ql_decode_errors`.  `malloc_ok` is the outcome of the `malloc`
call that is made when the `static` pointer `buf` is still null. -/
def ql_decode_errors (malloc_ok : Bool) (st : decoder_state) (status : ql_status_t) :
    String × decoder_state :=
  if st.errors_buf = none ∧ malloc_ok = false then ("<host-out-of-memory>", st)
  else
    let buf := decode_errors_buf (error_bits status)
    (if buf = [] then "none" else String.mk buf, { st with errors_buf := some buf })

/-- The reference table of the error names: for each defined bit, in the order
`err_info_1` bit 0 to 7 then `err_info_2` bit 0 to 7, whether it is set and its name. -/
def error_table (e1 e2 : Nat) : List (Bool × String) :=
  [ (e1.testBit 0, "no-media"),
    (e1.testBit 1, "end-of-media"),
    (e1.testBit 2, "cutter-jam"),
    (e1.testBit 4, "printer-in-use"),
    (e1.testBit 5, "printer-turned-off"),
    (e1.testBit 6, "high-voltage-adapter"),
    (e1.testBit 7, "fan-motor-error"),
    (e2.testBit 0, "replace-media"),
    (e2.testBit 1, "expansion-buffer-full"),
    (e2.testBit 2, "communication-error"),
    (e2.testBit 3, "communication-buffer-full"),
    (e2.testBit 4, "cover-open"),
    (e2.testBit 5, "cancel-key-pressed"),
    (e2.testBit 6, "media-cannot-be-fed"),
    (e2.testBit 7, "system-error") ]

/-- The names of the defined error bits that are set, in bit-scan order. -/
def error_names (e1 e2 : Nat) : List String :=
  (error_table e1 e2).filterMap (fun p => if p.1 = true then some p.2 else none)

/-- A status reply with the given error bytes, all else 0. -/
def status_with_errors (e1 e2 : Nat) : ql_status_t :=
  ⟨[0, 0, 0, 0, 0, 0, 0, 0, e1, e2, 0, 0, 0, 0, 0, 0,
    0, 0, 0, 0, 0, 0, 0, 0, 0, 0, 0, 0, 0, 0, 0, 0]⟩

/-- The fifteen error names, in bit-scan order. -/
def all_error_names : List String :=
  [ "no-media", "end-of-media", "cutter-jam", "printer-in-use", "printer-turned-off",
    "high-voltage-adapter", "fan-motor-error", "replace-media", "expansion-buffer-full",
    "communication-error", "communication-buffer-full", "cover-open", "cancel-key-pressed",
    "media-cannot-be-fed", "system-error" ]

/-! ## Opening the device (`ql_open`, ql.c lines 47-63) -/

/-- The function `ql_open`, from a fresh trace: `none` when the fuel of the
`full_write` is spent, `some none` for the null pointer, else the context.  The
path is stored by `ctx->printer = strdup(printer)` (the copy is taken to succeed;
its result is not checked by the code), `malloc_ok` is the outcome of the `malloc`
of the context, and the result of the 200-byte clearing write is discarded. -/
def ql_open (env : Env) (fuel : Nat) (malloc_ok : Bool) (printer : String) :
    Option (Option ql_ctx) :=
  match env.open_ret 0 with
  | OpenRet.error _ => some none
  | OpenRet.ok =>
    if malloc_ok = false then some none
    else
      match full_write env fuel
          { printer := printer, fd_valid := true, errno := none, nwrites := 0, nreads := 0,
            nopens := 1, sent := [], opened := [printer] }
          (List.replicate 200 0) with
      | none => none
      | some (_, ctx1) => some (some ctx1)

/-- The `read` at position `p` makes `ql_read_status` reopen the device: it
returns 0 bytes or fails with `EBADF`. -/
def reopen_read (env : Env) (p : Nat) : Prop :=
  env.read_ret p = ReadRet.data [] ∨ env.read_ret p = ReadRet.error Errno.EBADF

/-- The `read` at position `p` neither ends `ql_read_status` with success nor
with a failure of the `read` itself: it delivers fewer than 32 bytes or fails
with `EBADF`. -/
def inconclusive_read (env : Env) (p : Nat) : Prop :=
  (∃ bs, env.read_ret p = ReadRet.data bs ∧ bs.length < 32) ∨
    env.read_ret p = ReadRet.error Errno.EBADF

/-- The first `k` reads return 0 bytes, the next one the 32 bytes of
`status_ql570`; every `open` succeeds. -/
def env_eof_then_reply (k : Nat) : Env :=
  env_reads (fun p => if p < k then ReadRet.data [] else ReadRet.data status_ql570.bytes)

/-! ## Configuration commands (ql.c lines 72-83, 109-157) -/

def MODE_RASTER : Nat := 1
def QL_MODE_AUTOCUT : Nat := 0x40

/-- The array `init` of `ql_init`: `ESC '@'`. -/
def cmd_init : List Nat := [ESC, 0x40]

/-- The array `status_req` of `ql_request_status`: `ESC 'i' 'S'`. -/
def cmd_request_status : List Nat := [ESC, 0x69, 0x53]

/-- The array `cmd` of `ql_set_mode`: `ESC 'i' 'M' mode`, the `unsigned mode`
converted to `char`. -/
def cmd_set_mode (mode : Nat) : List Nat := [ESC, 0x69, 0x4d, mode % 256]

/-- The array `cmd` of `ql_set_expanded_mode`: `ESC 'i' 'K' mode`. -/
def cmd_set_expanded_mode (mode : Nat) : List Nat := [ESC, 0x69, 0x4b, mode % 256]

/-- The array `cmd` of `ql_set_autocut_every_n`: `ESC 'i' 'A' n`. -/
def cmd_set_autocut_every_n (n : Nat) : List Nat := [ESC, 0x69, 0x41, n % 256]

/-- The array `cmd` of `ql_set_margin`: `ESC 'i' 'd' (dots & 0xff) (dots >> 8)`. -/
def cmd_set_margin (dots : Nat) : List Nat :=
  [ESC, 0x69, 0x64, (dots &&& 0xff) % 256, (dots >>> 8) % 256]

/-- The array `cmd` of `ql_switch_to_raster_mode`: `ESC 'i' 'a' MODE_RASTER`. -/
def cmd_switch_to_raster_mode : List Nat := [ESC, 0x69, 0x61, MODE_RASTER]

def ql_init (env : Env) (fuel : Nat) (ctx : ql_ctx) : Option (Bool × ql_ctx) :=
  full_write env fuel ctx cmd_init

def ql_request_status (env : Env) (fuel : Nat) (ctx : ql_ctx) : Option (Bool × ql_ctx) :=
  full_write env fuel ctx cmd_request_status

def ql_set_mode (env : Env) (fuel : Nat) (ctx : ql_ctx) (mode : Nat) : Option (Bool × ql_ctx) :=
  full_write env fuel ctx (cmd_set_mode mode)

def ql_set_expanded_mode (env : Env) (fuel : Nat) (ctx : ql_ctx) (mode : Nat) :
    Option (Bool × ql_ctx) :=
  full_write env fuel ctx (cmd_set_expanded_mode mode)

def ql_set_autocut_every_n (env : Env) (fuel : Nat) (ctx : ql_ctx) (n : Nat) :
    Option (Bool × ql_ctx) :=
  full_write env fuel ctx (cmd_set_autocut_every_n n)

def ql_set_margin (env : Env) (fuel : Nat) (ctx : ql_ctx) (dots : Nat) : Option (Bool × ql_ctx) :=
  full_write env fuel ctx (cmd_set_margin dots)

def ql_switch_to_raster_mode (env : Env) (fuel : Nat) (ctx : ql_ctx) : Option (Bool × ql_ctx) :=
  full_write env fuel ctx cmd_switch_to_raster_mode

/-- An operation writes exactly `frame`: whenever it returns, the device has
received a prefix of `frame` and nothing else, and the result is `true` if and
only if the whole frame was received; and it does return `true`, after one `write`
call, when that call accepts the whole frame. -/
def writes_exactly (op : Env → Nat → ql_ctx → Option (Bool × ql_ctx)) (frame : List Nat) :
    Prop :=
  (∀ (env : Env) (fuel : Nat) (ctx : ql_ctx) (b : Bool) (ctx1 : ql_ctx),
    op env fuel ctx = some (b, ctx1) →
    (∃ m, m ≤ frame.length ∧ ctx1.sent = ctx.sent ++ frame.take m) ∧
    (b = true ↔ ctx1.sent = ctx.sent ++ frame)) ∧
  (∀ (env : Env) (fuel : Nat) (ctx : ql_ctx) (n : Nat),
    env.write_ret ctx.nwrites = WriteRet.accept n → frame.length ≤ n →
    op env (fuel + 1) ctx
      = some (true, { ctx with nwrites := ctx.nwrites + 1, sent := ctx.sent ++ frame }))

/-! ## Termination of `retry_write` -/

/-- A `write` outcome that `retry_write` retries: -1 with `EAGAIN` or `EINTR`. -/
def is_transient : WriteRet → Bool
  | WriteRet.error Errno.EAGAIN => true
  | WriteRet.error Errno.EINTR => true
  | _ => false

/-- The number of transient outcomes among the `n` `write` outcomes from
position `s` on. -/
def transient_count (env : Env) : Nat → Nat → Nat
  | _, 0 => 0
  | s, n + 1 => (if is_transient (env.write_ret s) = true then 1 else 0)
      + transient_count env (s + 1) n

/-- An environment in which every `write` fails with `EAGAIN`. -/
def env_always_eagain : Env where
  write_ret := fun _ => WriteRet.error Errno.EAGAIN
  read_ret := fun _ => ReadRet.error Errno.EIO
  open_ret := fun _ => OpenRet.ok
  timed_out := fun _ => false

/-- The `write` outcomes are: `EINTR`, 1 byte taken, `EAGAIN`, then up to 1000
bytes taken by every later call. -/
def env_interrupted_writes : Env where
  write_ret := fun j =>
    if j = 0 then WriteRet.error Errno.EINTR
    else if j = 1 then WriteRet.accept 1
    else if j = 2 then WriteRet.error Errno.EAGAIN
    else WriteRet.accept 1000
  read_ret := fun _ => ReadRet.error Errno.EIO
  open_ret := fun _ => OpenRet.ok
  timed_out := fun _ => false

/-! ## The command line (`main`, main.c lines 51-88)

The C library function `getopt` is modelled in its POSIX scanning order: the
elements of `argv` are read from left to right and the scan stops at `--` or at
the first element that is not an option.  (The GNU library by default goes on
to options that follow an operand; command lines whose options all precede the
first operand are read alike in both orders.) -/

/-- What one call of `getopt` returns: an option character with its argument,
`'?'` for an unknown option character or a missing argument, or -1 at the end of
the options. -/
inductive GetoptRet where
  | opt (c : Char) (optarg : Option String)
  | unknown
  | done
deriving DecidableEq, Repr

/-- The scanning state of `getopt`: the option characters of the current `argv`
element that are still unread, and the `argv` elements after it. -/
structure GetoptState where
  cluster : List Char
  rest : List String
deriving DecidableEq, Repr

/-- Looking an option character up in an option string: `none` when it is not
listed, else whether it is followed by `':'`, that is takes an argument. -/
def optstring_lookup : List Char → Char → Option Bool
  | [], _ => none
  | o :: rest, c =>
    if o = c ∧ c ≠ ':' then some (decide (rest.head? = some ':'))
    else optstring_lookup rest c

/-- Reading the next option character `c` of a cluster whose remaining characters
are `cs`. -/
def getopt_char (optstring : List Char) (c : Char) (cs : List Char) (rest : List String) :
    GetoptRet × GetoptState :=
  match optstring_lookup optstring c with
  | none => (GetoptRet.unknown, ⟨cs, rest⟩)
  | some false => (GetoptRet.opt c none, ⟨cs, rest⟩)
  | some true =>
    match cs with
    | _ :: _ => (GetoptRet.opt c (some (String.mk cs)), ⟨[], rest⟩)
    | [] =>
      match rest with
      | [] => (GetoptRet.unknown, ⟨[], []⟩)
      | a :: rest1 => (GetoptRet.opt c (some a), ⟨[], rest1⟩)

/-- One call of `getopt(argc, argv, optstring)`. -/
def getopt (optstring : List Char) (s : GetoptState) : GetoptRet × GetoptState :=
  match s.cluster with
  | c :: cs => getopt_char optstring c cs s.rest
  | [] =>
    match s.rest with
    | [] => (GetoptRet.done, s)
    | a :: rest1 =>
      if a = "--" then (GetoptRet.done, ⟨[], rest1⟩)
      else
        match a.toList with
        | '-' :: c :: cs => getopt_char optstring c cs rest1
        | _ => (GetoptRet.done, s)

/-- The C library function `atoi` on an optional sign and decimal digits; the
conversion stops at the first other character.  Leading white space is not
skipped and the value is not reduced to the range of `int`. -/
def atoi_digits : List Char → Nat → Nat
  | [], acc => acc
  | c :: cs, acc => if c.isDigit then atoi_digits cs (acc * 10 + (c.toNat - 48)) else acc

def atoi (s : String) : Int :=
  match s.toList with
  | '-' :: cs => - (atoi_digits cs 0 : Int)
  | '+' :: cs => (atoi_digits cs 0 : Int)
  | cs => (atoi_digits cs 0 : Int)

/-- The local variables of `main` that the options set. -/
structure main_options where
  info_only : Bool
  margin : Int
  autocut : Bool
  num : Int
  cfg : ql_print_cfg_t
  printer : String
  timeout : Nat
deriving DecidableEq, Repr

/-- The initialisers of `main`: `cfg = { .threshold = 0x80, .flags = 0 }`, printer
`/dev/usb/lp0`, timeout 5, one copy, no margin. -/
def main_options_initial : main_options where
  info_only := false
  margin := -1
  autocut := false
  num := 1
  cfg := ⟨0x80, 0, 0, 0, 0, false⟩
  printer := "/dev/usb/lp0"
  timeout := 5

/-- The option string that `main` passes to `getopt`. -/
def MAIN_OPTSTRING : List Char := "ip:m:an:CDW:L:Qx:".toList

/-- The outcome of the option handling of `main`: `syntax()` was called (usage
text, `exit(EXIT_FAILURE)`), or `main` goes on with the options and with the
remaining arguments `argv[optind ..]`, the image paths. -/
inductive ParseResult where
  | usage_error
  | proceed (o : main_options) (paths : List String)
deriving DecidableEq, Repr

/-- The body of the `switch (opt)` of `main` for an option character; `none`
stands for the `default:` label, which calls `syntax()`. -/
def main_switch (o : main_options) (c : Char) (optarg : String) : Option main_options :=
  if c = 'i' then some { o with info_only := true }
  else if c = 'p' then some { o with printer := optarg }
  else if c = 'm' then some { o with margin := atoi optarg }
  else if c = 'a' then some { o with autocut := true }
  else if c = 'n' then some { o with num := atoi optarg }
  else if c = 'C' then
    some { o with cfg := { o.cfg with media_type := QL_MEDIA_TYPE_CONTINUOUS
                                      flags := o.cfg.flags ||| QL_PRINT_CFG_MEDIA_TYPE } }
  else if c = 'D' then
    some { o with cfg := { o.cfg with media_type := QL_MEDIA_TYPE_DIECUT_LABELS
                                      flags := o.cfg.flags ||| QL_PRINT_CFG_MEDIA_TYPE } }
  else if c = 'W' then
    some { o with cfg := { o.cfg with media_width := (atoi optarg % 256).toNat
                                      flags := o.cfg.flags ||| QL_PRINT_CFG_MEDIA_WIDTH } }
  else if c = 'L' then
    some { o with cfg := { o.cfg with media_length := (atoi optarg % 256).toNat
                                      flags := o.cfg.flags ||| QL_PRINT_CFG_MEDIA_LENGTH } }
  else if c = 'Q' then
    some { o with cfg := { o.cfg with flags := o.cfg.flags ||| QL_PRINT_CFG_QUALITY_PRIO } }
  else if c = 'x' then some { o with timeout := (atoi optarg % 4294967296).toNat }
  else none

/-- The loop `while ((opt = getopt(argc, argv, "ip:m:an:CDW:L:Qx:")) != -1)` of
`main` followed by `if (optind >= argc && !info_only) syntax();`.  `fuel` bounds
the calls of `getopt`. -/
def main_option_loop : Nat → GetoptState → main_options → Option ParseResult
  | 0, _, _ => none
  | fuel + 1, s, o =>
    match getopt MAIN_OPTSTRING s with
    | (GetoptRet.done, s1) =>
      if s1.rest = [] ∧ o.info_only = false then some ParseResult.usage_error
      else some (ParseResult.proceed o s1.rest)
    | (GetoptRet.unknown, _) => some ParseResult.usage_error
    | (GetoptRet.opt c optarg, s1) =>
      match main_switch o c (optarg.getD "") with
      | none => some ParseResult.usage_error
      | some o1 => main_option_loop fuel s1 o1

/-- The option handling of `main` on `argv`, whose first element is the program
name; every call of `getopt` reads at least one character or one element, which
gives the bound. -/
def main_parse (argv : List String) : Option ParseResult :=
  main_option_loop ((argv.map String.length).sum + argv.length + 1) ⟨[], argv.tail⟩
    main_options_initial

/-! ## Memory accesses of the raster transmission (ql.c lines 160-175, 197-204) -/

/-- The index of `img->data` that one pass of the inner loop body of
`pack_column` reads, for bit position `i` of byte `n`: `img_row * width + colno`
when the guard `img_row < img->height` holds, none otherwise. -/
def pack_bit_read (img : ql_raster_image_t) (colno n i : Nat) : Option Nat :=
  let img_row := (n * 8 + i) % UNSIGNED_RANGE
  if img_row < img.height then some ((img_row * img.width + colno) % UNSIGNED_RANGE)
  else none

/-- All the indices of `img->data` that `pack_column` reads, in the order of the
two loops. -/
def pack_column_reads (bytes colno : Nat) (img : ql_raster_image_t) : List Nat :=
  (List.range bytes).flatMap (fun n =>
    (List.range 8).filterMap (fun i => pack_bit_read img colno n i))

/-- The offsets from `out` that `pack_column` writes (`*out = 0` and `*out |= ...`
with `out` advanced once per pass of the outer loop). -/
def pack_column_writes (bytes : Nat) : List Nat := List.range bytes

/-- The offsets of `block` that are written through `pack_column` in
`ql_print_raster_image`, where `out` is `block + 3`. -/
def raster_block_writes (dn : Nat) : List Nat :=
  (pack_column_writes dn).map (fun n => 3 + n)

/-! ## The status report (`ql_decode_mode`, `ql_decode_print_status`, ql.c lines 235-241, 312-332) -/

def QL_DECODE_MODEL : Nat := 0x01
def QL_DECODE_ERROR : Nat := 0x02
def QL_DECODE_MEDIA : Nat := 0x04
def QL_DECODE_MODE : Nat := 0x08

/-- The function `ql_decode_mode`. -/
def ql_decode_mode (status : ql_status_t) : String :=
  if status.mode &&& QL_MODE_AUTOCUT ≠ 0 then "auto-cut" else "no-auto-cut"

/-- The text one `fprintf` of the report writes, for the formats `"%17s: %s\n"`
and `"%17s: %u\n"`: the label right-justified in 17 columns, a colon and a space,
the value and a newline. -/
def render_line (line : String × String) : String :=
  String.mk (List.replicate (17 - line.1.length) ' ') ++ line.1 ++ ": " ++ line.2 ++ "\n"

/-- The `fprintf` guarded by `flags & QL_DECODE_MODEL`. -/
def print_model_section (st : decoder_state) (status : ql_status_t) (flags : Nat) :
    Option (List (String × String) × decoder_state) :=
  if flags &&& QL_DECODE_MODEL ≠ 0 then
    match ql_decode_model st status with
    | none => none
    | some (label, st1) => some ([("Printer", label)], st1)
  else some ([], st)

/-- The `fprintf` guarded by `flags & QL_DECODE_MODE`. -/
def print_mode_section (status : ql_status_t) (flags : Nat) : List (String × String) :=
  if flags &&& QL_DECODE_MODE ≠ 0 then [("Mode", ql_decode_mode status)] else []

/-- The `fprintf` guarded by `flags & QL_DECODE_ERROR`. -/
def print_error_section (malloc_ok : Bool) (st : decoder_state) (status : ql_status_t)
    (flags : Nat) : List (String × String) × decoder_state :=
  if flags &&& QL_DECODE_ERROR ≠ 0 then
    ([("Errors", (ql_decode_errors malloc_ok st status).1)],
      (ql_decode_errors malloc_ok st status).2)
  else ([], st)

/-- The block guarded by `flags & QL_DECODE_MEDIA`: the media type and width, and
the length unless the media type is `QL_MEDIA_TYPE_CONTINUOUS`. -/
def print_media_section (st : decoder_state) (status : ql_status_t) (flags : Nat) :
    Option (List (String × String) × decoder_state) :=
  if flags &&& QL_DECODE_MEDIA ≠ 0 then
    match ql_decode_media_type st status with
    | none => none
    | some (label, st1) =>
      some ([("Media type", label), ("Media width (mm)", toString status.media_width_mm)]
          ++ (if status.media_type ≠ QL_MEDIA_TYPE_CONTINUOUS then
                [("Media length (mm)", toString status.media_length_mm)]
              else []),
        st1)
  else some ([], st)

/-- The function `ql_decode_print_status`: the lines written to `f`, each as its
label and its value, and the decoder state after the call; `none` when one of the
decoders has undefined behaviour.  A null `status` (`none`) writes nothing. -/
def ql_decode_print_status (malloc_ok : Bool) (st : decoder_state)
    (status : Option ql_status_t) (flags : Nat) :
    Option (List (String × String) × decoder_state) :=
  match status with
  | none => some ([], st)
  | some status =>
    match print_model_section st status flags with
    | none => none
    | some (out1, st1) =>
      match print_media_section (print_error_section malloc_ok st1 status flags).2 status
          flags with
      | none => none
      | some (out4, st4) =>
        some (out1 ++ print_mode_section status flags
          ++ (print_error_section malloc_ok st1 status flags).1 ++ out4, st4)

/-- The labels of the report in the order of the `fprintf` calls. -/
def report_labels : List String :=
  ["Printer", "Mode", "Errors", "Media type", "Media width (mm)", "Media length (mm)"]

/-- The labels `ql_decode_print_status` writes for given flags and media type. -/
def expected_labels (status : ql_status_t) (flags : Nat) : List String :=
  (if flags &&& QL_DECODE_MODEL ≠ 0 then ["Printer"] else []) ++
  (if flags &&& QL_DECODE_MODE ≠ 0 then ["Mode"] else []) ++
  (if flags &&& QL_DECODE_ERROR ≠ 0 then ["Errors"] else []) ++
  (if flags &&& QL_DECODE_MEDIA ≠ 0 then
    ["Media type", "Media width (mm)"] ++
      (if status.media_type ≠ QL_MEDIA_TYPE_CONTINUOUS then ["Media length (mm)"] else [])
   else [])

/-! ## The block size as the specification states it -/

/-- The block size the specification assigns to a model code: 162 for `'P'`
(0x50) and `'4'` (0x34), 90 for every other code.  It is compared below with what
`ql_print_raster_image` puts on the wire. -/
def spec_block_size (model_code : Nat) : Nat :=
  if model_code = 0x50 ∨ model_code = 0x34 then 162 else 90

/-- The frames the specification prescribes for an image: the print-information
frame, for each column `c` the header `'g'`, 0, block size and a payload of
block-size packed bytes, and the commit byte. -/
def spec_frames (model_code : Nat) (img : ql_raster_image_t) (cfg : ql_print_cfg_t) :
    List (List Nat) :=
  print_info img cfg ::
    ((List.range img.width).map (fun c =>
        [0x67, 0x00, spec_block_size model_code] ++
          pack_column (spec_block_size model_code) c img cfg.threshold)
      ++ [[0x1a]])

/-! # Theorems -/

/-! ## Column packing: proofs -/

theorem testBit_cond_shift (b : Bool) (k j : Nat) :
    (if b then (1 <<< k) else 0 : Nat).testBit j = (b && decide (j = k)) := by
  cases b with
  | false => simp
  | true =>
    simp only [if_true, Bool.true_and, Nat.one_shiftLeft, Nat.testBit_two_pow]
    by_cases h : j = k
    · simp [h]
    · have : ¬ k = j := fun e => h e.symm
      simp [h, this]

theorem fold8_testBit (b : Nat → Bool) (j : Nat) :
    ((List.range 8).foldl (fun out i => if b i then out ||| (1 <<< (7 - i)) else out) 0).testBit j
      = (decide (j < 8) && b (7 - j)) := by
  have step : ∀ (out i : Nat), (if b i then out ||| (1 <<< (7 - i)) else out)
      = out ||| (if b i then (1 <<< (7 - i)) else 0) := by
    intro out i; cases b i <;> simp
  simp only [step]
  simp only [List.range_succ, List.range_zero, List.nil_append, List.foldl_append,
    List.foldl_cons, List.foldl_nil, List.cons_append, Nat.testBit_or, testBit_cond_shift,
    Nat.zero_testBit, Bool.false_or]
  by_cases hj : j < 8
  · interval_cases j <;> simp
  · simp [hj]
    omega

theorem pack_bit_eq (img : ql_raster_image_t) (c t n out i : Nat) :
    pack_bit img c t n out i
      = if pack_cond img c t n i then out ||| (1 <<< (7 - i)) else out := by
  unfold pack_bit pack_cond
  by_cases h1 : (n * 8 + i) % UNSIGNED_RANGE < img.height
  · by_cases h2 : img.data.getD
        ((((n * 8 + i) % UNSIGNED_RANGE) * img.width + c) % UNSIGNED_RANGE) 0 < t
    · simp [h1, h2]
    · simp [h1, h2]
  · simp [h1]

theorem pack_byte_testBit (img : ql_raster_image_t) (c t n j : Nat) :
    (pack_byte img c t n).testBit j = (decide (j < 8) && pack_cond img c t n (7 - j)) := by
  unfold pack_byte
  have : pack_bit img c t n = fun out i =>
      if pack_cond img c t n i then out ||| (1 <<< (7 - i)) else out := by
    funext out i; exact pack_bit_eq img c t n out i
  rw [this]
  exact fold8_testBit (pack_cond img c t n) j

/-- For a well-formed image no `unsigned` computation of `pack_column` wraps, so
the code's condition is the reference condition on row `8 * n + i`. -/
theorem pack_cond_eq_ref (img : ql_raster_image_t) (hwf : img.wf) (c t n i : Nat)
    (hc : c < img.width) (hn : n < 65536) (hi : i < 8) :
    pack_cond img c t n i
      = (decide (8 * n + i < img.height) &&
          decide (img.data.getD ((8 * n + i) * img.width + c) 0 < t)) := by
  obtain ⟨hw, hh, -⟩ := hwf
  unfold pack_cond UNSIGNED_RANGE
  have e1 : (n * 8 + i) % 4294967296 = 8 * n + i := by
    rw [Nat.mod_eq_of_lt (by omega)]; omega
  rw [e1]
  by_cases hr : 8 * n + i < img.height
  · have hmul : (8 * n + i) * img.width ≤ 65535 * 65535 :=
      Nat.mul_le_mul (by omega) (by omega)
    rw [Nat.mod_eq_of_lt (by omega)]
  · simp [hr]

theorem pack_byte_lt (img : ql_raster_image_t) (c t n : Nat) : pack_byte img c t n < 256 := by
  have h := Nat.lt_pow_two_of_testBit (pack_byte img c t n) (n := 8) (by
    intro j hj
    rw [pack_byte_testBit]
    have : ¬ j < 8 := by omega
    simp [this])
  simpa using h

theorem pack_column_getD (img : ql_raster_image_t) (c t dn n : Nat) (hn : n < dn) :
    (pack_column dn c img t).getD n 0 = pack_byte img c t n := by
  simp [pack_column, List.getD_eq_getElem?_getD, List.getElem?_map, List.getElem?_range, hn]

theorem pack_column_length (img : ql_raster_image_t) (c t dn : Nat) :
    (pack_column dn c img t).length = dn := by
  simp [pack_column]

/-- C1: column packing equals the bit-by-bit reference.  For a well-formed image,
a column `c < width` and a block size `dn` (a `uint16_t`), `pack_column` yields
`dn` bytes; bit `7 - i` of byte `n` is set exactly when row `8 * n + i` exists and
its pixel in column `c` is below the threshold; every byte is below 256, every
byte at index at least `ceil (height / 8)` is 0, and bits of rows beyond the
height are 0.  The 1 x 8 all-black image at threshold 128 and block size 90 packs
to `0xFF` followed by 89 zero bytes. -/
theorem pack_column_matches_reference (img : ql_raster_image_t) (hwf : img.wf)
    (c t dn : Nat) (hc : c < img.width) (hdn : dn < 65536) :
    (pack_column dn c img t).length = dn ∧
    (∀ n i, n < dn → i < 8 →
      (((pack_column dn c img t).getD n 0).testBit (7 - i) = true ↔
        (8 * n + i < img.height ∧ img.data.getD ((8 * n + i) * img.width + c) 0 < t))) ∧
    (∀ n, n < dn → (pack_column dn c img t).getD n 0 < 256) ∧
    (∀ n, n < dn → (img.height + 7) / 8 ≤ n → (pack_column dn c img t).getD n 0 = 0) ∧
    (∀ n i, n < dn → i < 8 → img.height ≤ 8 * n + i →
      ((pack_column dn c img t).getD n 0).testBit (7 - i) = false) ∧
    pack_column 90 0 ⟨1, 8, List.replicate 8 0⟩ 128 = 0xFF :: List.replicate 89 0 := by
  have bit : ∀ n i, n < dn → i < 8 →
      ((pack_column dn c img t).getD n 0).testBit (7 - i)
        = (decide (8 * n + i < img.height) &&
            decide (img.data.getD ((8 * n + i) * img.width + c) 0 < t)) := by
    intro n i hn hi
    rw [pack_column_getD img c t dn n hn, pack_byte_testBit]
    have h7 : 7 - (7 - i) = i := by omega
    have hlt : 7 - i < 8 := by omega
    rw [h7, pack_cond_eq_ref img hwf c t n i hc (by omega) hi]
    simp [hlt]
  refine ⟨pack_column_length img c t dn, ?_, ?_, ?_, ?_, ?_⟩
  · intro n i hn hi
    rw [bit n i hn hi]; simp
  · intro n hn
    rw [pack_column_getD img c t dn n hn]; exact pack_byte_lt img c t n
  · intro n hn hceil
    apply Nat.eq_of_testBit_eq
    intro j
    rw [pack_column_getD img c t dn n hn, pack_byte_testBit, Nat.zero_testBit]
    by_cases hj : j < 8
    · have hlt : 7 - j < 8 := by omega
      rw [pack_cond_eq_ref img hwf c t n (7 - j) hc (by omega) hlt]
      have : ¬ 8 * n + (7 - j) < img.height := by omega
      simp [this]
    · simp [hj]
  · intro n i hn hi hrow
    rw [bit n i hn hi]
    have : ¬ 8 * n + i < img.height := by omega
    simp [this]
  · decide

/-- Witness of C1 on a 2 x 3 image: column 1 has the pixels 200, 0, 100, so with
threshold 128 rows 1 and 2 are black: bit 6 of byte 0 is set because row 1 is
below the threshold, and the column packs to `0x60, 0`. -/
theorem pack_column_matches_reference_witness :
    (⟨2, 3, [0, 200, 200, 0, 200, 100]⟩ : ql_raster_image_t).wf ∧
    (((pack_column 2 1 ⟨2, 3, [0, 200, 200, 0, 200, 100]⟩ 128).getD 0 0).testBit (7 - 1) = true ↔
      (8 * 0 + 1 < 3 ∧ [0, 200, 200, 0, 200, 100].getD ((8 * 0 + 1) * 2 + 1) 0 < 128)) ∧
    pack_column 2 1 ⟨2, 3, [0, 200, 200, 0, 200, 100]⟩ 128 = [0x60, 0] :=
  ⟨by decide,
    (pack_column_matches_reference ⟨2, 3, [0, 200, 200, 0, 200, 100]⟩ (by decide) 1 128 2
      (by decide) (by decide)).2.1 0 1 (by decide) (by decide),
    by decide⟩

/-! ## Writing: proofs -/

/-- What a returning `retry_write` has done: the count `r` it returns lies between
`written` and the length, the device has accepted exactly the bytes
`buf[written .. r)` in order, and nothing but the write trace and `errno` changed. -/
theorem retry_write_trace (env : Env) (fuel : Nat) (buf : List Nat) :
    ∀ (ctx : ql_ctx) (written r : Nat) (ctx1 : ql_ctx),
      retry_write env fuel ctx buf written = some (r, ctx1) → written ≤ buf.length →
      written ≤ r ∧ r ≤ buf.length ∧
      ctx1.sent = ctx.sent ++ (buf.drop written).take (r - written) ∧
      ctx.nwrites ≤ ctx1.nwrites ∧ ctx1.printer = ctx.printer ∧
      ctx1.fd_valid = ctx.fd_valid ∧ ctx1.nreads = ctx.nreads ∧
      ctx1.nopens = ctx.nopens ∧ ctx1.opened = ctx.opened := by
  induction fuel with
  | zero =>
    intro ctx written r ctx1 h hw
    unfold retry_write at h
    by_cases he : written = buf.length
    · simp [he] at h
      obtain ⟨rfl, rfl⟩ := h
      simp
      omega
    · simp [he] at h
  | succ fuel ih =>
    intro ctx written r ctx1 h hw
    unfold retry_write at h
    by_cases he : written = buf.length
    · simp [he] at h
      obtain ⟨rfl, rfl⟩ := h
      simp
      omega
    · simp only [he, if_false] at h
      cases hret : env.write_ret ctx.nwrites with
      | error e =>
        simp only [hret] at h
        by_cases hre : e = Errno.EAGAIN ∨ e = Errno.EINTR
        · simp only [hre, if_true] at h
          have := ih _ _ _ _ h hw
          simp only at this
          obtain ⟨h1, h2, h3, h4, h5, h6, h7, h8, h9⟩ := this
          exact ⟨h1, h2, h3, by omega, h5, h6, h7, h8, h9⟩
        · simp only [hre, if_false, Option.some.injEq, Prod.mk.injEq] at h
          obtain ⟨rfl, rfl⟩ := h
          simp
          omega
      | accept n =>
        simp only [hret] at h
        have hm : written + min n (buf.length - written) ≤ buf.length := by omega
        have := ih _ _ _ _ h hm
        simp only at this
        obtain ⟨h1, h2, h3, h4, h5, h6, h7, h8, h9⟩ := this
        refine ⟨by omega, h2, ?_, by omega, h5, h6, h7, h8, h9⟩
        rw [h3, List.append_assoc]
        congr 1
        have e : r - written = min n (buf.length - written)
            + (r - (written + min n (buf.length - written))) := by omega
        rw [e, List.take_add, List.drop_drop]

/-- A `full_write` that succeeds has appended the whole buffer to the bytes the
device accepted; one that fails has appended a proper prefix of it. -/
theorem full_write_trace (env : Env) (fuel : Nat) (ctx : ql_ctx) (buf : List Nat) (b : Bool)
    (ctx1 : ql_ctx) (h : full_write env fuel ctx buf = some (b, ctx1)) :
    (b = true → ctx1.sent = ctx.sent ++ buf) ∧
    (b = false → ∃ m, m < buf.length ∧ ctx1.sent = ctx.sent ++ buf.take m) ∧
    ctx.nwrites ≤ ctx1.nwrites ∧ ctx1.printer = ctx.printer ∧
    ctx1.fd_valid = ctx.fd_valid ∧ ctx1.nreads = ctx.nreads ∧
    ctx1.nopens = ctx.nopens ∧ ctx1.opened = ctx.opened := by
  unfold full_write at h
  cases hr : retry_write env fuel ctx buf 0 with
  | none => simp [hr] at h
  | some p =>
    obtain ⟨r, c⟩ := p
    simp only [hr, Option.some.injEq, Prod.mk.injEq] at h
    obtain ⟨hb, rfl⟩ := h
    obtain ⟨-, h2, h3, h4, h5, h6, h7, h8, h9⟩ :=
      retry_write_trace env fuel buf ctx 0 r c hr (Nat.zero_le _)
    simp only [List.drop_zero, Nat.sub_zero] at h3
    refine ⟨?_, ?_, h4, h5, h6, h7, h8, h9⟩
    · intro hbt
      rw [hbt] at hb
      have : r = buf.length := by simpa using hb
      rw [h3, this, List.take_length]
    · intro hbf
      rw [hbf] at hb
      have : r ≠ buf.length := by simpa using hb
      exact ⟨r, by omega, h3⟩

/-- A `write` call that accepts at least the whole (non-empty) buffer makes
`full_write` succeed with that single call. -/
theorem full_write_accept (env : Env) (fuel : Nat) (ctx : ql_ctx) (buf : List Nat) (n : Nat)
    (hne : buf ≠ []) (hret : env.write_ret ctx.nwrites = WriteRet.accept n)
    (hn : buf.length ≤ n) :
    full_write env (fuel + 1) ctx buf
      = some (true, { ctx with nwrites := ctx.nwrites + 1, sent := ctx.sent ++ buf }) := by
  have hlen : 0 < buf.length := List.length_pos.mpr hne
  have h0 : ¬ (0 = buf.length) := by omega
  unfold full_write
  unfold retry_write
  simp only [h0, if_false, hret]
  have hm : min n buf.length = buf.length := Nat.min_eq_right hn
  simp only [Nat.sub_zero, hm, Nat.zero_add, List.drop_zero, List.take_length]
  unfold retry_write
  simp

theorem write_frames_append (env : Env) (fuel : Nat) (xs ys : List (List Nat)) :
    ∀ ctx : ql_ctx, write_frames env fuel (xs ++ ys) ctx =
      match write_frames env fuel xs ctx with
      | none => none
      | some (false, ctx1) => some (false, ctx1)
      | some (true, ctx1) => write_frames env fuel ys ctx1 := by
  induction xs with
  | nil => intro ctx; simp [write_frames]
  | cons x xs ih =>
    intro ctx
    simp only [List.cons_append, write_frames]
    cases hx : full_write env fuel ctx x with
    | none => simp
    | some p =>
      obtain ⟨b, c⟩ := p
      cases b with
      | false => simp
      | true => simp [ih c]

theorem raster_loop_eq_write_frames (env : Env) (fuel dn : Nat) (img : ql_raster_image_t)
    (cfg : ql_print_cfg_t) :
    ∀ (k w : Nat) (ctx : ql_ctx),
      raster_loop env fuel dn img cfg k w ctx
        = write_frames env fuel
            ((List.range k).map (fun j => raster_block dn (w + j) img cfg)) ctx := by
  intro k
  induction k with
  | zero => intro w ctx; simp [raster_loop, write_frames]
  | succ k ih =>
    intro w ctx
    rw [List.range_succ_eq_map]
    simp only [List.map_cons, List.map_map, raster_loop, write_frames, Nat.add_zero]
    cases hx : full_write env fuel ctx (raster_block dn w img cfg) with
    | none => simp
    | some p =>
      obtain ⟨b, c⟩ := p
      cases b with
      | false => simp
      | true =>
        simp only [ih (w + 1) c]
        congr 2
        funext j
        simp only [Function.comp, Nat.succ_eq_add_one]
        congr 1
        omega

/-- The control flow of `ql_print_raster_image` past the width check: it writes
the frames of `raster_frames` in order and stops at the first failed one. -/
theorem ql_print_raster_image_eq_write_frames (env : Env) (fuel : Nat) (ctx : ql_ctx)
    (status : ql_status_t) (img : ql_raster_image_t) (cfg : ql_print_cfg_t)
    (hw : img.width ≤ 8 * raster_block_size status) :
    ql_print_raster_image env fuel ctx status img cfg
      = write_frames env fuel (raster_frames status img cfg) ctx := by
  have hnot : ¬ img.width > raster_block_size status * 8 := by omega
  unfold ql_print_raster_image raster_frames
  simp only [hnot, if_false, write_frames]
  cases hx : full_write env fuel ctx (print_info img cfg) with
  | none => simp
  | some p =>
    obtain ⟨b, c⟩ := p
    cases b with
    | false => simp
    | true =>
      simp only [write_frames_append, raster_loop_eq_write_frames, Nat.zero_add]
      cases hy : write_frames env fuel
          ((List.range img.width).map
            (fun j => raster_block (raster_block_size status) j img cfg)) c with
      | none => simp
      | some q =>
        obtain ⟨b2, c2⟩ := q
        cases b2 with
        | false => simp
        | true =>
          simp only [write_frames]
          cases hz : full_write env fuel c2 [0x1a] with
          | none => simp
          | some r =>
            obtain ⟨b3, c3⟩ := r
            cases b3 <;> simp

theorem write_frames_true_sent (env : Env) (fuel : Nat) (fs : List (List Nat)) :
    ∀ (ctx ctx1 : ql_ctx), write_frames env fuel fs ctx = some (true, ctx1) →
      ctx1.sent = ctx.sent ++ fs.flatten := by
  induction fs with
  | nil =>
    intro ctx ctx1 h
    simp only [write_frames, Option.some.injEq, Prod.mk.injEq, true_and] at h
    simp [h]
  | cons f fs ih =>
    intro ctx ctx1 h
    simp only [write_frames] at h
    cases hx : full_write env fuel ctx f with
    | none => simp [hx] at h
    | some p =>
      obtain ⟨b, c⟩ := p
      cases b with
      | false => simp [hx] at h
      | true =>
        simp only [hx] at h
        have h1 := (full_write_trace env fuel ctx f true c hx).1 rfl
        rw [ih c ctx1 h, h1]
        simp

theorem write_frames_sent_grows (env : Env) (fuel : Nat) (fs : List (List Nat)) :
    ∀ (ctx ctx1 : ql_ctx) (b : Bool), write_frames env fuel fs ctx = some (b, ctx1) →
      ∃ rest, ctx1.sent = ctx.sent ++ rest := by
  induction fs with
  | nil =>
    intro ctx ctx1 b h
    simp only [write_frames, Option.some.injEq, Prod.mk.injEq] at h
    exact ⟨[], by simp [h.2]⟩
  | cons f fs ih =>
    intro ctx ctx1 b h
    simp only [write_frames] at h
    cases hx : full_write env fuel ctx f with
    | none => simp [hx] at h
    | some p =>
      obtain ⟨b0, c⟩ := p
      cases b0 with
      | false =>
        simp only [hx, Option.some.injEq, Prod.mk.injEq] at h
        obtain ⟨m, -, hm⟩ := (full_write_trace env fuel ctx f false c hx).2.1 rfl
        exact ⟨f.take m, by rw [← h.2, hm]⟩
      | true =>
        simp only [hx] at h
        have h1 := (full_write_trace env fuel ctx f true c hx).1 rfl
        obtain ⟨rest, hr⟩ := ih c ctx1 b h
        exact ⟨f ++ rest, by rw [hr, h1, List.append_assoc]⟩

/-- When the frames before position `k` are written in full and frame `k` is
not, the whole run ends with `false` in the state the failed write left. -/
theorem write_frames_first_failure (env : Env) (fuel : Nat) (fs : List (List Nat)) (k : Nat)
    (ctx ctxk ctx1 : ql_ctx) (hk : k < fs.length)
    (hpre : write_frames env fuel (fs.take k) ctx = some (true, ctxk))
    (hfail : full_write env fuel ctxk (fs.getD k []) = some (false, ctx1)) :
    write_frames env fuel fs ctx = some (false, ctx1) := by
  have hsplit : fs = fs.take k ++ (fs.getD k [] :: fs.drop (k + 1)) := by
    have hget : fs.getD k [] = fs[k] := by
      simp [List.getD_eq_getElem?_getD, List.getElem?_eq_getElem hk]
    rw [hget, ← List.drop_eq_getElem_cons hk, List.take_append_drop]
  rw [hsplit, write_frames_append, hpre]
  simp only [write_frames, hfail]

/-- When every `write` call accepts at least `bound` bytes, frames that are
non-empty and no longer than `bound` are all written, one call each. -/
theorem write_frames_all_accept (env : Env) (fuel bound : Nat)
    (hacc : ∀ j, ∃ n, env.write_ret j = WriteRet.accept n ∧ bound ≤ n)
    (fs : List (List Nat)) :
    ∀ (ctx : ql_ctx), (∀ f ∈ fs, f ≠ [] ∧ f.length ≤ bound) →
      write_frames env (fuel + 1) fs ctx
        = some (true, { ctx with nwrites := ctx.nwrites + fs.length
                                 sent := ctx.sent ++ fs.flatten }) := by
  induction fs with
  | nil => intro ctx _; simp [write_frames]
  | cons f fs ih =>
    intro ctx hfs
    obtain ⟨n, hn, hb⟩ := hacc ctx.nwrites
    have hf := hfs f (List.mem_cons_self f fs)
    simp only [write_frames]
    rw [full_write_accept env fuel ctx f n hf.1 hn (by omega)]
    simp only
    rw [ih _ (fun g hg => hfs g (List.mem_cons_of_mem f hg))]
    simp only [List.length_cons, List.flatten_cons, List.append_assoc]
    congr 3
    omega

theorem raster_block_length (dn w : Nat) (img : ql_raster_image_t) (cfg : ql_print_cfg_t) :
    (raster_block dn w img cfg).length = dn + 3 := by
  simp [raster_block, pack_column_length]

theorem raster_blocks_length (dn : Nat) (img : ql_raster_image_t) (cfg : ql_print_cfg_t) (k : Nat) :
    ((List.range k).map (fun c => raster_block dn c img cfg)).flatten.length = k * (dn + 3) := by
  induction k with
  | zero => simp
  | succ k ih =>
    rw [List.range_succ, List.map_append, List.flatten_append, List.length_append, ih]
    simp [raster_block_length]
    ring

theorem raster_block_size_cases (status : ql_status_t) :
    raster_block_size status = 90 ∨ raster_block_size status = 162 := by
  unfold raster_block_size
  split <;> simp

/-! ## Raster transmission: the claims -/

/-- C3: an image wider than 8 times the block size (162 for the model codes `'P'`
and `'4'`, otherwise 90) makes `ql_print_raster_image` return `false` in the
unchanged state: no `write` call is made and no byte reaches the device. -/
theorem too_wide_image_rejected_without_write (env : Env) (fuel : Nat) (ctx : ql_ctx)
    (status : ql_status_t) (img : ql_raster_image_t) (cfg : ql_print_cfg_t)
    (hwide : img.width >
      8 * (if status.model_code = 0x50 ∨ status.model_code = 0x34 then 162 else 90)) :
    ql_print_raster_image env fuel ctx status img cfg = some (false, ctx) := by
  have h : img.width > raster_block_size status * 8 := by
    unfold raster_block_size; omega
  unfold ql_print_raster_image
  simp only [h, if_true]

/-- Witness of C3: a 721 x 1 image on a QL-570 (block size 90, limit 720). -/
theorem too_wide_image_rejected_without_write_witness :
    (⟨721, 1, List.replicate 721 0⟩ : ql_raster_image_t).width >
      8 * (if status_ql570.model_code = 0x50 ∨ status_ql570.model_code = 0x34 then 162 else 90) ∧
    ql_print_raster_image env_accept_all 1 ctx0 status_ql570 ⟨721, 1, List.replicate 721 0⟩
      cfg_default = some (false, ctx0) :=
  ⟨by decide, too_wide_image_rejected_without_write env_accept_all 1 ctx0 status_ql570
    ⟨721, 1, List.replicate 721 0⟩ cfg_default (by decide)⟩

/-- C7: when every `write` call accepts all the bytes offered and the width is at
most `8 * dn`, `ql_print_raster_image` returns `true` after `width + 2` calls and
the device has received exactly the 13-byte print-information frame, then for each
column `c = 0, ..., width - 1` in increasing order the `dn + 3` bytes `'g'`, 0,
`dn` and the packed column `c`, then the byte `0x1A`: `14 + width * (dn + 3)` bytes.
In any environment, a run that returns `true` has sent exactly this stream. -/
theorem print_raster_image_stream (env : Env) (fuel : Nat) (ctx : ql_ctx)
    (status : ql_status_t) (img : ql_raster_image_t) (cfg : ql_print_cfg_t)
    (hfuel : 0 < fuel) (hw : img.width ≤ 8 * raster_block_size status)
    (hacc : ∀ j, ∃ n, env.write_ret j = WriteRet.accept n ∧ raster_block_size status + 3 ≤ n) :
    ql_print_raster_image env fuel ctx status img cfg
      = some (true,
          { ctx with
            nwrites := ctx.nwrites + (img.width + 2)
            sent := ctx.sent ++
              (print_info img cfg ++
                ((List.range img.width).map (fun c =>
                  [0x67, 0x00, raster_block_size status] ++
                    pack_column (raster_block_size status) c img cfg.threshold)).flatten ++
                [0x1a]) }) ∧
    (print_info img cfg).length = 13 ∧
    (∀ c, ([0x67, 0x00, raster_block_size status] ++
        pack_column (raster_block_size status) c img cfg.threshold).length
          = raster_block_size status + 3) ∧
    (print_info img cfg ++
        ((List.range img.width).map (fun c =>
          [0x67, 0x00, raster_block_size status] ++
            pack_column (raster_block_size status) c img cfg.threshold)).flatten ++
        [0x1a]).length = 14 + img.width * (raster_block_size status + 3) ∧
    (∀ (env2 : Env) (fuel2 : Nat) (ctx2 ctx3 : ql_ctx),
      ql_print_raster_image env2 fuel2 ctx2 status img cfg = some (true, ctx3) →
      ctx3.sent = ctx2.sent ++
        (print_info img cfg ++
          ((List.range img.width).map (fun c =>
            [0x67, 0x00, raster_block_size status] ++
              pack_column (raster_block_size status) c img cfg.threshold)).flatten ++
          [0x1a])) := by
  have hmod : raster_block_size status % 256 = raster_block_size status := by
    rcases raster_block_size_cases status with h | h <;> rw [h]
  have hblock : (fun c => [0x67, 0x00, raster_block_size status] ++
      pack_column (raster_block_size status) c img cfg.threshold)
        = fun c => raster_block (raster_block_size status) c img cfg := by
    funext c; simp [raster_block, hmod]
  have hdn : 90 ≤ raster_block_size status := by
    rcases raster_block_size_cases status with h | h <;> omega
  rw [hblock]
  refine ⟨?_, rfl, ?_, ?_, ?_⟩
  · obtain ⟨f, rfl⟩ : ∃ f, fuel = f + 1 := ⟨fuel - 1, by omega⟩
    rw [ql_print_raster_image_eq_write_frames env (f + 1) ctx status img cfg hw,
      write_frames_all_accept env f (raster_block_size status + 3) hacc]
    · simp [raster_frames]
    · intro g hg
      simp only [raster_frames, List.mem_cons, List.mem_append, List.mem_map, List.mem_range,
        List.mem_singleton, List.not_mem_nil, or_false] at hg
      rcases hg with rfl | ⟨c, -, rfl⟩ | rfl
      · exact ⟨by simp [print_info], by simp [print_info]; omega⟩
      · refine ⟨?_, by rw [raster_block_length]⟩
        intro h0
        have := raster_block_length (raster_block_size status) c img cfg
        rw [h0] at this
        simp at this
      · exact ⟨by simp, by simp⟩
  · intro c
    simp [pack_column_length]
  · rw [List.length_append, List.length_append, raster_blocks_length]
    simp [print_info]; omega
  · intro env2 fuel2 ctx2 ctx3 hrun
    rw [ql_print_raster_image_eq_write_frames env2 fuel2 ctx2 status img cfg hw] at hrun
    rw [write_frames_true_sent env2 fuel2 _ ctx2 ctx3 hrun]
    simp [raster_frames]

/-- Witness of C7: a 2 x 1 image on a QL-570; the stream has `14 + 2 * 93` bytes. -/
theorem print_raster_image_stream_witness :
    (ql_print_raster_image env_accept_all 1 ctx0 status_ql570 ⟨2, 1, [0, 255]⟩ cfg_default).map
        (fun r => (r.1, r.2.nwrites, r.2.sent.length)) = some (true, 4, 200) := by
  have h := (print_raster_image_stream env_accept_all 1 ctx0 status_ql570 ⟨2, 1, [0, 255]⟩
    cfg_default (by decide) (by decide) (fun _ => ⟨1000, rfl, by decide⟩)).1
  rw [h]
  rfl

theorem raster_frames_length (status : ql_status_t) (img : ql_raster_image_t)
    (cfg : ql_print_cfg_t) : (raster_frames status img cfg).length = img.width + 2 := by
  simp [raster_frames]

/-- C10: any write failure aborts the image.  If the frames before position `k`
(of the print-information frame, the `width` raster frames and the commit byte)
are written in full and frame `k` is not, then `ql_print_raster_image` returns
`false` in the very state the failed write left, so no write follows it; the
device has received the frames before `k` in full and a proper prefix of frame `k`,
hence never the commit byte, which is the last frame. -/
theorem first_failed_write_aborts_image (env : Env) (fuel : Nat) (ctx : ql_ctx)
    (status : ql_status_t) (img : ql_raster_image_t) (cfg : ql_print_cfg_t) (k : Nat)
    (ctxk ctx1 : ql_ctx)
    (hw : img.width ≤ 8 * raster_block_size status) (hk : k < img.width + 2)
    (hpre : write_frames env fuel ((raster_frames status img cfg).take k) ctx = some (true, ctxk))
    (hfail : full_write env fuel ctxk ((raster_frames status img cfg).getD k [])
      = some (false, ctx1)) :
    ql_print_raster_image env fuel ctx status img cfg = some (false, ctx1) ∧
    ctxk.sent = ctx.sent ++ ((raster_frames status img cfg).take k).flatten ∧
    (∃ m, m < ((raster_frames status img cfg).getD k []).length ∧
      ctx1.sent = ctx.sent ++ ((raster_frames status img cfg).take k).flatten ++
        ((raster_frames status img cfg).getD k []).take m) ∧
    (raster_frames status img cfg).length = img.width + 2 ∧
    (raster_frames status img cfg).getD 0 [] = print_info img cfg ∧
    (∀ c, c < img.width → (raster_frames status img cfg).getD (c + 1) []
      = raster_block (raster_block_size status) c img cfg) ∧
    (raster_frames status img cfg).getD (img.width + 1) [] = [0x1a] := by
  have hlen := raster_frames_length status img cfg
  have hsent := write_frames_true_sent env fuel _ ctx ctxk hpre
  refine ⟨?_, hsent, ?_, hlen, ?_, ?_, ?_⟩
  · rw [ql_print_raster_image_eq_write_frames env fuel ctx status img cfg hw]
    exact write_frames_first_failure env fuel _ k ctx ctxk ctx1 (by omega) hpre hfail
  · obtain ⟨m, hm, hs⟩ := (full_write_trace env fuel ctxk _ false ctx1 hfail).2.1 rfl
    exact ⟨m, hm, by rw [hs, hsent]⟩
  · simp [raster_frames]
  · intro c hc
    simp [raster_frames, List.getD_eq_getElem?_getD, List.getElem?_append, hc]
  · simp [raster_frames, List.getD_eq_getElem?_getD, List.getElem?_append]

/-- Witness of C10: a 1 x 1 image on a QL-570 where the first `write` succeeds and
the second fails with `EIO`: the print-information frame is sent, the raster frame
fails, and the function returns `false` after those two calls. -/
theorem first_failed_write_aborts_image_witness :
    ql_print_raster_image (env_accept_first 1) 1 ctx0 status_ql570 ⟨1, 1, [0]⟩ cfg_default
      = some (false, { ctx0 with nwrites := 2, errno := some Errno.EIO,
                                 sent := print_info ⟨1, 1, [0]⟩ cfg_default }) :=
  (first_failed_write_aborts_image (env_accept_first 1) 1 ctx0 status_ql570 ⟨1, 1, [0]⟩
    cfg_default 1 { ctx0 with nwrites := 1, sent := print_info ⟨1, 1, [0]⟩ cfg_default }
    { ctx0 with nwrites := 2, errno := some Errno.EIO,
                sent := print_info ⟨1, 1, [0]⟩ cfg_default }
    (by decide) (by decide) (by rfl) (by rfl)).1

theorem raster_frames_eq_spec_frames (status : ql_status_t) (img : ql_raster_image_t)
    (cfg : ql_print_cfg_t) :
    raster_frames status img cfg = spec_frames status.model_code img cfg := by
  have hb : raster_block_size status = spec_block_size status.model_code := rfl
  have hmod : spec_block_size status.model_code % 256 = spec_block_size status.model_code := by
    unfold spec_block_size; split <;> rfl
  unfold raster_frames spec_frames raster_block
  rw [hb, hmod]

theorem spec_frames_payload (model_code : Nat) (img : ql_raster_image_t)
    (cfg : ql_print_cfg_t) (c : Nat) (hc : c < img.width) :
    (spec_frames model_code img cfg).getD (c + 1) []
      = [0x67, 0x00, spec_block_size model_code] ++
          pack_column (spec_block_size model_code) c img cfg.threshold := by
  simp [spec_frames, List.getD_eq_getElem?_getD, List.getElem?_append, hc]

/-- C9: the block size `ql_print_raster_image` uses depends only on the model code
of the status reply: 162 for `'P'` (0x50) and `'4'` (0x34), 90 for each of the
other 254 codes.  In every environment an image of width at most 8 times that
size is written as the print-information frame, one frame per column whose third
header byte is that size and whose payload has that many bytes, and the commit
byte; a wider image is rejected without a write.  With every write accepted the
run returns `true` having sent exactly these frames, and any run that returns
`true` has sent them; replies with the same model code give the same run. -/
theorem block_size_by_model_code :
    (spec_block_size 0x50 = 162 ∧ spec_block_size 0x34 = 162 ∧
      (∀ code, code ≠ 0x50 → code ≠ 0x34 → spec_block_size code = 90) ∧
      ((List.range 256).filter (fun code => decide (spec_block_size code = 90))).length = 254) ∧
    (∀ (env : Env) (fuel : Nat) (ctx : ql_ctx) (status : ql_status_t) (img : ql_raster_image_t)
      (cfg : ql_print_cfg_t),
      (img.width ≤ 8 * spec_block_size status.model_code →
        ql_print_raster_image env fuel ctx status img cfg
          = write_frames env fuel (spec_frames status.model_code img cfg) ctx) ∧
      (img.width > 8 * spec_block_size status.model_code →
        ql_print_raster_image env fuel ctx status img cfg = some (false, ctx)) ∧
      (∀ ctx1, ql_print_raster_image env fuel ctx status img cfg = some (true, ctx1) →
        img.width ≤ 8 * spec_block_size status.model_code ∧
        ctx1.sent = ctx.sent ++ (spec_frames status.model_code img cfg).flatten) ∧
      (0 < fuel → img.width ≤ 8 * spec_block_size status.model_code →
        (∀ j, ∃ n, env.write_ret j = WriteRet.accept n ∧
          spec_block_size status.model_code + 3 ≤ n) →
        ql_print_raster_image env fuel ctx status img cfg
          = some (true,
              { ctx with
                nwrites := ctx.nwrites + (img.width + 2)
                sent := ctx.sent ++ (spec_frames status.model_code img cfg).flatten }))) ∧
    (∀ (model_code : Nat) (img : ql_raster_image_t) (cfg : ql_print_cfg_t) (c : Nat),
      c < img.width →
      ((spec_frames model_code img cfg).getD (c + 1) []).take 3
        = [0x67, 0x00, spec_block_size model_code] ∧
      (((spec_frames model_code img cfg).getD (c + 1) []).drop 3).length
        = spec_block_size model_code ∧
      ((spec_frames model_code img cfg).getD (c + 1) []).length
        = spec_block_size model_code + 3) ∧
    (∀ (env : Env) (fuel : Nat) (ctx : ql_ctx) (s1 s2 : ql_status_t) (img : ql_raster_image_t)
      (cfg : ql_print_cfg_t), s1.model_code = s2.model_code →
      ql_print_raster_image env fuel ctx s1 img cfg
        = ql_print_raster_image env fuel ctx s2 img cfg) := by
  have hb : ∀ status : ql_status_t,
      raster_block_size status = spec_block_size status.model_code := fun _ => rfl
  have hwide : ∀ (env : Env) (fuel : Nat) (ctx : ql_ctx) (status : ql_status_t)
      (img : ql_raster_image_t) (cfg : ql_print_cfg_t),
      img.width > 8 * spec_block_size status.model_code →
      ql_print_raster_image env fuel ctx status img cfg = some (false, ctx) := by
    intro env fuel ctx status img cfg hw
    have h : img.width > raster_block_size status * 8 := by rw [hb]; omega
    unfold ql_print_raster_image
    simp only [h, if_true]
  have hframes : ∀ (env : Env) (fuel : Nat) (ctx : ql_ctx) (status : ql_status_t)
      (img : ql_raster_image_t) (cfg : ql_print_cfg_t),
      img.width ≤ 8 * spec_block_size status.model_code →
      ql_print_raster_image env fuel ctx status img cfg
        = write_frames env fuel (spec_frames status.model_code img cfg) ctx := by
    intro env fuel ctx status img cfg hw
    rw [ql_print_raster_image_eq_write_frames env fuel ctx status img cfg (by rw [hb]; exact hw),
      raster_frames_eq_spec_frames]
  refine ⟨⟨by decide, by decide, ?_, by decide⟩, ?_, ?_, ?_⟩
  · intro code h1 h2
    unfold spec_block_size
    rw [if_neg (by rintro (h | h); exact h1 h; exact h2 h)]
  · intro env fuel ctx status img cfg
    refine ⟨hframes env fuel ctx status img cfg, hwide env fuel ctx status img cfg, ?_, ?_⟩
    · intro ctx1 hrun
      by_cases hw : img.width ≤ 8 * spec_block_size status.model_code
      · rw [hframes env fuel ctx status img cfg hw] at hrun
        exact ⟨hw, write_frames_true_sent env fuel _ ctx ctx1 hrun⟩
      · rw [hwide env fuel ctx status img cfg (by omega)] at hrun
        simp at hrun
    · intro hfuel hw hacc
      obtain ⟨f, rfl⟩ : ∃ f, fuel = f + 1 := ⟨fuel - 1, by omega⟩
      have h90 : 90 ≤ spec_block_size status.model_code := by
        unfold spec_block_size; split <;> omega
      rw [hframes env (f + 1) ctx status img cfg hw,
        write_frames_all_accept env f (spec_block_size status.model_code + 3) hacc]
      · have hlen : (spec_frames status.model_code img cfg).length = img.width + 2 := by
          simp [spec_frames]
        rw [hlen]
      · intro g hg
        simp only [spec_frames, List.mem_cons, List.mem_append, List.mem_map, List.mem_range,
          List.mem_singleton, List.not_mem_nil, or_false] at hg
        rcases hg with rfl | ⟨c, -, rfl⟩ | rfl
        · exact ⟨by simp [print_info], by simp [print_info]; omega⟩
        · exact ⟨by simp, by simp [pack_column_length]⟩
        · exact ⟨by simp, by simp⟩
  · intro model_code img cfg c hc
    rw [spec_frames_payload model_code img cfg c hc]
    refine ⟨by simp, by simp [pack_column_length], by simp [pack_column_length]⟩
  · intro env fuel ctx s1 s2 img cfg h
    have hbs : raster_block_size s1 = raster_block_size s2 := by
      rw [hb, hb, h]
    unfold ql_print_raster_image
    rw [hbs]

/-- Witness of C9: a 1 x 1 image with every write accepted.  On a status reply
with model code `'P'` the run returns `true` after three writes having sent the
frames of block size 162: the device receives 179 bytes, the raster frame
starting `'g'`, 0, 162; on the reply of a QL-570 it receives 107 bytes, the raster
frame starting `'g'`, 0, 90. -/
theorem block_size_by_model_code_witness :
    ql_print_raster_image env_accept_all 1 ctx0 (status_with_codes 0x50 0x0a) ⟨1, 1, [0]⟩
        cfg_default
      = some (true,
          { ctx0 with
            nwrites := ctx0.nwrites + (1 + 2)
            sent := ctx0.sent ++ (spec_frames 0x50 ⟨1, 1, [0]⟩ cfg_default).flatten }) ∧
    (ql_print_raster_image env_accept_all 1 ctx0 (status_with_codes 0x50 0x0a) ⟨1, 1, [0]⟩
        cfg_default).map
        (fun r => (r.1, r.2.sent.length, (r.2.sent.drop 13).take 3))
      = some (true, 179, [0x67, 0x00, 162]) ∧
    (ql_print_raster_image env_accept_all 1 ctx0 status_ql570 ⟨1, 1, [0]⟩ cfg_default).map
        (fun r => (r.1, r.2.sent.length, (r.2.sent.drop 13).take 3))
      = some (true, 107, [0x67, 0x00, 90]) :=
  ⟨(block_size_by_model_code.2.1 env_accept_all 1 ctx0 (status_with_codes 0x50 0x0a)
      ⟨1, 1, [0]⟩ cfg_default).2.2.2 (by decide) (by decide) (fun _ => ⟨1000, rfl, by decide⟩),
    by decide!, by decide!⟩

theorem flag_bit_test : ∀ f, f < 256 →
    ((f &&& 0x02 ≠ 0 ↔ f.testBit 1 = true) ∧ (f &&& 0x04 ≠ 0 ↔ f.testBit 2 = true) ∧
      (f &&& 0x08 ≠ 0 ↔ f.testBit 3 = true)) := by
  decide

/-- C8: the print-information frame is the 13 bytes `0x1B`, `'i'`, `'z'`,
`flags | 0x80`, the media type, width and length (each the configured value when
its flag bit 0x02 / 0x04 / 0x08 is set, else 0), the width low byte and high byte,
0, 0, the starting-page byte (0 on the first page, else 1) and 0; the two width
bytes decode little-endian to the width.  It is the first thing
`ql_print_raster_image` sends: what the device receives starts with a prefix of
it, and nothing follows an incomplete one. -/
theorem print_info_frame_layout (img : ql_raster_image_t) (cfg : ql_print_cfg_t)
    (hw : img.width < 65536) (hf : cfg.flags < 256) (hmt : cfg.media_type < 256)
    (hmw : cfg.media_width < 256) (hml : cfg.media_length < 256) :
    print_info img cfg =
      [0x1b, 0x69, 0x7a, cfg.flags ||| 0x80,
        (if cfg.flags.testBit 1 then cfg.media_type else 0),
        (if cfg.flags.testBit 2 then cfg.media_width else 0),
        (if cfg.flags.testBit 3 then cfg.media_length else 0),
        img.width % 256, img.width / 256, 0, 0,
        (if cfg.first_page then 0 else 1), 0] ∧
    (print_info img cfg).length = 13 ∧
    img.width % 256 + 256 * (img.width / 256) = img.width ∧
    (∀ (env : Env) (fuel : Nat) (ctx : ql_ctx) (status : ql_status_t) (b : Bool) (ctx1 : ql_ctx),
      img.width ≤ 8 * raster_block_size status →
      ql_print_raster_image env fuel ctx status img cfg = some (b, ctx1) →
      ∃ m rest, m ≤ 13 ∧ ctx1.sent = ctx.sent ++ (print_info img cfg).take m ++ rest ∧
        (m < 13 → rest = [] ∧ b = false)) := by
  refine ⟨?_, rfl, by omega, ?_⟩
  · obtain ⟨h1, h2, h3⟩ := flag_bit_test cfg.flags hf
    have hor : (cfg.flags ||| 0x80) % 256 = cfg.flags ||| 0x80 :=
      Nat.mod_eq_of_lt (Nat.or_lt_two_pow (n := 8) hf (by decide))
    have hlo : (img.width &&& 0xff) % 256 = img.width % 256 := by
      have : img.width &&& 0xff = img.width % 256 := Nat.and_pow_two_sub_one_eq_mod img.width 8
      rw [this, Nat.mod_mod]
    have hhi : (img.width >>> 8) % 256 = img.width / 256 := by
      rw [Nat.shiftRight_eq_div_pow]
      exact Nat.mod_eq_of_lt (by omega)
    have hmtv : (if cfg.flags &&& QL_PRINT_CFG_MEDIA_TYPE ≠ 0 then cfg.media_type else 0) % 256
        = if cfg.flags.testBit 1 then cfg.media_type else 0 := by
      unfold QL_PRINT_CFG_MEDIA_TYPE
      by_cases hb : cfg.flags.testBit 1 = true
      · rw [if_pos (h1.mpr hb), if_pos hb]; exact Nat.mod_eq_of_lt hmt
      · rw [if_neg (fun h => hb (h1.mp h)), if_neg hb]
    have hmwv : (if cfg.flags &&& QL_PRINT_CFG_MEDIA_WIDTH ≠ 0 then cfg.media_width else 0) % 256
        = if cfg.flags.testBit 2 then cfg.media_width else 0 := by
      unfold QL_PRINT_CFG_MEDIA_WIDTH
      by_cases hb : cfg.flags.testBit 2 = true
      · rw [if_pos (h2.mpr hb), if_pos hb]; exact Nat.mod_eq_of_lt hmw
      · rw [if_neg (fun h => hb (h2.mp h)), if_neg hb]
    have hmlv : (if cfg.flags &&& QL_PRINT_CFG_MEDIA_LENGTH ≠ 0 then cfg.media_length else 0) % 256
        = if cfg.flags.testBit 3 then cfg.media_length else 0 := by
      unfold QL_PRINT_CFG_MEDIA_LENGTH
      by_cases hb : cfg.flags.testBit 3 = true
      · rw [if_pos (h3.mpr hb), if_pos hb]; exact Nat.mod_eq_of_lt hml
      · rw [if_neg (fun h => hb (h3.mp h)), if_neg hb]
    unfold print_info
    rw [hor, hlo, hhi, hmtv, hmwv, hmlv]
    rfl
  · intro env fuel ctx status b ctx1 hwd hrun
    rw [ql_print_raster_image_eq_write_frames env fuel ctx status img cfg hwd] at hrun
    unfold raster_frames at hrun
    simp only [write_frames] at hrun
    cases hx : full_write env fuel ctx (print_info img cfg) with
    | none => simp [hx] at hrun
    | some p =>
      obtain ⟨b0, c⟩ := p
      cases b0 with
      | false =>
        simp only [hx, Option.some.injEq, Prod.mk.injEq] at hrun
        obtain ⟨m, hm, hs⟩ := (full_write_trace env fuel ctx _ false c hx).2.1 rfl
        have hm13 : m < 13 := hm
        exact ⟨m, [], by omega, by rw [← hrun.2, hs]; simp, fun _ => ⟨rfl, hrun.1.symm⟩⟩
      | true =>
        simp only [hx] at hrun
        have h1 := (full_write_trace env fuel ctx _ true c hx).1 rfl
        obtain ⟨rest, hr⟩ := write_frames_sent_grows env fuel _ c ctx1 b hrun
        refine ⟨13, rest, le_refl _, ?_, fun h => absurd h (by omega)⟩
        rw [hr, h1]
        have : (print_info img cfg).take 13 = print_info img cfg := List.take_of_length_le (by
          show (print_info img cfg).length ≤ 13
          exact le_of_eq rfl)
        rw [this]

/-- Witness of C8: width 300 = 0x012C with media type and width requested. -/
theorem print_info_frame_layout_witness :
    print_info ⟨300, 1, List.replicate 300 0⟩ ⟨0x80, 0x06, 0x0a, 62, 0, false⟩
      = [0x1b, 0x69, 0x7a, 0x86, 0x0a, 62, 0, 0x2c, 0x01, 0, 0, 1, 0] := by
  rw [(print_info_frame_layout ⟨300, 1, List.replicate 300 0⟩ ⟨0x80, 0x06, 0x0a, 62, 0, false⟩
    (by decide) (by decide) (by decide) (by decide) (by decide)).1]
  decide

/-- C2, evaluated: the code has no height check.  On a QL-570 (block size 90,
720 rows per column) the 1 x 721 image `img_too_tall` is accepted:
`ql_print_raster_image` returns `true` and sends one raster frame holding rows
0 to 719 only, all white, so the black pixel of row 720 is dropped. -/
theorem too_tall_image_truncated :
    img_too_tall.wf ∧ img_too_tall.height > 8 * raster_block_size status_ql570 ∧
    img_too_tall.data.getD (720 * img_too_tall.width + 0) 255 < cfg_default.threshold ∧
    ql_print_raster_image env_accept_all 1 ctx0 status_ql570 img_too_tall cfg_default
      = some (true, { ctx0 with
          nwrites := 3
          sent := print_info img_too_tall cfg_default ++
            ([0x67, 0, 90] ++ List.replicate 90 0) ++ [0x1a] }) := by
  refine ⟨by decide, by decide, by decide, ?_⟩
  decide!

/-! ## Reading the status: proofs -/

/-- A short read sends the loop of `ql_read_status` into its next pass. -/
theorem read_loop_short_step (env : Env) (k : Nat) (ctx : ql_ctx) (status : ql_status_t)
    (bs : List Nat) (hr : env.read_ret ctx.nreads = ReadRet.data bs)
    (h0 : 0 < bs.length) (h32 : bs.length < 32) :
    ql_read_status_loop env (k + 1) ctx status
      = ql_read_status_loop env k { ctx with nreads := ctx.nreads + 1 }
          ((ReadRet.data bs).store status) := by
  have htake : (bs.take 32).length = bs.length := by
    rw [List.length_take]; omega
  simp only [ql_read_status_loop, hr, ReadRet.ret, ReadRet.errno_after, htake]
  have h1 : ¬ ((bs.length : Int) = 32) := by omega
  have h2 : ¬ ((bs.length : Int) = 0) := by omega
  have h3 : ¬ ((bs.length : Int) = -1) := by omega
  simp [h1, h2, h3]

/-- A read of 32 bytes ends `ql_read_status` with success. -/
theorem read_loop_full_step (env : Env) (k : Nat) (ctx : ql_ctx) (status : ql_status_t)
    (bs : List Nat) (hr : env.read_ret ctx.nreads = ReadRet.data bs) (h32 : 32 ≤ bs.length) :
    ql_read_status_loop env (k + 1) ctx status
      = (true, { ctx with nreads := ctx.nreads + 1 }, (ReadRet.data bs).store status) := by
  have htake : (bs.take 32).length = 32 := by
    rw [List.length_take]; omega
  simp [ql_read_status_loop, hr, ReadRet.ret, ReadRet.errno_after, htake]

/-- A `read` that fails with an `errno` other than `EBADF` ends `ql_read_status`
with failure at once, `EAGAIN` and `EINTR` included: the test
`errno != EAGAIN || errno != EINTR` holds for every `errno`. -/
theorem read_loop_error_step (env : Env) (k : Nat) (ctx : ql_ctx) (status : ql_status_t)
    (e : Errno) (hr : env.read_ret ctx.nreads = ReadRet.error e) (he : e ≠ Errno.EBADF) :
    ql_read_status_loop env (k + 1) ctx status
      = (false, { ctx with nreads := ctx.nreads + 1, errno := some e }, status) := by
  simp only [ql_read_status_loop, hr, ReadRet.ret, ReadRet.errno_after, ReadRet.store]
  cases e <;> simp at he ⊢

theorem read_loop_shorts_then_full (env : Env) (bs : List Nat) (h32 : 32 ≤ bs.length) :
    ∀ (j k : Nat) (ctx : ql_ctx) (status : ql_status_t), j < k →
      (∀ i, i < j → short_read env (ctx.nreads + i)) →
      env.read_ret (ctx.nreads + j) = ReadRet.data bs →
      ∃ st, ql_read_status_loop env k ctx status
          = (true, { ctx with nreads := ctx.nreads + j + 1 }, st) ∧
        st.bytes.take 32 = bs.take 32 := by
  intro j
  induction j with
  | zero =>
    intro k ctx status hk _ hfull
    obtain ⟨k, rfl⟩ : ∃ k0, k = k0 + 1 := ⟨k - 1, by omega⟩
    refine ⟨_, read_loop_full_step env k ctx status bs hfull h32, ?_⟩
    have htake : (bs.take 32).length = 32 := by
      rw [List.length_take]; omega
    simp only [ReadRet.store]
    rw [List.take_append_of_le_length (by omega), List.take_take]
    simp
  | succ j ih =>
    intro k ctx status hk hshort hfull
    obtain ⟨k, rfl⟩ : ∃ k0, k = k0 + 1 := ⟨k - 1, by omega⟩
    obtain ⟨b0, hb0, hpos, hlt⟩ := hshort 0 (by omega)
    rw [read_loop_short_step env k ctx status b0 hb0 hpos hlt]
    obtain ⟨st, hst, hbytes⟩ := ih k { ctx with nreads := ctx.nreads + 1 }
      ((ReadRet.data b0).store status) (by omega)
      (fun i hi => by
        have := hshort (i + 1) (by omega)
        simpa [Nat.add_assoc, Nat.add_comm 1 i] using this)
      (by simpa [Nat.add_assoc, Nat.add_comm 1 j] using hfull)
    refine ⟨st, ?_, hbytes⟩
    rw [hst]
    simp [Nat.add_assoc, Nat.add_comm 1 j]

theorem read_loop_all_short (env : Env) :
    ∀ (k : Nat) (ctx : ql_ctx) (status : ql_status_t),
      (∀ i, i < k → short_read env (ctx.nreads + i)) →
      ∃ st, ql_read_status_loop env k ctx status
        = (false, { ctx with nreads := ctx.nreads + k, errno := some Errno.ETIME }, st) := by
  intro k
  induction k with
  | zero => intro ctx status _; exact ⟨status, by simp [ql_read_status_loop]⟩
  | succ k ih =>
    intro ctx status hshort
    obtain ⟨b0, hb0, hpos, hlt⟩ := hshort 0 (by omega)
    rw [read_loop_short_step env k ctx status b0 hb0 hpos hlt]
    obtain ⟨st, hst⟩ := ih { ctx with nreads := ctx.nreads + 1 }
      ((ReadRet.data b0).store status)
      (fun i hi => by
        have := hshort (i + 1) (by omega)
        simpa [Nat.add_assoc, Nat.add_comm 1 i] using this)
    refine ⟨st, ?_⟩
    rw [hst]
    simp [Nat.add_assoc, Nat.add_comm 1 k]

/-! ## Reading the status: the claims -/

/-- C5, as stated, fails: a first `read` of 3 bytes is not the end of
`ql_read_status`; it reads again, gets 32 bytes and returns success after two
reads. -/
theorem short_read_not_fatal_counterexample :
    short_read (env_bytes_then_reply [0x80, 0x20, 0x42]) ctx0.nreads ∧
    ql_read_status (env_bytes_then_reply [0x80, 0x20, 0x42]) ctx0 ⟨List.replicate 32 0⟩
      = (true, { ctx0 with nreads := 2 }, status_ql570) := by
  refine ⟨⟨[0x80, 0x20, 0x42], rfl, by decide, by decide⟩, ?_⟩
  decide!

/-- C5, amended: a short read (1 to 31 bytes) is retried within the bound of 100
attempts.  If the first `j < 100` reads are short and the next one delivers 32
bytes, `ql_read_status` returns success after `j + 1` reads with those 32 bytes
as the status; if the first 100 reads are all short it returns failure after
exactly 100 reads with `errno = ETIME`. -/
theorem short_reads_are_retried (env : Env) (ctx : ql_ctx) (status : ql_status_t) :
    (∀ (j : Nat) (bs : List Nat), j < 100 →
      (∀ i, i < j → short_read env (ctx.nreads + i)) →
      env.read_ret (ctx.nreads + j) = ReadRet.data bs → 32 ≤ bs.length →
      ∃ st, ql_read_status env ctx status
          = (true, { ctx with nreads := ctx.nreads + j + 1 }, st) ∧
        st.bytes.take 32 = bs.take 32) ∧
    ((∀ i, i < 100 → short_read env (ctx.nreads + i)) →
      ∃ st, ql_read_status env ctx status
        = (false, { ctx with nreads := ctx.nreads + 100, errno := some Errno.ETIME }, st)) := by
  constructor
  · intro j bs hj hshort hfull h32
    exact read_loop_shorts_then_full env bs h32 j 100 ctx status hj hshort hfull
  · intro hshort
    exact read_loop_all_short env 100 ctx status hshort

/-- Witness of the amended C5: one short read of 3 bytes, then the full reply. -/
theorem short_reads_are_retried_witness :
    ∃ st, ql_read_status (env_bytes_then_reply [0x80, 0x20, 0x42]) ctx0 ⟨List.replicate 32 0⟩
        = (true, { ctx0 with nreads := ctx0.nreads + 1 + 1 }, st) ∧
      st.bytes.take 32 = status_ql570.bytes.take 32 :=
  (short_reads_are_retried (env_bytes_then_reply [0x80, 0x20, 0x42]) ctx0
    ⟨List.replicate 32 0⟩).1 1 status_ql570.bytes (by decide)
    (fun i hi => by
      have hi0 : i = 0 := by omega
      subst hi0
      exact ⟨[0x80, 0x20, 0x42], rfl, by decide, by decide⟩)
    rfl (by decide)

/-- C6, evaluated: a first `read` that fails with `EAGAIN` (or with `EINTR`) makes
`ql_read_status` return failure after that single read, although the next `read`
would have delivered the full 32-byte reply. -/
theorem transient_read_error_is_fatal :
    (env_error_then_reply Errno.EAGAIN).read_ret 1 = ReadRet.data status_ql570.bytes ∧
    ql_read_status (env_error_then_reply Errno.EAGAIN) ctx0 ⟨List.replicate 32 0⟩
      = (false, { ctx0 with nreads := 1, errno := some Errno.EAGAIN },
          ⟨List.replicate 32 0⟩) ∧
    ql_read_status (env_error_then_reply Errno.EINTR) ctx0 ⟨List.replicate 32 0⟩
      = (false, { ctx0 with nreads := 1, errno := some Errno.EINTR },
          ⟨List.replicate 32 0⟩) := by
  refine ⟨rfl, ?_, ?_⟩
  · exact read_loop_error_step _ 99 ctx0 _ Errno.EAGAIN rfl (by decide)
  · exact read_loop_error_step _ 99 ctx0 _ Errno.EINTR rfl (by decide)

/-- C4, evaluated: a page is reported OK without any successful status read.
With the status buffer left by the previous page (`PRINTING_DONE`, no error) and
a silent device, the one call of `ql_read_status` fails after 100 reads, the alarm
has not fired, `continue` reaches the loop condition and the loop ends with the
OK report.  The same happens from a phase-change status when an incomplete read
of 19 bytes has stored `PRINTING_DONE` before the read fails. -/
theorem page_ok_without_completion :
    (ql_read_status env_silent ctx0 status_printing_done).1 = false ∧
    poll_loop env_silent 1 0 ctx0 status_printing_done
      = some (PollResult.page_ok,
          { ctx0 with nreads := 100, nopens := 100, errno := some Errno.ETIME,
                      opened := List.replicate 100 "/dev/usb/lp0" },
          status_printing_done) ∧
    (ql_read_status (env_bytes_then_error (status_printing_done.bytes.take 19)) ctx0
      status_phase_change).1 = false ∧
    poll_loop (env_bytes_then_error (status_printing_done.bytes.take 19)) 1 0 ctx0
        status_phase_change
      = some (PollResult.page_ok, { ctx0 with nreads := 2, errno := some Errno.EIO },
          ⟨status_printing_done.bytes.take 19 ++ status_phase_change.bytes.drop 19⟩) := by
  refine ⟨?_, ?_, ?_, ?_⟩ <;> decide!

/-! ## Status decoders: the claims -/

theorem pristine_model_dollar :
    strchr decoder_pristine.model_buf '$' = some 26 ∧
    decoder_pristine.model_buf.take 26 = "unrecognised (type code 0x".toList := by
  decide

/-- C14: on a first call (pristine decoder state) `ql_decode_model` never fails;
it maps the ten known model codes to their names and every other code `c` to
`"unrecognised (type code 0xhh)"`, `hh` being the two lowercase hexadecimal digits
of `c` (for a byte: the base-16 digits, padded with `0` to width 2), so that
`0xEE` gives `"unrecognised (type code 0xee)"`. -/
theorem decode_model_first_call (status : ql_status_t) :
    (∃ label st, ql_decode_model decoder_pristine status = some (label, st)) ∧
    (status.model_code = 0x31 →
      ql_decode_model decoder_pristine status = some ("QL-560", decoder_pristine)) ∧
    (status.model_code = 0x32 →
      ql_decode_model decoder_pristine status = some ("QL-570", decoder_pristine)) ∧
    (status.model_code = 0x33 →
      ql_decode_model decoder_pristine status = some ("QL-580N", decoder_pristine)) ∧
    (status.model_code = 0x34 →
      ql_decode_model decoder_pristine status = some ("QL-1060N", decoder_pristine)) ∧
    (status.model_code = 0x35 →
      ql_decode_model decoder_pristine status = some ("QL-700", decoder_pristine)) ∧
    (status.model_code = 0x36 →
      ql_decode_model decoder_pristine status = some ("QL-710W", decoder_pristine)) ∧
    (status.model_code = 0x37 →
      ql_decode_model decoder_pristine status = some ("QL-720NW", decoder_pristine)) ∧
    (status.model_code = 0x4f →
      ql_decode_model decoder_pristine status = some ("QL-500/550", decoder_pristine)) ∧
    (status.model_code = 0x50 →
      ql_decode_model decoder_pristine status = some ("QL-1050", decoder_pristine)) ∧
    (status.model_code = 0x51 →
      ql_decode_model decoder_pristine status = some ("QL-650TD", decoder_pristine)) ∧
    (status.model_code ∉ [0x31, 0x32, 0x33, 0x34, 0x35, 0x36, 0x37, 0x4f, 0x50, 0x51] →
      ∃ st, ql_decode_model decoder_pristine status
        = some (String.mk ("unrecognised (type code 0x".toList
            ++ fmt_02hhx status.model_code ++ [')']), st)) ∧
    (∀ c, c < 256 →
      fmt_02hhx c = (if c < 16 then ['0'] else []) ++ Nat.toDigits 16 c) ∧
    (ql_decode_model decoder_pristine (status_with_codes 0xee 0)).map (fun r => r.1)
      = some "unrecognised (type code 0xee)" := by
  have hdefault : ∀ s : ql_status_t,
      s.model_code ∉ [0x31, 0x32, 0x33, 0x34, 0x35, 0x36, 0x37, 0x4f, 0x50, 0x51] →
      ql_decode_model decoder_pristine s
        = some (String.mk ("unrecognised (type code 0x".toList
            ++ fmt_02hhx s.model_code ++ [')']),
          { decoder_pristine with
            model_buf := "unrecognised (type code 0x".toList
              ++ fmt_02hhx s.model_code ++ [')'] }) := by
    intro s hs
    simp only [List.mem_cons, List.mem_singleton, List.not_mem_nil, not_or, or_false] at hs
    obtain ⟨h1, h2, h3, h4, h5, h6, h7, h8, h9, h10⟩ := hs
    unfold ql_decode_model sprintf_at_dollar
    rw [if_neg h1, if_neg h2, if_neg h3, if_neg h4, if_neg h5, if_neg h6, if_neg h7,
      if_neg h8, if_neg h9, if_neg h10, pristine_model_dollar.1]
    simp only [pristine_model_dollar.2]
  have h31 : status.model_code = 0x31 →
      ql_decode_model decoder_pristine status = some ("QL-560", decoder_pristine) := by
    intro h; simp [ql_decode_model, h]
  have h32 : status.model_code = 0x32 →
      ql_decode_model decoder_pristine status = some ("QL-570", decoder_pristine) := by
    intro h; simp [ql_decode_model, h]
  have h33 : status.model_code = 0x33 →
      ql_decode_model decoder_pristine status = some ("QL-580N", decoder_pristine) := by
    intro h; simp [ql_decode_model, h]
  have h34 : status.model_code = 0x34 →
      ql_decode_model decoder_pristine status = some ("QL-1060N", decoder_pristine) := by
    intro h; simp [ql_decode_model, h]
  have h35 : status.model_code = 0x35 →
      ql_decode_model decoder_pristine status = some ("QL-700", decoder_pristine) := by
    intro h; simp [ql_decode_model, h]
  have h36 : status.model_code = 0x36 →
      ql_decode_model decoder_pristine status = some ("QL-710W", decoder_pristine) := by
    intro h; simp [ql_decode_model, h]
  have h37 : status.model_code = 0x37 →
      ql_decode_model decoder_pristine status = some ("QL-720NW", decoder_pristine) := by
    intro h; simp [ql_decode_model, h]
  have h4f : status.model_code = 0x4f →
      ql_decode_model decoder_pristine status = some ("QL-500/550", decoder_pristine) := by
    intro h; simp [ql_decode_model, h]
  have h50 : status.model_code = 0x50 →
      ql_decode_model decoder_pristine status = some ("QL-1050", decoder_pristine) := by
    intro h; simp [ql_decode_model, h]
  have h51 : status.model_code = 0x51 →
      ql_decode_model decoder_pristine status = some ("QL-650TD", decoder_pristine) := by
    intro h; simp [ql_decode_model, h]
  refine ⟨?_, h31, h32, h33, h34, h35, h36, h37, h4f, h50, h51, ?_, ?_, ?_⟩
  · by_cases hm : status.model_code ∈ [0x31, 0x32, 0x33, 0x34, 0x35, 0x36, 0x37, 0x4f, 0x50, 0x51]
    · simp only [List.mem_cons, List.mem_singleton, List.not_mem_nil, or_false] at hm
      rcases hm with h | h | h | h | h | h | h | h | h | h
      · exact ⟨_, _, h31 h⟩
      · exact ⟨_, _, h32 h⟩
      · exact ⟨_, _, h33 h⟩
      · exact ⟨_, _, h34 h⟩
      · exact ⟨_, _, h35 h⟩
      · exact ⟨_, _, h36 h⟩
      · exact ⟨_, _, h37 h⟩
      · exact ⟨_, _, h4f h⟩
      · exact ⟨_, _, h50 h⟩
      · exact ⟨_, _, h51 h⟩
    · exact ⟨_, _, hdefault status hm⟩
  · intro hm
    exact ⟨_, hdefault status hm⟩
  · decide
  · decide

/-- Witness of C14: the reply of a QL-570 (model code `'2'`). -/
theorem decode_model_first_call_witness :
    ql_decode_model decoder_pristine status_ql570 = some ("QL-570", decoder_pristine) :=
  (decode_model_first_call status_ql570).2.2.1 (by decide)

/-- C11, evaluated: the decoders keep state across calls.  The first call of
`ql_decode_model` with the unmapped code `0xEE` consumes the `$$` placeholder of
the static buffer; on the next call with an unmapped code (`0xEF`) `strchr` finds
no `'$'` and `sprintf` is given a null pointer, so that call has undefined
behaviour instead of returning the label of `0xEF`, which the same call returns
from the pristine state.  `ql_decode_media_type` behaves alike. -/
theorem decoders_keep_state_across_calls :
    ql_decode_model decoder_pristine (status_with_codes 0xee 0x0a)
      = some ("unrecognised (type code 0xee)",
          { decoder_pristine with model_buf := "unrecognised (type code 0xee)".toList }) ∧
    ql_decode_model { decoder_pristine with model_buf := "unrecognised (type code 0xee)".toList }
      (status_with_codes 0xef 0x0a) = none ∧
    (ql_decode_model decoder_pristine (status_with_codes 0xef 0x0a)).map (fun r => r.1)
      = some "unrecognised (type code 0xef)" ∧
    ql_decode_media_type decoder_pristine (status_with_codes 0x32 0x77)
      = some ("unknown (code 0x77)",
          { decoder_pristine with media_buf := "unknown (code 0x77)".toList }) ∧
    ql_decode_media_type { decoder_pristine with media_buf := "unknown (code 0x77)".toList }
      (status_with_codes 0x32 0x78) = none ∧
    (ql_decode_media_type decoder_pristine (status_with_codes 0x32 0x78)).map (fun r => r.1)
      = some "unknown (code 0x78)" := by
  refine ⟨?_, ?_, ?_, ?_, ?_, ?_⟩ <;> decide

/-! ## Error decoding: proofs -/

theorem and_two_pow_ne_zero (x k : Nat) : x &&& 2 ^ k ≠ 0 ↔ x.testBit k = true := by
  constructor
  · intro h
    obtain ⟨i, hi⟩ := Nat.ne_zero_implies_bit_true h
    rw [Nat.testBit_and, Nat.testBit_two_pow] at hi
    simp only [Bool.and_eq_true, decide_eq_true_eq] at hi
    obtain ⟨h1, rfl⟩ := hi
    exact h1
  · intro h h0
    have : (x &&& 2 ^ k).testBit k = true := by
      rw [Nat.testBit_and, h, Nat.testBit_two_pow_self]; rfl
    rw [h0, Nat.zero_testBit] at this
    exact Bool.noConfusion this

/-- Bit `k` of the combined error word is bit `k` of `err_info_1` for `k < 8` and
bit `k - 8` of `err_info_2` for `8 ≤ k < 16`, the two being bytes. -/
theorem error_bits_testBit (status : ql_status_t) (h1 : status.err_info_1 < 256)
    (k : Nat) (hk : k < 16) :
    (error_bits status).testBit k
      = if k < 8 then status.err_info_1.testBit k else status.err_info_2.testBit (k - 8) := by
  unfold error_bits
  have h16 : (65536 : Nat) = 2 ^ 16 := by norm_num
  rw [h16, Nat.testBit_mod_two_pow, Nat.testBit_or, Nat.testBit_shiftLeft,
    Nat.testBit_shiftLeft]
  by_cases h8 : k < 8
  · have hge : ¬ k ≥ 8 := by omega
    simp [hk, h8, hge]
  · have hge : k ≥ 8 := by omega
    have hlow : status.err_info_1.testBit k = false := by
      apply Nat.testBit_lt_two_pow
      calc status.err_info_1 < 256 := h1
        _ = 2 ^ 8 := by norm_num
        _ ≤ 2 ^ k := Nat.pow_le_pow_right (by norm_num) hge
    simp [hk, h8, hge, hlow]

theorem foldl_strcat_eq {α : Type} (p : α → Prop) [DecidablePred p] (g : α → List Char)
    (l : List α) :
    ∀ init : List Char,
      l.foldl (fun buf e => if p e then buf ++ g e else buf) init
        = init ++ (l.filterMap (fun e => if p e then some (g e) else none)).flatten := by
  induction l with
  | nil => intro init; simp
  | cons a l ih =>
    intro init
    simp only [List.foldl_cons, List.filterMap_cons]
    by_cases h : p a
    · simp [h, ih]
    · simp [h, ih]

/-- The buffer built by the loop of `ql_decode_errors` holds the names of the
defined bits that are set, in table order, each followed by one space. -/
theorem decode_errors_buf_eq (status : ql_status_t) (h1 : status.err_info_1 < 256) :
    decode_errors_buf (error_bits status)
      = ((error_names status.err_info_1 status.err_info_2).map
          (fun n => n.toList ++ [' '])).flatten := by
  have hb : ∀ k, k < 16 → ((error_bits status &&& 2 ^ k ≠ 0) ↔
      (if k < 8 then status.err_info_1.testBit k else status.err_info_2.testBit (k - 8))
        = true) := by
    intro k hk
    rw [and_two_pow_ne_zero, error_bits_testBit status h1 k hk]
  have hmaps : strmap.map (fun e =>
        if error_bits status &&& e.1 ≠ 0 then some e.2.toList else none)
      = (error_table status.err_info_1 status.err_info_2).map (fun p =>
        if p.1 = true then some (p.2.toList ++ [' ']) else none) := by
    have c0 : error_bits status &&& (QL_ERR_1_NO_MEDIA <<< 0) ≠ 0
        ↔ status.err_info_1.testBit 0 = true := hb 0 (by norm_num)
    have c1 : error_bits status &&& (QL_ERR_1_END_OF_MEDIA <<< 0) ≠ 0
        ↔ status.err_info_1.testBit 1 = true := hb 1 (by norm_num)
    have c2 : error_bits status &&& (QL_ERR_1_CUTTER_JAM <<< 0) ≠ 0
        ↔ status.err_info_1.testBit 2 = true := hb 2 (by norm_num)
    have c4 : error_bits status &&& (QL_ERR_1_PRINTER_IN_USE <<< 0) ≠ 0
        ↔ status.err_info_1.testBit 4 = true := hb 4 (by norm_num)
    have c5 : error_bits status &&& (QL_ERR_1_PRINTER_TURNED_OFF <<< 0) ≠ 0
        ↔ status.err_info_1.testBit 5 = true := hb 5 (by norm_num)
    have c6 : error_bits status &&& (QL_ERR_1_HIGH_VOLTAGE_ADAPTER <<< 0) ≠ 0
        ↔ status.err_info_1.testBit 6 = true := hb 6 (by norm_num)
    have c7 : error_bits status &&& (QL_ERR_1_FAN_MOTOR_ERROR <<< 0) ≠ 0
        ↔ status.err_info_1.testBit 7 = true := hb 7 (by norm_num)
    have c8 : error_bits status &&& (QL_ERR_2_REPLACE_MEDIA <<< 8) ≠ 0
        ↔ status.err_info_2.testBit 0 = true := hb 8 (by norm_num)
    have c9 : error_bits status &&& (QL_ERR_2_EXPANSION_BUFFER_FULL <<< 8) ≠ 0
        ↔ status.err_info_2.testBit 1 = true := hb 9 (by norm_num)
    have c10 : error_bits status &&& (QL_ERR_2_COMMUNICATION_ERROR <<< 8) ≠ 0
        ↔ status.err_info_2.testBit 2 = true := hb 10 (by norm_num)
    have c11 : error_bits status &&& (QL_ERR_2_COMMUNICATION_BUFFER_FULL <<< 8) ≠ 0
        ↔ status.err_info_2.testBit 3 = true := hb 11 (by norm_num)
    have c12 : error_bits status &&& (QL_ERR_2_COVER_OPEN <<< 8) ≠ 0
        ↔ status.err_info_2.testBit 4 = true := hb 12 (by norm_num)
    have c13 : error_bits status &&& (QL_ERR_2_CANCEL_KEY <<< 8) ≠ 0
        ↔ status.err_info_2.testBit 5 = true := hb 13 (by norm_num)
    have c14 : error_bits status &&& (QL_ERR_2_MEDIA_CANNOT_BE_FED <<< 8) ≠ 0
        ↔ status.err_info_2.testBit 6 = true := hb 14 (by norm_num)
    have c15 : error_bits status &&& (QL_ERR_2_SYSTEM_ERROR <<< 8) ≠ 0
        ↔ status.err_info_2.testBit 7 = true := hb 15 (by norm_num)
    simp only [strmap, error_table, List.map_cons, List.map_nil, c0, c1, c2, c4, c5, c6, c7,
      c8, c9, c10, c11, c12, c13, c14, c15]
    rfl
  unfold decode_errors_buf error_names
  rw [foldl_strcat_eq (fun e : Nat × String => error_bits status &&& e.1 ≠ 0)
    (fun e => e.2.toList) strmap [], List.nil_append]
  have e1 : strmap.filterMap (fun e =>
        if error_bits status &&& e.1 ≠ 0 then some e.2.toList else none)
      = (strmap.map (fun e =>
        if error_bits status &&& e.1 ≠ 0 then some e.2.toList else none)).filterMap id := by
    rw [List.filterMap_map]; rfl
  have e2 : ((error_table status.err_info_1 status.err_info_2).filterMap
        (fun p => if p.1 = true then some p.2 else none)).map (fun n => n.toList ++ [' '])
      = ((error_table status.err_info_1 status.err_info_2).map (fun p =>
        if p.1 = true then some (p.2.toList ++ [' ']) else none)).filterMap id := by
    rw [List.filterMap_map, List.map_filterMap]
    congr 1
    funext p
    by_cases hp : p.1 = true <;> simp [hp]
  rw [e1, e2, hmaps]

theorem intercalate_trailing_empty {α : Type} (x : α) (ls : List (List α)) :
    [x].intercalate (ls ++ [[]]) = (ls.map (fun l => l ++ [x])).flatten := by
  induction ls with
  | nil => rfl
  | cons a l ih =>
    have hstep : ∀ (t : List (List α)), t ≠ [] →
        [x].intercalate (a :: t) = a ++ [x] ++ [x].intercalate t := by
      intro t ht
      cases t with
      | nil => exact absurd rfl ht
      | cons b t => simp [List.intercalate, List.intersperse]
    rw [List.cons_append, hstep _ (by simp), ih]
    simp

theorem filterMap_flag_sublist (t : List (Bool × String)) :
    (t.filterMap (fun p => if p.1 = true then some p.2 else none)).Sublist
      (t.map (fun p => p.2)) := by
  induction t with
  | nil => simp
  | cons p t ih =>
    by_cases hp : p.1 = true
    · simp only [List.filterMap_cons, hp, if_true, List.map_cons]
      exact ih.cons₂ _
    · simp only [List.filterMap_cons, hp, if_false, List.map_cons]
      exact ih.cons _

theorem error_names_sublist (e1 e2 : Nat) : (error_names e1 e2).Sublist all_error_names :=
  filterMap_flag_sublist (error_table e1 e2)

theorem all_error_names_facts :
    all_error_names.Nodup ∧ ∀ n ∈ all_error_names, ' ' ∉ n.toList ∧ n.toList ≠ [] := by
  decide

theorem error_byte_masks : ∀ e, e < 256 →
    ((e.testBit 0 = false ∧ e.testBit 1 = false ∧ e.testBit 2 = false ∧ e.testBit 4 = false ∧
        e.testBit 5 = false ∧ e.testBit 6 = false ∧ e.testBit 7 = false) ↔ e &&& 0xf7 = 0) ∧
    ((e.testBit 0 = false ∧ e.testBit 1 = false ∧ e.testBit 2 = false ∧ e.testBit 3 = false ∧
        e.testBit 4 = false ∧ e.testBit 5 = false ∧ e.testBit 6 = false ∧ e.testBit 7 = false)
      ↔ e = 0) := by
  decide

/-- No name is decoded exactly when no defined bit is set: `err_info_1` has none of
the bits `0xF7` (bit `0x08` has no name) and `err_info_2` is 0. -/
theorem error_names_eq_nil_iff (e1 e2 : Nat) (h1 : e1 < 256) (h2 : e2 < 256) :
    error_names e1 e2 = [] ↔ (e1 &&& 0xf7 = 0 ∧ e2 = 0) := by
  rw [← (error_byte_masks e1 h1).1, ← (error_byte_masks e2 h2).2]
  unfold error_names error_table
  rw [List.filterMap_eq_nil_iff]
  simp only [List.forall_mem_cons, List.not_mem_nil, false_implies, implies_true, and_true,
    ite_eq_right_iff, Bool.not_eq_true, reduceCtorEq, imp_false]
  tauto

theorem space_mem_names_buf (names : List String) (h : names ≠ []) :
    ' ' ∈ (names.map (fun n => n.toList ++ [' '])).flatten := by
  cases names with
  | nil => exact absurd rfl h
  | cons n rest => simp

/-- The label `ql_decode_errors` returns when its buffer is available: `"none"`
for an empty buffer, else the buffer, which holds the names of the set bits each
followed by a space. -/
theorem ql_decode_errors_label (malloc_ok : Bool) (st : decoder_state) (status : ql_status_t)
    (h1 : status.err_info_1 < 256)
    (havail : st.errors_buf ≠ none ∨ malloc_ok = true) :
    (ql_decode_errors malloc_ok st status).1
      = if error_names status.err_info_1 status.err_info_2 = [] then "none"
        else String.mk ((error_names status.err_info_1 status.err_info_2).map
          (fun n => n.toList ++ [' '])).flatten := by
  have hna : ¬ (st.errors_buf = none ∧ malloc_ok = false) := by
    rintro ⟨ha, hb⟩
    rcases havail with h | h
    · exact h ha
    · rw [hb] at h; exact Bool.noConfusion h
  unfold ql_decode_errors
  simp only [hna, if_false, decode_errors_buf_eq status h1]
  by_cases hn : error_names status.err_info_1 status.err_info_2 = []
  · simp [hn]
  · have hsp := space_mem_names_buf _ hn
    have hne : ((error_names status.err_info_1 status.err_info_2).map
        (fun n => n.toList ++ [' '])).flatten ≠ [] := by
      intro h0; rw [h0] at hsp; exact List.not_mem_nil _ hsp
    simp only [hne, hn, if_false]

/-! ## Error decoding: the claims -/

/-- C12, as stated, fails: with `err_info_1 = 0x08`, a bit without a name, and
`err_info_2 = 0` the result is `"none"` although an error byte is nonzero. -/
theorem decode_errors_none_counterexample :
    (status_with_errors 0x08 0).err_info_1 = 0x08 ∧
    (status_with_errors 0x08 0).err_info_2 = 0 ∧
    (ql_decode_errors true decoder_pristine (status_with_errors 0x08 0)).1 = "none" := by
  decide

/-- C12, amended: when the decoder's buffer is available (allocated by an earlier
call, or `malloc` succeeds now), `ql_decode_errors` returns `"none"` exactly when
no defined error bit is set, that is `err_info_1 & 0xF7 = 0` and `err_info_2 = 0`;
whenever a defined bit is set the result is the non-empty list of the names of the
set bits, each followed by a space.  When the first allocation fails the result is
`"<host-out-of-memory>"`. -/
theorem decode_errors_none_iff_no_defined_bit (malloc_ok : Bool) (st : decoder_state)
    (status : ql_status_t) (h1 : status.err_info_1 < 256) (h2 : status.err_info_2 < 256)
    (havail : st.errors_buf ≠ none ∨ malloc_ok = true) :
    ((ql_decode_errors malloc_ok st status).1 = "none" ↔
      (status.err_info_1 &&& 0xf7 = 0 ∧ status.err_info_2 = 0)) ∧
    (¬ (status.err_info_1 &&& 0xf7 = 0 ∧ status.err_info_2 = 0) →
      error_names status.err_info_1 status.err_info_2 ≠ [] ∧
      (error_names status.err_info_1 status.err_info_2).Sublist all_error_names ∧
      (ql_decode_errors malloc_ok st status).1
        = String.mk ((error_names status.err_info_1 status.err_info_2).map
            (fun n => n.toList ++ [' '])).flatten) ∧
    (ql_decode_errors false decoder_pristine status).1 = "<host-out-of-memory>" := by
  have hlabel := ql_decode_errors_label malloc_ok st status h1 havail
  have hnil := error_names_eq_nil_iff status.err_info_1 status.err_info_2 h1 h2
  refine ⟨?_, ?_, ?_⟩
  · rw [hlabel, ← hnil]
    by_cases hn : error_names status.err_info_1 status.err_info_2 = []
    · simp [hn]
    · simp only [hn, if_false, iff_false]
      intro heq
      have hsp := space_mem_names_buf _ hn
      have hdata := congrArg String.data heq
      simp only at hdata
      rw [hdata] at hsp
      revert hsp
      decide
  · intro hset
    have hn : error_names status.err_info_1 status.err_info_2 ≠ [] := fun h => hset (hnil.mp h)
    refine ⟨hn, error_names_sublist _ _, ?_⟩
    rw [hlabel]
    simp only [hn, if_false]
  · simp [ql_decode_errors, decoder_pristine]

/-- Witness of the amended C12: `err_info_1 = 0x08`, `err_info_2 = 0x10` on a first
call with a successful allocation gives `"cover-open "`. -/
theorem decode_errors_none_iff_no_defined_bit_witness :
    ¬ ((ql_decode_errors true decoder_pristine (status_with_errors 0x08 0x10)).1 = "none") ∧
    (ql_decode_errors true decoder_pristine (status_with_errors 0x08 0x10)).1 = "cover-open " := by
  have h := decode_errors_none_iff_no_defined_bit true decoder_pristine
    (status_with_errors 0x08 0x10) (by decide) (by decide) (Or.inr rfl)
  refine ⟨fun hnone => ?_, ?_⟩
  · have := h.1.mp hnone
    revert this
    decide
  · rw [(h.2.1 (by decide)).2.2]
    decide

/-- C13, as stated, fails: on a first call whose `malloc` fails the result is
`"<host-out-of-memory>"` whatever the error bytes, here with the defined bit
`no-media` set; split on spaces it is not the list of the names of the set bits. -/
theorem decode_errors_out_of_memory_counterexample :
    error_names (status_with_errors 0x01 0).err_info_1 (status_with_errors 0x01 0).err_info_2
      = ["no-media"] ∧
    (ql_decode_errors false decoder_pristine (status_with_errors 0x01 0)).1
      = "<host-out-of-memory>" ∧
    (ql_decode_errors false decoder_pristine (status_with_errors 0x01 0)).1.toList.splitOn ' '
      = ["<host-out-of-memory>".toList] := by
  decide

/-- C13, amended: when the decoder's buffer is available (allocated by an earlier
call, or `malloc` succeeds now) and at least one defined error bit is set, the
string returned by `ql_decode_errors` is the names of the defined bits that are
set, each once, in the order `err_info_1` bit 0 to 7 then `err_info_2` bit 0 to 7,
each followed by one space: split on spaces it is the list of these names followed
by one empty piece.  It is the same for every status with the same two error
bytes and every such decoder state.  `(0x01, 0)` gives `"no-media "` and
`(0x11, 0)` gives `"no-media printer-in-use "`.  When the buffer is not yet
allocated and `malloc` fails, the result is `"<host-out-of-memory>"` whatever the
error bytes. -/
theorem decode_errors_bit_scan_order (malloc_ok : Bool) (st : decoder_state)
    (status : ql_status_t) (h1 : status.err_info_1 < 256)
    (havail : st.errors_buf ≠ none ∨ malloc_ok = true)
    (hset : error_names status.err_info_1 status.err_info_2 ≠ []) :
    (ql_decode_errors malloc_ok st status).1.toList
      = ((error_names status.err_info_1 status.err_info_2).map
          (fun n => n.toList ++ [' '])).flatten ∧
    (ql_decode_errors malloc_ok st status).1.toList.splitOn ' '
      = (error_names status.err_info_1 status.err_info_2).map String.toList ++ [[]] ∧
    ((ql_decode_errors malloc_ok st status).1.toList.splitOn ' ').filter (fun w => w ≠ [])
      = (error_names status.err_info_1 status.err_info_2).map String.toList ∧
    (error_names status.err_info_1 status.err_info_2).Nodup ∧
    (error_names status.err_info_1 status.err_info_2).Sublist all_error_names ∧
    (∀ (malloc_ok2 : Bool) (st2 : decoder_state) (status2 : ql_status_t),
      (st2.errors_buf ≠ none ∨ malloc_ok2 = true) →
      status2.err_info_1 = status.err_info_1 → status2.err_info_2 = status.err_info_2 →
      (ql_decode_errors malloc_ok2 st2 status2).1 = (ql_decode_errors malloc_ok st status).1) ∧
    (ql_decode_errors true decoder_pristine (status_with_errors 0x01 0)).1 = "no-media " ∧
    (ql_decode_errors true decoder_pristine (status_with_errors 0x11 0)).1
      = "no-media printer-in-use " ∧
    (∀ (st2 : decoder_state) (status2 : ql_status_t), st2.errors_buf = none →
      (ql_decode_errors false st2 status2).1 = "<host-out-of-memory>") := by
  have hlabel := ql_decode_errors_label malloc_ok st status h1 havail
  have hsub := error_names_sublist status.err_info_1 status.err_info_2
  have hmem : ∀ n ∈ error_names status.err_info_1 status.err_info_2,
      ' ' ∉ n.toList ∧ n.toList ≠ [] :=
    fun n hn => all_error_names_facts.2 n (hsub.subset hn)
  have hlist : (ql_decode_errors malloc_ok st status).1.toList
      = ((error_names status.err_info_1 status.err_info_2).map
          (fun n => n.toList ++ [' '])).flatten := by
    rw [hlabel]; simp only [hset, if_false]; rfl
  have hsplit : (ql_decode_errors malloc_ok st status).1.toList.splitOn ' '
      = (error_names status.err_info_1 status.err_info_2).map String.toList ++ [[]] := by
    rw [hlist]
    have hmap : (error_names status.err_info_1 status.err_info_2).map
          (fun n => n.toList ++ [' '])
        = ((error_names status.err_info_1 status.err_info_2).map String.toList).map
          (fun l => l ++ [' ']) := by
      rw [List.map_map]; rfl
    rw [hmap, ← intercalate_trailing_empty]
    apply List.splitOn_intercalate
    · intro l hl
      simp only [List.mem_append, List.mem_map, List.mem_singleton] at hl
      rcases hl with ⟨n, hn, rfl⟩ | rfl
      · exact (hmem n hn).1
      · simp
    · simp
  refine ⟨hlist, hsplit, ?_, hsub.nodup all_error_names_facts.1, hsub, ?_, by decide, by decide,
    fun st2 status2 hnone => by simp [ql_decode_errors, hnone]⟩
  · rw [hsplit, List.filter_append]
    have hall : ((error_names status.err_info_1 status.err_info_2).map String.toList).filter
        (fun w => decide (w ≠ []))
        = (error_names status.err_info_1 status.err_info_2).map String.toList := by
      rw [List.filter_eq_self]
      intro w hw
      simp only [List.mem_map] at hw
      obtain ⟨n, hn, rfl⟩ := hw
      simpa using (hmem n hn).2
    rw [hall]
    simp
  · intro malloc_ok2 st2 status2 havail2 he1 he2
    rw [hlabel, ql_decode_errors_label malloc_ok2 st2 status2 (by rw [he1]; exact h1) havail2,
      he1, he2]

/-- Witness of the amended C13: `(0x11, 0x20)` on a decoder whose buffer is
already allocated. -/
theorem decode_errors_bit_scan_order_witness :
    (ql_decode_errors false { decoder_pristine with errors_buf := some [] }
        (status_with_errors 0x11 0x20)).1.toList.splitOn ' '
      = ["no-media".toList, "printer-in-use".toList, "cancel-key-pressed".toList, []] := by
  rw [(decode_errors_bit_scan_order false { decoder_pristine with errors_buf := some [] }
    (status_with_errors 0x11 0x20) (by decide) (Or.inl (by decide)) (by decide)).2.1]
  decide

/-! ## Reopening and the retry bound: proofs -/

/-- A read of 0 bytes, or one failing with `EBADF`, followed by a successful
`open`, sends the loop of `ql_read_status` into its next pass with the device
reopened under the stored path and the status buffer untouched. -/
theorem read_loop_reopen_step (env : Env) (k : Nat) (ctx : ql_ctx) (status : ql_status_t)
    (hr : reopen_read env ctx.nreads) (ho : env.open_ret ctx.nopens = OpenRet.ok) :
    ql_read_status_loop env (k + 1) ctx status
      = ql_read_status_loop env k
          { ctx with nreads := ctx.nreads + 1
                     errno := (env.read_ret ctx.nreads).errno_after ctx.errno
                     nopens := ctx.nopens + 1
                     opened := ctx.opened ++ [ctx.printer]
                     fd_valid := true } status := by
  rcases hr with h | h
  · simp [ql_read_status_loop, h, ReadRet.ret, ReadRet.errno_after, ReadRet.store, reopen, ho]
  · simp [ql_read_status_loop, h, ReadRet.ret, ReadRet.errno_after, ReadRet.store, reopen, ho]

theorem read_loop_reopens_then_full (env : Env) (bs : List Nat) (h32 : bs.length = 32) :
    ∀ (j k : Nat) (ctx : ql_ctx) (status : ql_status_t), j < k →
      status.bytes.length = 32 →
      (∀ i, i < j → reopen_read env (ctx.nreads + i)) →
      (∀ i, i < j → env.open_ret (ctx.nopens + i) = OpenRet.ok) →
      env.read_ret (ctx.nreads + j) = ReadRet.data bs →
      ∃ ctx1, ql_read_status_loop env k ctx status = (true, ctx1, ⟨bs⟩) ∧
        ctx1.printer = ctx.printer ∧
        ctx1.opened = ctx.opened ++ List.replicate j ctx.printer ∧
        ctx1.nreads = ctx.nreads + j + 1 ∧ ctx1.nopens = ctx.nopens + j ∧
        ctx1.nwrites = ctx.nwrites ∧ ctx1.sent = ctx.sent := by
  intro j
  induction j with
  | zero =>
    intro k ctx status hk hst _ _ hfull
    obtain ⟨k, rfl⟩ : ∃ k0, k = k0 + 1 := ⟨k - 1, by omega⟩
    rw [Nat.add_zero] at hfull
    refine ⟨{ ctx with nreads := ctx.nreads + 1 }, ?_, rfl, by simp, by simp, rfl, rfl, rfl⟩
    rw [read_loop_full_step env k ctx status bs hfull (by omega)]
    have htake : bs.take 32 = bs := List.take_of_length_le (by omega)
    have hdrop : status.bytes.drop 32 = [] := List.drop_of_length_le (by omega)
    simp [ReadRet.store, htake, h32, hdrop]
  | succ j ih =>
    intro k ctx status hk hst hzero hopen hfull
    obtain ⟨k, rfl⟩ : ∃ k0, k = k0 + 1 := ⟨k - 1, by omega⟩
    have hz0 := hzero 0 (by omega)
    have ho0 := hopen 0 (by omega)
    rw [Nat.add_zero] at hz0 ho0
    rw [read_loop_reopen_step env k ctx status hz0 ho0]
    obtain ⟨ctx1, hrun, hp, hop, hnr, hno, hnw, hs⟩ := ih k
      { ctx with nreads := ctx.nreads + 1
                 errno := (env.read_ret ctx.nreads).errno_after ctx.errno
                 nopens := ctx.nopens + 1
                 opened := ctx.opened ++ [ctx.printer]
                 fd_valid := true } status (by omega) hst
      (fun i hi => by
        have := hzero (i + 1) (by omega)
        simpa [Nat.add_assoc, Nat.add_comm 1 i] using this)
      (fun i hi => by
        have := hopen (i + 1) (by omega)
        simpa [Nat.add_assoc, Nat.add_comm 1 i] using this)
      (by simpa [Nat.add_assoc, Nat.add_comm 1 j] using hfull)
    refine ⟨ctx1, hrun, hp, ?_, ?_, ?_, hnw, hs⟩
    · rw [hop]; simp [List.replicate_succ]
    · rw [hnr]; simp only; omega
    · rw [hno]; simp only; omega

/-- The loop of `ql_read_status` with `k` passes left makes at most `k` reads,
and never changes the stored path. -/
theorem read_loop_bounded (env : Env) :
    ∀ (k : Nat) (ctx : ql_ctx) (status : ql_status_t),
      ctx.nreads ≤ (ql_read_status_loop env k ctx status).2.1.nreads ∧
      (ql_read_status_loop env k ctx status).2.1.nreads ≤ ctx.nreads + k ∧
      (ql_read_status_loop env k ctx status).2.1.printer = ctx.printer := by
  intro k
  induction k with
  | zero => intro ctx status; simp [ql_read_status_loop]
  | succ k ih =>
    intro ctx status
    simp only [ql_read_status_loop]
    split
    · simp
    · split
      · split
        · refine ⟨?_, ?_, ?_⟩
          · unfold reopen; split <;> simp
          · unfold reopen; split <;> simp
          · unfold reopen; split <;> simp
        · have h := ih (reopen env { ctx with
              nreads := ctx.nreads + 1
              errno := (env.read_ret ctx.nreads).errno_after ctx.errno })
            ((env.read_ret ctx.nreads).store status)
          have hr : (reopen env { ctx with
              nreads := ctx.nreads + 1
              errno := (env.read_ret ctx.nreads).errno_after ctx.errno }).nreads
                = ctx.nreads + 1 := by
            unfold reopen; split <;> rfl
          have hp : (reopen env { ctx with
              nreads := ctx.nreads + 1
              errno := (env.read_ret ctx.nreads).errno_after ctx.errno }).printer
                = ctx.printer := by
            unfold reopen; split <;> rfl
          rw [hr, hp] at h
          exact ⟨by omega, by omega, h.2.2⟩
      · split
        · simp
        · have h := ih { ctx with
              nreads := ctx.nreads + 1
              errno := (env.read_ret ctx.nreads).errno_after ctx.errno }
            ((env.read_ret ctx.nreads).store status)
          simp only at h
          exact ⟨by omega, by omega, h.2.2⟩

theorem read_loop_times_out (env : Env) :
    ∀ (k : Nat) (ctx : ql_ctx) (status : ql_status_t),
      (∀ p, ctx.nreads ≤ p → p < ctx.nreads + k → inconclusive_read env p) →
      (∀ q, ctx.nopens ≤ q → q < ctx.nopens + k → env.open_ret q = OpenRet.ok) →
      ∃ ctx1 st, ql_read_status_loop env k ctx status = (false, ctx1, st) ∧
        ctx1.errno = some Errno.ETIME ∧ ctx1.nreads = ctx.nreads + k ∧
        ctx1.printer = ctx.printer := by
  intro k
  induction k with
  | zero =>
    intro ctx status _ _
    exact ⟨{ ctx with errno := some Errno.ETIME }, status,
      by simp only [ql_read_status_loop], rfl, rfl, rfl⟩
  | succ k ih =>
    intro ctx status hreads hopens
    have hzero_or_badf : ∀ (hr : reopen_read env ctx.nreads),
        ∃ ctx1 st, ql_read_status_loop env (k + 1) ctx status = (false, ctx1, st) ∧
          ctx1.errno = some Errno.ETIME ∧ ctx1.nreads = ctx.nreads + (k + 1) ∧
          ctx1.printer = ctx.printer := by
      intro hr
      rw [read_loop_reopen_step env k ctx status hr
        (hopens ctx.nopens (le_refl _) (by omega))]
      obtain ⟨ctx1, st, hrun, he, hn, hp⟩ := ih
        { ctx with nreads := ctx.nreads + 1
                   errno := (env.read_ret ctx.nreads).errno_after ctx.errno
                   nopens := ctx.nopens + 1
                   opened := ctx.opened ++ [ctx.printer]
                   fd_valid := true } status
        (fun p hp1 hp2 => hreads p (by simp only at hp1; omega) (by simp only at hp2; omega))
        (fun q hq1 hq2 => hopens q (by simp only at hq1; omega) (by simp only at hq2; omega))
      exact ⟨ctx1, st, hrun, he, by rw [hn]; simp only; omega, hp⟩
    rcases hreads ctx.nreads (le_refl _) (by omega) with ⟨bs, hbs, hlen⟩ | hbadf
    · by_cases h0 : bs.length = 0
      · have hnil : bs = [] := List.length_eq_zero.mp h0
        rw [hnil] at hbs
        exact hzero_or_badf (Or.inl hbs)
      · rw [read_loop_short_step env k ctx status bs hbs (by omega) hlen]
        obtain ⟨ctx1, st, hrun, he, hn, hp⟩ := ih { ctx with nreads := ctx.nreads + 1 }
          ((ReadRet.data bs).store status)
          (fun p hp1 hp2 => hreads p (by simp only at hp1; omega) (by simp only at hp2; omega))
          (fun q hq1 hq2 => hopens q (by simp only at hq1; omega) (by simp only at hq2; omega))
        exact ⟨ctx1, st, hrun, he, by rw [hn]; simp only; omega, hp⟩
    · exact hzero_or_badf (Or.inr hbadf)

/-! ## Reopening and the retry bound: the claims -/

/-- C15: transparent reopen.  For `k < 100`, if the first `k` reads each return 0
bytes or fail with `EBADF`, each following `open` succeeds and the next read
returns exactly 32 bytes, then `ql_read_status` returns success with the status
equal to those 32 bytes.  Each of the `k` reopens is given the stored path
`ctx->printer`, which is unchanged afterwards, and `ql_open` stores the path it
was given. -/
theorem transparent_reopen (env : Env) (ctx : ql_ctx) (status : ql_status_t) (k : Nat)
    (bs : List Nat) (hk : k < 100) (hst : status.bytes.length = 32)
    (hzero : ∀ i, i < k → reopen_read env (ctx.nreads + i))
    (hopen : ∀ i, i < k → env.open_ret (ctx.nopens + i) = OpenRet.ok)
    (hfull : env.read_ret (ctx.nreads + k) = ReadRet.data bs) (hlen : bs.length = 32) :
    (∃ ctx1, ql_read_status env ctx status = (true, ctx1, ⟨bs⟩) ∧
      ctx1.printer = ctx.printer ∧
      ctx1.opened = ctx.opened ++ List.replicate k ctx.printer ∧
      ctx1.nreads = ctx.nreads + k + 1 ∧ ctx1.nopens = ctx.nopens + k ∧
      ctx1.nwrites = ctx.nwrites ∧ ctx1.sent = ctx.sent) ∧
    (∀ (env0 : Env) (fuel : Nat) (path : String) (c : ql_ctx),
      ql_open env0 fuel true path = some (some c) → c.printer = path ∧ c.opened = [path]) := by
  refine ⟨read_loop_reopens_then_full env bs hlen k 100 ctx status hk hst hzero hopen hfull, ?_⟩
  intro env0 fuel path c hc
  unfold ql_open at hc
  generalize List.replicate 200 0 = clear at hc
  cases ho : env0.open_ret 0 with
  | error e => simp [ho] at hc
  | ok =>
    simp only [ho, Bool.true_eq_false, if_false] at hc
    cases hw : full_write env0 fuel
        { printer := path, fd_valid := true, errno := none, nwrites := 0, nreads := 0,
          nopens := 1, sent := [], opened := [path] } clear with
    | none => simp [hw] at hc
    | some r =>
      obtain ⟨b, c1⟩ := r
      simp only [hw, Option.some.injEq] at hc
      subst hc
      obtain ⟨-, -, -, hp, -, -, -, hop⟩ := full_write_trace env0 fuel _ _ b c1 hw
      exact ⟨hp, hop⟩

/-- Witness of C15: two reads of 0 bytes, each followed by a successful reopen of
`/dev/usb/lp0`, then the reply of a QL-570. -/
theorem transparent_reopen_witness :
    ∃ ctx1, ql_read_status (env_eof_then_reply 2) ctx0 ⟨List.replicate 32 0⟩
        = (true, ctx1, status_ql570) ∧
      ctx1.printer = "/dev/usb/lp0" ∧
      ctx1.opened = ["/dev/usb/lp0", "/dev/usb/lp0"] := by
  obtain ⟨ctx1, h1, h2, h3, -⟩ := (transparent_reopen (env_eof_then_reply 2) ctx0
    ⟨List.replicate 32 0⟩ 2 status_ql570.bytes (by decide) (by decide)
    (fun i hi => by
      have : i = 0 ∨ i = 1 := by omega
      rcases this with rfl | rfl <;> exact Or.inl rfl)
    (fun i _ => rfl) rfl (by decide)).1
  exact ⟨ctx1, h1, h2, h3⟩

/-- C16: `ql_read_status` is bounded.  It returns for every environment, having
made at most 100 reads; if each of the first 100 reads delivers fewer than 32
bytes or fails with `EBADF` (so none returns 32 bytes and none fails otherwise)
and no reopen fails, it returns failure after exactly 100 reads with
`errno = ETIME`. -/
theorem read_status_bounded (env : Env) (ctx : ql_ctx) (status : ql_status_t) :
    ctx.nreads ≤ (ql_read_status env ctx status).2.1.nreads ∧
    (ql_read_status env ctx status).2.1.nreads ≤ ctx.nreads + 100 ∧
    ((∀ i, i < 100 → inconclusive_read env (ctx.nreads + i)) →
      (∀ i, i < 100 → env.open_ret (ctx.nopens + i) = OpenRet.ok) →
      (ql_read_status env ctx status).1 = false ∧
      (ql_read_status env ctx status).2.1.errno = some Errno.ETIME ∧
      (ql_read_status env ctx status).2.1.nreads = ctx.nreads + 100) := by
  have hb := read_loop_bounded env 100 ctx status
  refine ⟨hb.1, hb.2.1, ?_⟩
  intro hreads hopens
  obtain ⟨ctx1, st, hrun, he, hn, -⟩ := read_loop_times_out env 100 ctx status
    (fun p hp1 hp2 => by
      have := hreads (p - ctx.nreads) (by omega)
      rwa [Nat.add_sub_cancel' hp1] at this)
    (fun q hq1 hq2 => by
      have := hopens (q - ctx.nopens) (by omega)
      rwa [Nat.add_sub_cancel' hq1] at this)
  have hrun2 : ql_read_status env ctx status = (false, ctx1, st) := hrun
  rw [hrun2]
  exact ⟨rfl, he, hn⟩

/-- Witness of C16: a silent device (every read returns 0 bytes, every reopen
succeeds) makes `ql_read_status` fail with `ETIME` after 100 reads. -/
theorem read_status_bounded_witness :
    (ql_read_status env_silent ctx0 status_ql570).1 = false ∧
    (ql_read_status env_silent ctx0 status_ql570).2.1.errno = some Errno.ETIME ∧
    (ql_read_status env_silent ctx0 status_ql570).2.1.nreads = ctx0.nreads + 100 :=
  (read_status_bounded env_silent ctx0 status_ql570).2.2
    (fun _ _ => Or.inl ⟨[], rfl, by decide⟩) (fun _ _ => rfl)

/-! ## Configuration commands: the claims -/

theorem full_write_writes_exactly (frame : List Nat) (hne : frame ≠ []) :
    writes_exactly (fun env fuel ctx => full_write env fuel ctx frame) frame := by
  constructor
  · intro env fuel ctx b ctx1 h
    obtain ⟨ht, hf, -⟩ := full_write_trace env fuel ctx frame b ctx1 h
    cases b with
    | true =>
      have hs := ht rfl
      exact ⟨⟨frame.length, le_refl _, by rw [hs, List.take_length]⟩, by simp [hs]⟩
    | false =>
      obtain ⟨m, hm, hs⟩ := hf rfl
      refine ⟨⟨m, by omega, hs⟩, ?_⟩
      simp only [Bool.false_eq_true, false_iff]
      intro heq
      rw [hs] at heq
      have hl := congrArg List.length (List.append_cancel_left heq)
      rw [List.length_take] at hl
      omega
  · intro env fuel ctx n hret hn
    exact full_write_accept env fuel ctx frame n hne hret hn

/-- C18: each configuration operation writes exactly its fixed frame and returns
`true` if and only if the whole frame was written: `ql_init` writes `1B 40`,
`ql_request_status` `1B 69 53`, `ql_set_mode(m)` `1B 69 4D (m mod 256)`,
`ql_set_expanded_mode(m)` `1B 69 4B (m mod 256)`, `ql_set_autocut_every_n(n)`
`1B 69 41 n`, `ql_switch_to_raster_mode` `1B 69 61 01`, and `ql_set_margin(dots)`
`1B 69 64 lo hi` with `lo = dots mod 256`, `hi = dots div 256`, `lo + 256 * hi = dots`. -/
theorem config_commands_write_fixed_frames :
    writes_exactly ql_init [0x1b, 0x40] ∧
    writes_exactly ql_request_status [0x1b, 0x69, 0x53] ∧
    (∀ m : Nat, writes_exactly (fun env fuel ctx => ql_set_mode env fuel ctx m)
      [0x1b, 0x69, 0x4d, m % 256]) ∧
    (∀ m : Nat, writes_exactly (fun env fuel ctx => ql_set_expanded_mode env fuel ctx m)
      [0x1b, 0x69, 0x4b, m % 256]) ∧
    (∀ n : Nat, n < 256 →
      writes_exactly (fun env fuel ctx => ql_set_autocut_every_n env fuel ctx n)
        [0x1b, 0x69, 0x41, n]) ∧
    writes_exactly ql_switch_to_raster_mode [0x1b, 0x69, 0x61, 0x01] ∧
    (∀ dots : Nat, dots < 65536 →
      writes_exactly (fun env fuel ctx => ql_set_margin env fuel ctx dots)
        [0x1b, 0x69, 0x64, dots % 256, dots / 256] ∧
      dots % 256 + 256 * (dots / 256) = dots) := by
  refine ⟨full_write_writes_exactly cmd_init (by simp [cmd_init]),
    full_write_writes_exactly cmd_request_status (by simp [cmd_request_status]),
    fun m => full_write_writes_exactly (cmd_set_mode m) (by simp [cmd_set_mode]),
    fun m => full_write_writes_exactly (cmd_set_expanded_mode m)
      (by simp [cmd_set_expanded_mode]), ?_,
    full_write_writes_exactly cmd_switch_to_raster_mode
      (by simp [cmd_switch_to_raster_mode]), ?_⟩
  · intro n hn
    have h : cmd_set_autocut_every_n n = [0x1b, 0x69, 0x41, n] := by
      simp [cmd_set_autocut_every_n, ESC, Nat.mod_eq_of_lt hn]
    have hw : writes_exactly (fun env fuel ctx => ql_set_autocut_every_n env fuel ctx n)
        (cmd_set_autocut_every_n n) :=
      full_write_writes_exactly (cmd_set_autocut_every_n n) (by simp [cmd_set_autocut_every_n])
    rw [h] at hw
    exact hw
  · intro dots hd
    have hlo : (dots &&& 0xff) % 256 = dots % 256 := by
      have : dots &&& 0xff = dots % 256 := Nat.and_pow_two_sub_one_eq_mod dots 8
      rw [this, Nat.mod_mod]
    have hhi : (dots >>> 8) % 256 = dots / 256 := by
      rw [Nat.shiftRight_eq_div_pow]
      exact Nat.mod_eq_of_lt (by omega)
    have h : cmd_set_margin dots = [0x1b, 0x69, 0x64, dots % 256, dots / 256] := by
      simp only [cmd_set_margin, ESC, hlo, hhi]
    have hw : writes_exactly (fun env fuel ctx => ql_set_margin env fuel ctx dots)
        (cmd_set_margin dots) :=
      full_write_writes_exactly (cmd_set_margin dots) (by simp [cmd_set_margin])
    rw [h] at hw
    exact ⟨hw, by omega⟩

/-- Witness of C18: `ql_set_margin(300)` with every write accepted sends
`1B 69 64 2C 01` in one call and returns `true`. -/
theorem config_commands_write_fixed_frames_witness :
    ql_set_margin env_accept_all 1 ctx0 300
      = some (true, { ctx0 with nwrites := 1, sent := [0x1b, 0x69, 0x64, 0x2c, 0x01] }) := by
  have h := (config_commands_write_fixed_frames.2.2.2.2.2.2 300 (by decide)).1.2
    env_accept_all 0 ctx0 1000 rfl (by decide)
  simpa using h

/-- C17, as stated, fails: the raster-data frame of column 0 that
`ql_print_raster_image` writes for a 1 x 1 image on a QL-570 has 93 bytes, so it
is not the one-byte commit, and begins with `'g'` (0x67), not with ESC; it is the
14th to 106th byte the device receives. -/
theorem raster_frame_not_esc_counterexample :
    (raster_frames status_ql570 ⟨1, 1, [0]⟩ cfg_default).getD 1 []
      = raster_block 90 0 ⟨1, 1, [0]⟩ cfg_default ∧
    (raster_block 90 0 ⟨1, 1, [0]⟩ cfg_default).length = 93 ∧
    (raster_block 90 0 ⟨1, 1, [0]⟩ cfg_default).head? = some 0x67 ∧
    (ql_print_raster_image env_accept_all 1 ctx0 status_ql570 ⟨1, 1, [0]⟩ cfg_default).map
        (fun r => (r.1, (r.2.sent.drop 13).take 93))
      = some (true, raster_block 90 0 ⟨1, 1, [0]⟩ cfg_default) := by
  refine ⟨by decide, by decide, by decide, ?_⟩
  decide!

/-- C17, amended: every frame written by `ql_init`, `ql_request_status`,
`ql_set_mode`, `ql_set_expanded_mode`, `ql_set_autocut_every_n`, `ql_set_margin`
and `ql_switch_to_raster_mode`, and the print-information frame of
`ql_print_raster_image`, begins with ESC (0x1B); each per-column raster-data frame
begins with `'g'` (0x67); the last frame of an image is the single byte 0x1A. -/
theorem command_frames_first_byte :
    (ql_init = fun env fuel ctx => full_write env fuel ctx cmd_init) ∧
    cmd_init.head? = some 0x1b ∧
    (ql_request_status = fun env fuel ctx => full_write env fuel ctx cmd_request_status) ∧
    cmd_request_status.head? = some 0x1b ∧
    (∀ m, (ql_set_mode · · · m) = (fun env fuel ctx => full_write env fuel ctx (cmd_set_mode m)) ∧
      (cmd_set_mode m).head? = some 0x1b) ∧
    (∀ m, (ql_set_expanded_mode · · · m)
        = (fun env fuel ctx => full_write env fuel ctx (cmd_set_expanded_mode m)) ∧
      (cmd_set_expanded_mode m).head? = some 0x1b) ∧
    (∀ n, (ql_set_autocut_every_n · · · n)
        = (fun env fuel ctx => full_write env fuel ctx (cmd_set_autocut_every_n n)) ∧
      (cmd_set_autocut_every_n n).head? = some 0x1b) ∧
    (∀ dots, (ql_set_margin · · · dots)
        = (fun env fuel ctx => full_write env fuel ctx (cmd_set_margin dots)) ∧
      (cmd_set_margin dots).head? = some 0x1b) ∧
    (ql_switch_to_raster_mode
      = fun env fuel ctx => full_write env fuel ctx cmd_switch_to_raster_mode) ∧
    cmd_switch_to_raster_mode.head? = some 0x1b ∧
    (∀ (status : ql_status_t) (img : ql_raster_image_t) (cfg : ql_print_cfg_t),
      (∀ (env : Env) (fuel : Nat) (ctx : ql_ctx), img.width ≤ 8 * raster_block_size status →
        ql_print_raster_image env fuel ctx status img cfg
          = write_frames env fuel (raster_frames status img cfg) ctx) ∧
      (raster_frames status img cfg).length = img.width + 2 ∧
      ((raster_frames status img cfg).getD 0 []).head? = some 0x1b ∧
      (∀ c, c < img.width →
        ((raster_frames status img cfg).getD (c + 1) []).head? = some 0x67) ∧
      (raster_frames status img cfg).getD (img.width + 1) [] = [0x1a]) := by
  refine ⟨rfl, rfl, rfl, rfl, fun _ => ⟨rfl, rfl⟩, fun _ => ⟨rfl, rfl⟩, fun _ => ⟨rfl, rfl⟩,
    fun _ => ⟨rfl, rfl⟩, rfl, rfl, ?_⟩
  intro status img cfg
  refine ⟨fun env fuel ctx hw => ql_print_raster_image_eq_write_frames env fuel ctx status img cfg hw,
    raster_frames_length status img cfg, ?_, ?_, ?_⟩
  · simp [raster_frames, print_info, ESC]
  · intro c hc
    simp [raster_frames, List.getD_eq_getElem?_getD, List.getElem?_append, hc, raster_block]
  · simp [raster_frames, List.getD_eq_getElem?_getD, List.getElem?_append]

/-- Witness of the amended C17 on a 2 x 1 image: the frame of column 1 begins
with `'g'`. -/
theorem command_frames_first_byte_witness :
    ((raster_frames status_ql570 ⟨2, 1, [0, 255]⟩ cfg_default).getD (1 + 1) []).head?
      = some 0x67 :=
  (command_frames_first_byte.2.2.2.2.2.2.2.2.2.2 status_ql570 ⟨2, 1, [0, 255]⟩
    cfg_default).2.2.2.1 1 (by decide)

/-! ## Termination of `retry_write`: proofs and the claim -/

theorem retry_write_transient_forever (env : Env) (buf : List Nat)
    (htr : ∀ j, is_transient (env.write_ret j) = true) :
    ∀ (fuel : Nat) (ctx : ql_ctx) (written : Nat), written ≠ buf.length →
      retry_write env fuel ctx buf written = none := by
  intro fuel
  induction fuel with
  | zero =>
    intro ctx written hw
    unfold retry_write
    simp [hw]
  | succ fuel ih =>
    intro ctx written hw
    unfold retry_write
    simp only [hw, if_false]
    have h := htr ctx.nwrites
    cases hret : env.write_ret ctx.nwrites with
    | accept n => rw [hret] at h; simp [is_transient] at h
    | error e =>
      rw [hret] at h
      cases e <;> simp [is_transient] at h
      · simp only [true_or, if_true]; exact ih _ written hw
      · simp only [or_true, if_true]; exact ih _ written hw

theorem retry_write_terminates (env : Env) (buf : List Nat)
    (hpos : ∀ j n, env.write_ret j = WriteRet.accept n → 0 < n) :
    ∀ (fuel : Nat) (ctx : ql_ctx) (written : Nat), written ≤ buf.length →
      transient_count env ctx.nwrites fuel + (buf.length - written) ≤ fuel →
      ∃ r ctx1, retry_write env fuel ctx buf written = some (r, ctx1) ∧
        ctx1.nwrites ≤ ctx.nwrites + fuel := by
  intro fuel
  induction fuel with
  | zero =>
    intro ctx written hw hcount
    have he : written = buf.length := by omega
    exact ⟨written, ctx, by unfold retry_write; simp [he], by omega⟩
  | succ fuel ih =>
    intro ctx written hw hcount
    by_cases he : written = buf.length
    · exact ⟨written, ctx, by unfold retry_write; simp [he], by omega⟩
    · unfold retry_write
      simp only [he, if_false]
      simp only [transient_count] at hcount
      cases hret : env.write_ret ctx.nwrites with
      | error e =>
        simp only
        by_cases hre : e = Errno.EAGAIN ∨ e = Errno.EINTR
        · have htr : is_transient (env.write_ret ctx.nwrites) = true := by
            rw [hret]; rcases hre with h | h <;> rw [h] <;> rfl
          rw [htr] at hcount
          simp only [if_true] at hcount
          obtain ⟨r, ctx1, hrun, hn⟩ := ih
            { ctx with nwrites := ctx.nwrites + 1, errno := some e } written hw (by
              simp only; omega)
          simp only [hre, if_true]
          exact ⟨r, ctx1, hrun, by simp only at hn; omega⟩
        · simp only [hre, if_false]
          exact ⟨written, _, rfl, by simp only; omega⟩
      | accept n =>
        simp only
        have hn0 := hpos _ _ hret
        have htr : is_transient (env.write_ret ctx.nwrites) = false := by
          rw [hret]; rfl
        rw [htr] at hcount
        simp only [Bool.false_eq_true, if_false, Nat.zero_add] at hcount
        obtain ⟨r, ctx1, hrun, hn⟩ := ih
          { ctx with nwrites := ctx.nwrites + 1
                     sent := ctx.sent ++ (buf.drop written).take (min n (buf.length - written)) }
          (written + min n (buf.length - written)) (by omega) (by simp only; omega)
        exact ⟨r, ctx1, hrun, by simp only at hn; omega⟩

/-- C19, as stated, fails: when every `write` fails with `EAGAIN`, `retry_write`
on the two bytes of the initialisation frame never returns, whatever the number
of `write` calls allowed. -/
theorem retry_write_never_returns_counterexample :
    ¬ ∃ fuel r, retry_write env_always_eagain fuel ctx0 [0x1b, 0x40] 0 = some r := by
  rintro ⟨fuel, r, h⟩
  rw [retry_write_transient_forever env_always_eagain [0x1b, 0x40] (fun _ => rfl) fuel ctx0 0
    (by decide)] at h
  exact Option.noConfusion h

/-- C19, amended: whenever `retry_write` returns, the count `r` it returns is at
most `len` and the bytes the device accepted are exactly the prefix
`buf[0 .. r)` in order, `EAGAIN` and `EINTR` being retried without skipping or
repeating bytes; `r = len` exactly when all bytes were accepted, and `full_write`
reports success if and only if that is the case.  `EAGAIN` and `EINTR` are retried
without bound: when every accepted count is positive and at most `t` of the first
`len + t` outcomes are `EAGAIN` or `EINTR`, `retry_write` returns within
`len + t` writes, and when every write fails with `EAGAIN` or `EINTR` it never
returns. -/
theorem retry_write_prefix_and_termination (env : Env) (ctx : ql_ctx) (buf : List Nat) :
    (∀ (fuel r : Nat) (ctx1 : ql_ctx), retry_write env fuel ctx buf 0 = some (r, ctx1) →
      r ≤ buf.length ∧ ctx1.sent = ctx.sent ++ buf.take r ∧
      (r = buf.length ↔ ctx1.sent = ctx.sent ++ buf) ∧
      full_write env fuel ctx buf = some (decide (r = buf.length), ctx1)) ∧
    (∀ t : Nat, (∀ j n, env.write_ret j = WriteRet.accept n → 0 < n) →
      transient_count env ctx.nwrites (buf.length + t) ≤ t →
      ∃ r ctx1, retry_write env (buf.length + t) ctx buf 0 = some (r, ctx1) ∧
        ctx1.nwrites ≤ ctx.nwrites + (buf.length + t)) ∧
    (buf ≠ [] → (∀ j, is_transient (env.write_ret j) = true) →
      ∀ fuel, retry_write env fuel ctx buf 0 = none) := by
  refine ⟨?_, ?_, ?_⟩
  · intro fuel r ctx1 h
    obtain ⟨-, h2, h3, -⟩ := retry_write_trace env fuel buf ctx 0 r ctx1 h (Nat.zero_le _)
    simp only [List.drop_zero, Nat.sub_zero] at h3
    refine ⟨h2, h3, ?_, ?_⟩
    · constructor
      · intro hr; rw [h3, hr, List.take_length]
      · intro hs
        rw [h3] at hs
        have hl := congrArg List.length (List.append_cancel_left hs)
        rw [List.length_take] at hl
        omega
    · unfold full_write; rw [h]
  · intro t hpos hcount
    exact retry_write_terminates env buf hpos (buf.length + t) ctx 0 (Nat.zero_le _) (by omega)
  · intro hne htr fuel
    exact retry_write_transient_forever env buf htr fuel ctx 0
      (fun h => hne (List.length_eq_zero.mp h.symm))

/-- Witness of the amended C19: the two bytes of the initialisation frame written
through `EINTR`, one byte taken, `EAGAIN`, the rest taken: four writes, both bytes
sent in order. -/
theorem retry_write_prefix_and_termination_witness :
    transient_count env_interrupted_writes ctx0.nwrites ([0x1b, 0x40].length + 2) ≤ 2 ∧
    retry_write env_interrupted_writes 4 ctx0 [0x1b, 0x40] 0
      = some (2, { ctx0 with nwrites := 4, errno := some Errno.EAGAIN, sent := [0x1b, 0x40] }) ∧
    ∃ r ctx1, retry_write env_interrupted_writes ([0x1b, 0x40].length + 2) ctx0 [0x1b, 0x40] 0
      = some (r, ctx1) ∧ ctx1.nwrites ≤ ctx0.nwrites + ([0x1b, 0x40].length + 2) :=
  ⟨by decide, by decide,
    (retry_write_prefix_and_termination env_interrupted_writes ctx0 [0x1b, 0x40]).2.1 2
      (fun j n h => by
        simp only [env_interrupted_writes] at h
        split at h
        · exact WriteRet.noConfusion h
        · split at h
          · injection h with h; omega
          · split at h
            · exact WriteRet.noConfusion h
            · injection h with h; omega)
      (by decide)⟩

/-! ## The command line: the claim -/

theorem main_switch_keeps_threshold (o o1 : main_options) (c : Char) (optarg : String)
    (h : main_switch o c optarg = some o1) : o1.cfg.threshold = o.cfg.threshold := by
  unfold main_switch at h
  by_cases hi : c = 'i'
  · rw [if_pos hi] at h; injection h with h; rw [← h]
  rw [if_neg hi] at h
  by_cases hp : c = 'p'
  · rw [if_pos hp] at h; injection h with h; rw [← h]
  rw [if_neg hp] at h
  by_cases hm : c = 'm'
  · rw [if_pos hm] at h; injection h with h; rw [← h]
  rw [if_neg hm] at h
  by_cases ha : c = 'a'
  · rw [if_pos ha] at h; injection h with h; rw [← h]
  rw [if_neg ha] at h
  by_cases hn : c = 'n'
  · rw [if_pos hn] at h; injection h with h; rw [← h]
  rw [if_neg hn] at h
  by_cases hCu : c = 'C'
  · rw [if_pos hCu] at h; injection h with h; rw [← h]
  rw [if_neg hCu] at h
  by_cases hDu : c = 'D'
  · rw [if_pos hDu] at h; injection h with h; rw [← h]
  rw [if_neg hDu] at h
  by_cases hWu : c = 'W'
  · rw [if_pos hWu] at h; injection h with h; rw [← h]
  rw [if_neg hWu] at h
  by_cases hLu : c = 'L'
  · rw [if_pos hLu] at h; injection h with h; rw [← h]
  rw [if_neg hLu] at h
  by_cases hQu : c = 'Q'
  · rw [if_pos hQu] at h; injection h with h; rw [← h]
  rw [if_neg hQu] at h
  by_cases hx : c = 'x'
  · rw [if_pos hx] at h; injection h with h; rw [← h]
  rw [if_neg hx] at h
  exact Option.noConfusion h

theorem main_option_loop_keeps_threshold :
    ∀ (fuel : Nat) (s : GetoptState) (o o1 : main_options) (paths : List String),
      main_option_loop fuel s o = some (ParseResult.proceed o1 paths) →
      o1.cfg.threshold = o.cfg.threshold := by
  intro fuel
  induction fuel with
  | zero => intro s o o1 paths h; simp [main_option_loop] at h
  | succ fuel ih =>
    intro s o o1 paths h
    simp only [main_option_loop] at h
    split at h
    · split at h
      · simp at h
      · simp only [Option.some.injEq, ParseResult.proceed.injEq] at h
        rw [h.1]
    · simp at h
    · split at h
      · simp at h
      · rename_i o2 hsw
        rw [ih _ _ _ _ h]
        exact main_switch_keeps_threshold _ _ _ _ hsw

/-- C20, evaluated: the option `-t`, documented by the usage text, is missing
from the option string `"ip:m:an:CDW:L:Qx:"`.  On `qlprint -t 100 label.png`
`getopt` returns `'?'` for `-t` and `main` ends in `syntax()`; the same command
line without `-t 100` proceeds to print with threshold 128; and whatever the
command line, a run that proceeds has `cfg.threshold = 128`. -/
theorem threshold_option_rejected :
    optstring_lookup MAIN_OPTSTRING 't' = none ∧
    getopt MAIN_OPTSTRING ⟨[], ["-t", "100", "label.png"]⟩
      = (GetoptRet.unknown, ⟨[], ["100", "label.png"]⟩) ∧
    main_parse ["qlprint", "-t", "100", "label.png"] = some ParseResult.usage_error ∧
    main_parse ["qlprint", "label.png"]
      = some (ParseResult.proceed main_options_initial ["label.png"]) ∧
    main_options_initial.cfg.threshold = 128 ∧
    (∀ (argv : List String) (o : main_options) (paths : List String),
      main_parse argv = some (ParseResult.proceed o paths) → o.cfg.threshold = 128) := by
  refine ⟨by decide, by decide, by decide, by decide, by decide, ?_⟩
  intro argv o paths h
  exact main_option_loop_keeps_threshold _ _ _ _ _ h

/-! ## Memory accesses of the raster transmission: the claim -/

/-- The index in `pack_bit_read` is the one `pack_bit` reads: `pack_bit` tests the
pixel at that index when there is one and leaves `out` alone otherwise. -/
theorem pack_bit_reads_at (img : ql_raster_image_t) (c t n out i : Nat) :
    pack_bit img c t n out i =
      match pack_bit_read img c n i with
      | some idx => if img.data.getD idx 0 < t then out ||| (1 <<< (7 - i)) else out
      | none => out := by
  unfold pack_bit pack_bit_read
  by_cases h : (n * 8 + i) % UNSIGNED_RANGE < img.height
  · simp only [h, if_true]
  · simp only [h, if_false]

/-- For a well-formed image no index computation wraps: the index read for bit
`i` of byte `n` of column `c` is `(8 * n + i) * width + c`, guarded by
`8 * n + i < height`. -/
theorem pack_bit_read_eq (img : ql_raster_image_t) (hwf : img.wf) (c n i : Nat)
    (hc : c < img.width) (hn : n < 65536) (hi : i < 8) :
    pack_bit_read img c n i
      = if 8 * n + i < img.height then some ((8 * n + i) * img.width + c) else none := by
  obtain ⟨hw, hh, -⟩ := hwf
  unfold pack_bit_read UNSIGNED_RANGE
  have e1 : (n * 8 + i) % 4294967296 = 8 * n + i := by
    rw [Nat.mod_eq_of_lt (by omega)]; omega
  simp only [e1]
  by_cases hr : 8 * n + i < img.height
  · have hmul : (8 * n + i) * img.width ≤ 65535 * 65535 :=
      Nat.mul_le_mul (by omega) (by omega)
    simp only [hr, if_true]
    rw [Nat.mod_eq_of_lt (by omega)]
  · simp only [hr, if_false]

theorem pixel_index_in_bounds (w h r c : Nat) (hr : r < h) (hc : c < w) :
    r * w + c < w * h := by
  have h1 : r * w + c < (r + 1) * w := by rw [Nat.add_mul, Nat.one_mul]; omega
  have h2 : (r + 1) * w ≤ h * w := Nat.mul_le_mul_right w hr
  calc r * w + c < (r + 1) * w := h1
    _ ≤ h * w := h2
    _ = w * h := Nat.mul_comm h w

theorem mem_pack_column_reads (bytes colno : Nat) (img : ql_raster_image_t) (idx : Nat) :
    idx ∈ pack_column_reads bytes colno img ↔
      ∃ n i, n < bytes ∧ i < 8 ∧ pack_bit_read img colno n i = some idx := by
  unfold pack_column_reads
  simp only [List.mem_flatMap, List.mem_range, List.mem_filterMap]
  constructor
  · rintro ⟨n, hn, i, hi, h⟩; exact ⟨n, i, hn, hi, h⟩
  · rintro ⟨n, i, hn, hi, h⟩; exact ⟨n, hn, i, hi, h⟩

/-- C21: raster transmission never reads outside the bitmap or writes outside the
frame.  For a well-formed image (data of exactly `width * height` bytes, `uint16_t`
dimensions, so heights up to 65535, also above `8 * dn`) that passes the width
check and a column `c < width`: every index `pack_column` reads is some
`(8 * n + i) * width + c` with `n < dn`, `i < 8`, `8 * n + i < height`, and is
below `width * height`, the length of the data; and every byte written through
`pack_column` lies at an offset from 3 to `dn + 2` of the frame, which has
`dn + 3` bytes. -/
theorem raster_transmission_memory_safe (status : ql_status_t) (img : ql_raster_image_t)
    (cfg : ql_print_cfg_t) (c : Nat) (hwf : img.wf)
    (_hw : img.width ≤ 8 * raster_block_size status) (hc : c < img.width) :
    (∀ idx, idx ∈ pack_column_reads (raster_block_size status) c img →
      (∃ n i, n < raster_block_size status ∧ i < 8 ∧ 8 * n + i < img.height ∧
        idx = (8 * n + i) * img.width + c) ∧
      idx < img.width * img.height ∧ idx < img.data.length) ∧
    (∀ n i, n < raster_block_size status → i < 8 → 8 * n + i < img.height →
      (8 * n + i) * img.width + c ∈ pack_column_reads (raster_block_size status) c img) ∧
    (∀ off, off ∈ raster_block_writes (raster_block_size status) →
      3 ≤ off ∧ off ≤ raster_block_size status + 2 ∧
      off < (raster_block (raster_block_size status) c img cfg).length) ∧
    (raster_block (raster_block_size status) c img cfg).length
      = raster_block_size status + 3 := by
  have hdn : raster_block_size status < 65536 := by
    rcases raster_block_size_cases status with h | h <;> omega
  refine ⟨?_, ?_, ?_, raster_block_length _ c img cfg⟩
  · intro idx hidx
    rw [mem_pack_column_reads] at hidx
    obtain ⟨n, i, hn, hi, hread⟩ := hidx
    rw [pack_bit_read_eq img hwf c n i hc (by omega) hi] at hread
    by_cases hr : 8 * n + i < img.height
    · simp only [hr, if_true, Option.some.injEq] at hread
      have hb := pixel_index_in_bounds img.width img.height (8 * n + i) c hr hc
      refine ⟨⟨n, i, hn, hi, hr, hread.symm⟩, ?_, ?_⟩
      · rw [← hread]; exact hb
      · rw [← hread, hwf.2.2]; exact hb
    · simp only [hr, if_false] at hread
      exact Option.noConfusion hread
  · intro n i hn hi hr
    rw [mem_pack_column_reads]
    refine ⟨n, i, hn, hi, ?_⟩
    rw [pack_bit_read_eq img hwf c n i hc (by omega) hi]
    simp only [hr, if_true]
  · intro off hoff
    simp only [raster_block_writes, pack_column_writes, List.mem_map, List.mem_range] at hoff
    obtain ⟨n, hn, rfl⟩ := hoff
    rw [raster_block_length]
    omega

/-- Witness of C21: the 1 x 721 image on a QL-570 (721 rows, more than the 720 of
a block): the last index read is `719`, within the 721 pixels. -/
theorem raster_transmission_memory_safe_witness :
    img_too_tall.height > 8 * raster_block_size status_ql570 ∧
    (∀ idx, idx ∈ pack_column_reads (raster_block_size status_ql570) 0 img_too_tall →
      idx < img_too_tall.width * img_too_tall.height) ∧
    (8 * 89 + 7) * img_too_tall.width + 0
      ∈ pack_column_reads (raster_block_size status_ql570) 0 img_too_tall :=
  ⟨by decide,
    fun idx h => ((raster_transmission_memory_safe status_ql570 img_too_tall cfg_default 0
      (by decide) (by decide) (by decide)).1 idx h).2.1,
    (raster_transmission_memory_safe status_ql570 img_too_tall cfg_default 0
      (by decide) (by decide) (by decide)).2.1 89 7 (by decide) (by decide) (by decide)⟩

/-! ## The status report: proofs and the claim -/

theorem print_status_labels (malloc_ok : Bool) (st st1 : decoder_state) (status : ql_status_t)
    (flags : Nat) (out : List (String × String))
    (h : ql_decode_print_status malloc_ok st (some status) flags = some (out, st1)) :
    out.map (fun l => l.1) = expected_labels status flags := by
  simp only [ql_decode_print_status] at h
  cases hm : print_model_section st status flags with
  | none => simp [hm] at h
  | some r1 =>
    obtain ⟨out1, s1⟩ := r1
    simp only [hm] at h
    cases hmed : print_media_section (print_error_section malloc_ok s1 status flags).2 status
        flags with
    | none => simp [hmed] at h
    | some r4 =>
      obtain ⟨out4, s4⟩ := r4
      simp only [hmed, Option.some.injEq, Prod.mk.injEq] at h
      obtain ⟨hout, -⟩ := h
      have l1 : out1.map (fun l => l.1)
          = if flags &&& QL_DECODE_MODEL ≠ 0 then ["Printer"] else [] := by
        unfold print_model_section at hm
        by_cases hf : flags &&& QL_DECODE_MODEL ≠ 0
        · rw [if_pos hf] at hm
          cases hd : ql_decode_model st status with
          | none => simp [hd] at hm
          | some r =>
            obtain ⟨label, s⟩ := r
            simp only [hd, Option.some.injEq, Prod.mk.injEq] at hm
            rw [← hm.1, if_pos hf]; rfl
        · rw [if_neg hf] at hm
          simp only [Option.some.injEq, Prod.mk.injEq] at hm
          rw [← hm.1, if_neg hf]; rfl
      have l2 : (print_mode_section status flags).map (fun l => l.1)
          = if flags &&& QL_DECODE_MODE ≠ 0 then ["Mode"] else [] := by
        unfold print_mode_section
        by_cases hf : flags &&& QL_DECODE_MODE ≠ 0
        · rw [if_pos hf, if_pos hf]; rfl
        · rw [if_neg hf, if_neg hf]; rfl
      have l3 : (print_error_section malloc_ok s1 status flags).1.map (fun l => l.1)
          = if flags &&& QL_DECODE_ERROR ≠ 0 then ["Errors"] else [] := by
        unfold print_error_section
        by_cases hf : flags &&& QL_DECODE_ERROR ≠ 0
        · rw [if_pos hf, if_pos hf]; rfl
        · rw [if_neg hf, if_neg hf]; rfl
      have l4 : out4.map (fun l => l.1)
          = if flags &&& QL_DECODE_MEDIA ≠ 0 then
              ["Media type", "Media width (mm)"] ++
                (if status.media_type ≠ QL_MEDIA_TYPE_CONTINUOUS then ["Media length (mm)"]
                 else [])
            else [] := by
        unfold print_media_section at hmed
        by_cases hf : flags &&& QL_DECODE_MEDIA ≠ 0
        · rw [if_pos hf] at hmed
          cases hd : ql_decode_media_type (print_error_section malloc_ok s1 status flags).2
              status with
          | none => simp [hd] at hmed
          | some r =>
            obtain ⟨label, s⟩ := r
            simp only [hd, Option.some.injEq, Prod.mk.injEq] at hmed
            rw [← hmed.1, if_pos hf]
            by_cases hc : status.media_type ≠ QL_MEDIA_TYPE_CONTINUOUS
            · rw [if_pos hc, if_pos hc]; rfl
            · rw [if_neg hc, if_neg hc]; rfl
        · rw [if_neg hf] at hmed
          simp only [Option.some.injEq, Prod.mk.injEq] at hmed
          rw [← hmed.1, if_neg hf]; rfl
      rw [← hout]
      simp only [List.map_append, l1, l2, l3, l4, expected_labels]

theorem expected_labels_facts (status : ql_status_t) (flags : Nat) :
    (expected_labels status flags).Sublist report_labels ∧
    ("Media length (mm)" ∈ expected_labels status flags ↔
      (flags &&& QL_DECODE_MEDIA ≠ 0 ∧ status.media_type ≠ QL_MEDIA_TYPE_CONTINUOUS)) ∧
    ("Media type" ∈ expected_labels status flags ↔ flags &&& QL_DECODE_MEDIA ≠ 0) ∧
    ("Media width (mm)" ∈ expected_labels status flags ↔ flags &&& QL_DECODE_MEDIA ≠ 0) := by
  unfold expected_labels report_labels
  by_cases h1 : flags &&& QL_DECODE_MODEL ≠ 0 <;>
  by_cases h2 : flags &&& QL_DECODE_MODE ≠ 0 <;>
  by_cases h3 : flags &&& QL_DECODE_ERROR ≠ 0 <;>
  by_cases h4 : flags &&& QL_DECODE_MEDIA ≠ 0 <;>
  by_cases h5 : status.media_type ≠ QL_MEDIA_TYPE_CONTINUOUS <;>
  simp only [h1, h2, h3, h4, h5, if_true, if_false, List.nil_append, List.append_nil,
    List.cons_append, and_true, and_false, true_and, false_and, not_true_eq_false,
    not_false_eq_true, ne_eq] <;>
  decide

theorem pristine_media_dollar : strchr decoder_pristine.media_buf '$' = some 16 := by
  decide

theorem decode_model_keeps_other_buffers (st st1 : decoder_state) (status : ql_status_t)
    (label : String) (h : ql_decode_model st status = some (label, st1)) :
    st1.media_buf = st.media_buf ∧ st1.errors_buf = st.errors_buf := by
  unfold ql_decode_model at h
  by_cases h0 : status.model_code = 0x31
  · rw [if_pos h0] at h
    simp only [Option.some.injEq, Prod.mk.injEq] at h
    rw [← h.2]; exact ⟨rfl, rfl⟩
  rw [if_neg h0] at h
  by_cases h1 : status.model_code = 0x32
  · rw [if_pos h1] at h
    simp only [Option.some.injEq, Prod.mk.injEq] at h
    rw [← h.2]; exact ⟨rfl, rfl⟩
  rw [if_neg h1] at h
  by_cases h2 : status.model_code = 0x33
  · rw [if_pos h2] at h
    simp only [Option.some.injEq, Prod.mk.injEq] at h
    rw [← h.2]; exact ⟨rfl, rfl⟩
  rw [if_neg h2] at h
  by_cases h3 : status.model_code = 0x34
  · rw [if_pos h3] at h
    simp only [Option.some.injEq, Prod.mk.injEq] at h
    rw [← h.2]; exact ⟨rfl, rfl⟩
  rw [if_neg h3] at h
  by_cases h4 : status.model_code = 0x35
  · rw [if_pos h4] at h
    simp only [Option.some.injEq, Prod.mk.injEq] at h
    rw [← h.2]; exact ⟨rfl, rfl⟩
  rw [if_neg h4] at h
  by_cases h5 : status.model_code = 0x36
  · rw [if_pos h5] at h
    simp only [Option.some.injEq, Prod.mk.injEq] at h
    rw [← h.2]; exact ⟨rfl, rfl⟩
  rw [if_neg h5] at h
  by_cases h6 : status.model_code = 0x37
  · rw [if_pos h6] at h
    simp only [Option.some.injEq, Prod.mk.injEq] at h
    rw [← h.2]; exact ⟨rfl, rfl⟩
  rw [if_neg h6] at h
  by_cases h7 : status.model_code = 0x4f
  · rw [if_pos h7] at h
    simp only [Option.some.injEq, Prod.mk.injEq] at h
    rw [← h.2]; exact ⟨rfl, rfl⟩
  rw [if_neg h7] at h
  by_cases h8 : status.model_code = 0x50
  · rw [if_pos h8] at h
    simp only [Option.some.injEq, Prod.mk.injEq] at h
    rw [← h.2]; exact ⟨rfl, rfl⟩
  rw [if_neg h8] at h
  by_cases h9 : status.model_code = 0x51
  · rw [if_pos h9] at h
    simp only [Option.some.injEq, Prod.mk.injEq] at h
    rw [← h.2]; exact ⟨rfl, rfl⟩
  rw [if_neg h9] at h
  cases hs : sprintf_at_dollar st.model_buf status.model_code with
  | none => simp [hs] at h
  | some buf =>
    simp only [hs, Option.some.injEq, Prod.mk.injEq] at h
    rw [← h.2]; exact ⟨rfl, rfl⟩

theorem decode_model_defined (st : decoder_state) (status : ql_status_t)
    (hbuf : st.model_buf = decoder_pristine.model_buf) :
    ∃ label st1, ql_decode_model st status = some (label, st1) := by
  unfold ql_decode_model
  by_cases h0 : status.model_code = 0x31
  · rw [if_pos h0]; exact ⟨_, _, rfl⟩
  rw [if_neg h0]
  by_cases h1 : status.model_code = 0x32
  · rw [if_pos h1]; exact ⟨_, _, rfl⟩
  rw [if_neg h1]
  by_cases h2 : status.model_code = 0x33
  · rw [if_pos h2]; exact ⟨_, _, rfl⟩
  rw [if_neg h2]
  by_cases h3 : status.model_code = 0x34
  · rw [if_pos h3]; exact ⟨_, _, rfl⟩
  rw [if_neg h3]
  by_cases h4 : status.model_code = 0x35
  · rw [if_pos h4]; exact ⟨_, _, rfl⟩
  rw [if_neg h4]
  by_cases h5 : status.model_code = 0x36
  · rw [if_pos h5]; exact ⟨_, _, rfl⟩
  rw [if_neg h5]
  by_cases h6 : status.model_code = 0x37
  · rw [if_pos h6]; exact ⟨_, _, rfl⟩
  rw [if_neg h6]
  by_cases h7 : status.model_code = 0x4f
  · rw [if_pos h7]; exact ⟨_, _, rfl⟩
  rw [if_neg h7]
  by_cases h8 : status.model_code = 0x50
  · rw [if_pos h8]; exact ⟨_, _, rfl⟩
  rw [if_neg h8]
  by_cases h9 : status.model_code = 0x51
  · rw [if_pos h9]; exact ⟨_, _, rfl⟩
  rw [if_neg h9]
  unfold sprintf_at_dollar
  rw [hbuf, pristine_model_dollar.1]
  exact ⟨_, _, rfl⟩

theorem decode_media_type_defined (st : decoder_state) (status : ql_status_t)
    (hbuf : st.media_buf = decoder_pristine.media_buf) :
    ∃ label st1, ql_decode_media_type st status = some (label, st1) := by
  unfold ql_decode_media_type
  by_cases h0 : status.media_type = QL_MEDIA_TYPE_NO_MEDIA
  · rw [if_pos h0]; exact ⟨_, _, rfl⟩
  rw [if_neg h0]
  by_cases h1 : status.media_type = QL_MEDIA_TYPE_CONTINUOUS
      ∨ status.media_type = QL_MEDIA_TYPE_CONTINUOUS_ALT
  · rw [if_pos h1]; exact ⟨_, _, rfl⟩
  rw [if_neg h1]
  by_cases h2 : status.media_type = QL_MEDIA_TYPE_DIECUT_LABELS
      ∨ status.media_type = QL_MEDIA_TYPE_DIECUT_LABELS_ALT
  · rw [if_pos h2]; exact ⟨_, _, rfl⟩
  rw [if_neg h2]
  unfold sprintf_at_dollar
  rw [hbuf, pristine_media_dollar]
  exact ⟨_, _, rfl⟩

theorem decode_errors_keeps_media_buf (malloc_ok : Bool) (st : decoder_state)
    (status : ql_status_t) : (ql_decode_errors malloc_ok st status).2.media_buf = st.media_buf := by
  unfold ql_decode_errors
  by_cases h : st.errors_buf = none ∧ malloc_ok = false
  · rw [if_pos h]
  · rw [if_neg h]

/-- From decoder buffers that still hold their placeholders (in particular on a
first call) `ql_decode_print_status` is defined, whatever the status and flags. -/
theorem print_status_defined (malloc_ok : Bool) (st : decoder_state) (status : ql_status_t)
    (flags : Nat) (hmodel : st.model_buf = decoder_pristine.model_buf)
    (hmedia : st.media_buf = decoder_pristine.media_buf) :
    ∃ out st1, ql_decode_print_status malloc_ok st (some status) flags = some (out, st1) := by
  have hsec1 : ∃ out1 s1, print_model_section st status flags = some (out1, s1) ∧
      s1.media_buf = st.media_buf := by
    unfold print_model_section
    by_cases hf : flags &&& QL_DECODE_MODEL ≠ 0
    · rw [if_pos hf]
      obtain ⟨label, s1, hd⟩ := decode_model_defined st status hmodel
      rw [hd]
      exact ⟨_, _, rfl, (decode_model_keeps_other_buffers st s1 status label hd).1⟩
    · rw [if_neg hf]
      exact ⟨_, _, rfl, rfl⟩
  obtain ⟨out1, s1, h1, hs1⟩ := hsec1
  have hs3 : (print_error_section malloc_ok s1 status flags).2.media_buf
      = decoder_pristine.media_buf := by
    unfold print_error_section
    by_cases hf : flags &&& QL_DECODE_ERROR ≠ 0
    · rw [if_pos hf]
      simp only
      rw [decode_errors_keeps_media_buf, hs1, hmedia]
    · rw [if_neg hf]
      simp only
      rw [hs1, hmedia]
  have hsec4 : ∃ out4 s4, print_media_section (print_error_section malloc_ok s1 status flags).2
      status flags = some (out4, s4) := by
    unfold print_media_section
    by_cases hf : flags &&& QL_DECODE_MEDIA ≠ 0
    · rw [if_pos hf]
      obtain ⟨label, s4, hd⟩ := decode_media_type_defined _ status hs3
      rw [hd]
      exact ⟨_, _, rfl⟩
    · rw [if_neg hf]
      exact ⟨_, _, rfl⟩
  obtain ⟨out4, s4, h4⟩ := hsec4
  simp only [ql_decode_print_status, h1, h4]
  exact ⟨_, _, rfl⟩

/-- C22: in `ql_decode_print_status` the lines appear in the fixed order Printer,
Mode, Errors, Media type, Media width, Media length; with `QL_DECODE_MEDIA` set the
media type and width lines are written and the `"Media length (mm)"` line is
written if and only if `media_type != 0x0a`, so it is still written for the
alternate continuous code `0x4a`, labelled `"continuous-length-tape"` as well; with
the flag clear no media line is written.  On a first call the function is defined
for every status and all flags. -/
theorem print_status_media_length_line (malloc_ok : Bool) (st : decoder_state)
    (status : ql_status_t) (flags : Nat) :
    (∀ (out : List (String × String)) (st1 : decoder_state),
      ql_decode_print_status malloc_ok st (some status) flags = some (out, st1) →
      (out.map (fun l => l.1)).Sublist
        ["Printer", "Mode", "Errors", "Media type", "Media width (mm)", "Media length (mm)"] ∧
      ("Media length (mm)" ∈ out.map (fun l => l.1) ↔
        (flags &&& 0x04 ≠ 0 ∧ status.media_type ≠ 0x0a)) ∧
      (flags &&& 0x04 ≠ 0 →
        "Media type" ∈ out.map (fun l => l.1) ∧ "Media width (mm)" ∈ out.map (fun l => l.1)) ∧
      (flags &&& 0x04 = 0 →
        "Media type" ∉ out.map (fun l => l.1) ∧ "Media width (mm)" ∉ out.map (fun l => l.1) ∧
        "Media length (mm)" ∉ out.map (fun l => l.1))) ∧
    (∃ out st1,
      ql_decode_print_status malloc_ok decoder_pristine (some status) flags = some (out, st1)) ∧
    ql_decode_print_status malloc_ok st none flags = some ([], st) ∧
    (ql_decode_print_status true decoder_pristine (some (status_with_codes 0x32 0x4a)) 0x04).map
        (fun r => r.1)
      = some [("Media type", "continuous-length-tape"), ("Media width (mm)", "0"),
          ("Media length (mm)", "0")] ∧
    (ql_decode_print_status true decoder_pristine (some (status_with_codes 0x32 0x0a)) 0x04).map
        (fun r => r.1)
      = some [("Media type", "continuous-length-tape"), ("Media width (mm)", "0")] ∧
    render_line ("Media length (mm)", "0") = "Media length (mm): 0\n" ∧
    render_line ("Printer", "QL-570") = "          Printer: QL-570\n" := by
  refine ⟨?_, print_status_defined malloc_ok decoder_pristine status flags rfl rfl, rfl,
    by decide, by decide, by decide, by decide⟩
  intro out st1 h
  rw [print_status_labels malloc_ok st st1 status flags out h]
  obtain ⟨hsub, hlen, htype, hwidth⟩ := expected_labels_facts status flags
  refine ⟨hsub, hlen, fun hf => ⟨htype.mpr hf, hwidth.mpr hf⟩, fun hf => ⟨?_, ?_, ?_⟩⟩
  · intro hmem; exact (htype.mp hmem) hf
  · intro hmem; exact (hwidth.mp hmem) hf
  · intro hmem; exact (hlen.mp hmem).1 hf

/-- Witness of C22: the full report (all four flags) of a QL-570 with continuous
tape (media type `0x0a`) on a first call has the five lines Printer, Mode, Errors,
Media type and Media width, without the length line. -/
theorem print_status_media_length_line_witness :
    (ql_decode_print_status true decoder_pristine (some status_ql570) 0x0f).map (fun r => r.1)
      = some [("Printer", "QL-570"), ("Mode", "no-auto-cut"), ("Errors", "none"),
          ("Media type", "continuous-length-tape"), ("Media width (mm)", "62")] ∧
    ¬ ("Media length (mm)" ∈ [("Printer", "QL-570"), ("Mode", "no-auto-cut"), ("Errors", "none"),
          ("Media type", "continuous-length-tape"), ("Media width (mm)", "62")].map
            (fun l => l.1)) := by
  have hrun : ql_decode_print_status true decoder_pristine (some status_ql570) 0x0f
      = some ([("Printer", "QL-570"), ("Mode", "no-auto-cut"), ("Errors", "none"),
          ("Media type", "continuous-length-tape"), ("Media width (mm)", "62")],
        { decoder_pristine with errors_buf := some [] }) := by decide
  refine ⟨by rw [hrun]; rfl, fun hmem => ?_⟩
  have h := ((print_status_media_length_line true decoder_pristine status_ql570 0x0f).1
    _ _ hrun).2.1.mp hmem
  exact h.2 (by decide)

end Qlprint
